import Mathlib

/-! # WeatherStationV5: the forecast resampler and graph renderer of `GraphUtils.cpp`

A shallow embedding of `calculateGraphDataFromForecastRaw`, `lerpFloat`, `smoothArray`,
`findMinMax`, `setGraphArea` and `drawGraph` (`src/GraphUtils.cpp`), followed by theorems
about them.

Modelling conventions.

* A C `float`/`double` is a `CFloat := Option ℚ`: `none` is NaN, `some q` is the
  number `q`, and arithmetic is exact rational arithmetic.  Every operation
  propagates NaN, every comparison with NaN is false.  Infinities are not
  modelled.  Rounding is modelled where a statement depends on it: the smoothing
  stage has a second embedding, `smoothArray32` / `calculateSmooth32`, in which
  each float operation of `smoothArray` is rounded to binary32 by `fl32`.
* `long`/`time_t`/`int` values are unbounded integers (`Int`); epoch seconds and
  UTC offsets stay far from the limits of the machine types.
* A global C array `T a[GRAPH_HOURS]` is a function `Nat → T`; the cells
  `0 .. GRAPH_HOURS-1` are the array, the others are never read or written.
* The serial debug output of the source has no effect on the state and is left out.
* The display is a log: `drawGraph` returns the calls it makes on `tft`, in order.
-/

namespace WeatherStation

/-! ## Floats -/

/-- C `float` with exact arithmetic; `none` is NaN. -/
abbrev CFloat := Option ℚ

/-- The `NAN` constant of `math.h`. -/
def NAN : CFloat := none

/-- The `isnan` test of `math.h`. -/
def isnan (x : CFloat) : Bool := x.isNone

/-- Float addition `a + b` (NaN propagates). -/
def fadd (a b : CFloat) : CFloat :=
  match a, b with
  | some x, some y => some (x + y)
  | _, _ => none

/-- Float subtraction `a - b` (NaN propagates). -/
def fsub (a b : CFloat) : CFloat :=
  match a, b with
  | some x, some y => some (x - y)
  | _, _ => none

/-- Float multiplication `a * b` (NaN propagates). -/
def fmul (a b : CFloat) : CFloat :=
  match a, b with
  | some x, some y => some (x * y)
  | _, _ => none

/-- Float division `a / b` (NaN propagates; a zero divisor gives no finite number). -/
def fdiv (a b : CFloat) : CFloat :=
  match a, b with
  | some x, some y => if y = 0 then none else some (x / y)
  | _, _ => none

/-! ## Data model -/

/-- The constant `GRAPH_HOURS` of `GraphUtils.h`: local hours 9..21 inclusive. -/
abbrev GRAPH_HOURS : Nat := 13

/-- The constant `MAX_SAMPLES` local to `calculateGraphDataFromForecastRaw`. -/
abbrev MAX_SAMPLES : Nat := 256

/-- The exported global arrays of `GraphUtils.cpp` (lines 13-18). -/
structure GraphState where
  graphTemp : Nat → CFloat
  graphWind : Nat → CFloat
  graphPop : Nat → CFloat
  graphValid : Nat → Bool
  graphHourLabels : Nat → Int

/-- The local `struct Sample` of `calculateGraphDataFromForecastRaw`. -/
structure Sample where
  dt : Int
  local_ts : Int
  temp : CFloat
  wind : CFloat
  pop : CFloat
  deriving DecidableEq

/-- One element of the forecast `list` as the JSON accessors see it:
`dt` is `item["dt"]` when present, `main` is `some (item["main"]["temp"] | NAN)` when the
key `"main"` is present, `windSpeed` is `item["wind"]["speed"] | NAN`, `pop` is
`item["pop"] | NAN`. -/
structure ForecastItem where
  dt : Option Int
  main : Option CFloat
  windSpeed : CFloat
  pop : CFloat

/-- The parsed forecast document: `timezone` is `doc["city"]["timezone"]` when present,
`list` is `doc["list"]` when it is an array. -/
structure ForecastDoc where
  timezone : Option Int
  list : Option (List ForecastItem)

/-- What `getCachedForecastRaw` and `deserializeJson` hand to the resampler: the length
of the raw payload and the parsed document (`none` when deserialisation reports an error). -/
structure CachedForecast where
  rawLength : Nat
  parsed : Option ForecastDoc

/-- The fields of `struct tm` the resampler reads. -/
structure Tm where
  tm_hour : Int
  tm_min : Int
  tm_sec : Int

/-- The libc `gmtime_r`, restricted to the time-of-day fields: the second of the day is the
non-negative remainder of the epoch modulo 86400. -/
def gmtime_r (t : Int) : Tm :=
  let rem := t % 86400
  { tm_hour := rem / 3600, tm_min := rem % 3600 / 60, tm_sec := rem % 60 }

/-! ## Control flow -/

/-- The loop `for (int i = 0; i < n; ++i) body(i)` on a state `σ`: running `n+1` rounds is
running the first `n` rounds and then the body at `i = n`. -/
def forLoop {σ : Type} : Nat → (Nat → σ → σ) → σ → σ
  | 0, _, s => s
  | n + 1, body, s => body n (forLoop n body s)

/-- An array write `a[i] = v`. -/
def store {α : Type} (a : Nat → α) (i : Nat) (v : α) : Nat → α :=
  fun j => if j = i then v else a j

/-! ## Helpers of `GraphUtils.cpp` -/

/-- The helper `lerpFloat(float a, float b, double t)` (lines 558-560):
`a + (b - a) * (float)t`. -/
def lerpFloat (a b : CFloat) (t : ℚ) : CFloat :=
  fadd a (fmul (fsub b a) (some t))

/-- The second loop of `smoothArray` (lines 567-584): one round for index `i`, reading the
copy `tmp` and writing `arr`. -/
def smoothStep (tmp : Nat → CFloat) (valid : Nat → Bool) (n : Nat) (i : Nat)
    (arr : Nat → CFloat) : Nat → CFloat :=
  if !valid i || isnan (tmp i) then arr
  else
    let center := tmp i
    let hasLeft := decide (i > 0) && valid (i - 1) && !isnan (tmp (i - 1))
    let left := if hasLeft then tmp (i - 1) else NAN
    let hasRight := decide ((i : Int) < (n : Int) - 1) && valid (i + 1) && !isnan (tmp (i + 1))
    let right := if hasRight then tmp (i + 1) else NAN
    let sum := fmul center (some 2)
    let cnt : Nat := 2
    let sum := if hasLeft then fadd sum left else sum
    let cnt := if hasLeft then cnt + 1 else cnt
    let sum := if hasRight then fadd sum right else sum
    let cnt := if hasRight then cnt + 1 else cnt
    store arr i (fdiv sum (some (cnt : ℚ)))

/-- The helper `smoothArray(float *arr, bool *valid, int n)` (lines 563-585): copy `arr` to
`tmp`, then one pass of weighted averaging. The result is the new content of `arr`. -/
def smoothArray (arr : Nat → CFloat) (valid : Nat → Bool) (n : Nat) : Nat → CFloat :=
  let tmp := forLoop n (fun i t => store t i (arr i)) (fun _ => NAN)
  forLoop n (smoothStep tmp valid n) arr

/-! ## `calculateGraphDataFromForecastRaw` -/

/-- One round of the initialisation loop (lines 41-45). -/
def initStep (i : Nat) (st : GraphState) : GraphState :=
  { graphTemp := store st.graphTemp i NAN
    graphWind := store st.graphWind i NAN
    graphPop := store st.graphPop i NAN
    graphValid := store st.graphValid i false
    graphHourLabels := store st.graphHourLabels i (9 + (i : Int)) }

/-- The initialisation loop (lines 40-46). -/
def initOutputs (st : GraphState) : GraphState :=
  forLoop GRAPH_HOURS initStep st

/-- The body of the sample-building loop (lines 101-113) for one list item. -/
def mkSample (tz_offset : Int) (item : ForecastItem) : Sample :=
  let dt := item.dt.getD 0
  let local_ts := dt + tz_offset
  let temp := match item.main with
    | some t => t
    | none => NAN
  { dt := dt, local_ts := local_ts, temp := temp, wind := item.windSpeed, pop := item.pop }

/-- The sample-building loop (lines 99-114): at most `MAX_SAMPLES` items are read, in order. -/
def buildSamples (tz_offset : Int) (list : List ForecastItem) : List Sample :=
  (list.take MAX_SAMPLES).map (mkSample tz_offset)

/-- The bracket scan (lines 190-193), from sample index `s` on, over the samples that are
left: `idx0` is overwritten by every sample at or before the target, the loop breaks at the
first sample at or after the target. -/
def scanFrom (target_ts : Int) : List Sample → Int → Int → Int → Int × Int
  | [], _, idx0, idx1 => (idx0, idx1)
  | x :: rest, s, idx0, idx1 =>
    let idx0 := if x.local_ts ≤ target_ts then s else idx0
    if x.local_ts ≥ target_ts then (idx0, s)
    else scanFrom target_ts rest (s + 1) idx0 idx1

/-- The bracket scan followed by the edge clamp (lines 189-198). -/
def findBrackets (samples : List Sample) (target_ts : Int) : Int × Int :=
  let r := scanFrom target_ts samples 0 (-1) (-1)
  let idx0 := if r.1 = -1 then 0 else r.1
  let idx1 := if r.2 = -1 then (samples.length : Int) - 1 else r.2
  (idx0, idx1)

/-- The array read `samples[idx]`; an index outside the array reads a blank sample. -/
def sampleAt (samples : List Sample) (idx : Int) : Sample :=
  if idx < 0 then { dt := 0, local_ts := 0, temp := NAN, wind := NAN, pop := NAN }
  else samples.getD idx.toNat { dt := 0, local_ts := 0, temp := NAN, wind := NAN, pop := NAN }

/-- The lower bracket sample `samples[idx0]` of a target, read after the edge clamp
(line 201). -/
abbrev bracket0 (samples : List Sample) (target_ts : Int) : Sample :=
  sampleAt samples (findBrackets samples target_ts).1

/-- The upper bracket sample `samples[idx1]` of a target, read after the edge clamp
(line 202). -/
abbrev bracket1 (samples : List Sample) (target_ts : Int) : Sample :=
  sampleAt samples (findBrackets samples target_ts).2

/-- The clamped interpolation weight (lines 214-217). -/
def clampedAlpha (target_ts t0 t1 : Int) : ℚ :=
  let alpha : ℚ := ((target_ts - t0 : Int) : ℚ) / ((t1 - t0 : Int) : ℚ)
  let alpha := if alpha < 0 then 0 else alpha
  if alpha > 1 then 1 else alpha

/-- The per-metric rule of lines 219-235, written three times in the source: interpolate when
both sides are numbers, else take the side that is a number, else stay NaN. -/
def interpMetric (v0 v1 : CFloat) (alpha : ℚ) : CFloat :=
  if !isnan v0 && !isnan v1 then lerpFloat v0 v1 alpha
  else if !isnan v0 then v0
  else if !isnan v1 then v1
  else NAN

/-- The values `(tempVal, windVal, popVal)` of one target hour (lines 201-236). -/
def hourValues (samples : List Sample) (target_ts : Int) : CFloat × CFloat × CFloat :=
  let b := findBrackets samples target_ts
  let idx0 := b.1
  let idx1 := b.2
  let t0 := (sampleAt samples idx0).local_ts
  let t1 := (sampleAt samples idx1).local_ts
  if idx0 = idx1 ∨ t1 = t0 then
    ((sampleAt samples idx0).temp, (sampleAt samples idx0).wind, (sampleAt samples idx0).pop)
  else
    let alpha := clampedAlpha target_ts t0 t1
    (interpMetric (sampleAt samples idx0).temp (sampleAt samples idx1).temp alpha,
     interpMetric (sampleAt samples idx0).wind (sampleAt samples idx1).wind alpha,
     interpMetric (sampleAt samples idx0).pop (sampleAt samples idx1).pop alpha)

/-- The target timestamp of grid index `i` (lines 185-186): local hour `H = 9 + i`. -/
def targetTs (midnight_local : Int) (i : Nat) : Int :=
  let H : Int := 9 + (i : Int)
  midnight_local + H * 3600

/-- One round of the main loop (lines 184-251), on the arrays and the local `anyValid`. -/
def hourStep (samples : List Sample) (midnight_local : Int) (i : Nat)
    (p : GraphState × Bool) : GraphState × Bool :=
  let st := p.1
  let v := hourValues samples (targetTs midnight_local i)
  let tempVal := v.1
  let windVal := v.2.1
  let popVal := v.2.2
  let valid := !(isnan tempVal && isnan windVal && isnan popVal)
  if valid then
    ({ st with
        graphValid := store st.graphValid i valid
        graphTemp := store st.graphTemp i tempVal
        graphWind := store st.graphWind i windVal
        graphPop := store st.graphPop i popVal }, true)
  else
    ({ st with
        graphValid := store st.graphValid i valid
        graphTemp := store st.graphTemp i NAN
        graphWind := store st.graphWind i NAN
        graphPop := store st.graphPop i NAN }, p.2)

/-- The local midnight of the city (lines 83-88), from the current epoch `now_t` and the
offset `tz_offset`. -/
def midnightLocal (now_t tz_offset : Int) : Int :=
  let city_now := now_t + tz_offset
  let tm_city := gmtime_r city_now
  city_now - (tm_city.tm_hour * 3600 + tm_city.tm_min * 60 + tm_city.tm_sec)

/-- The optional smoothing (lines 288-292): the three arrays one after the other, all with
`graphValid`. -/
def smoothAll (st : GraphState) : GraphState :=
  let st := { st with graphTemp := smoothArray st.graphTemp st.graphValid GRAPH_HOURS }
  let st := { st with graphWind := smoothArray st.graphWind st.graphValid GRAPH_HOURS }
  { st with graphPop := smoothArray st.graphPop st.graphValid GRAPH_HOURS }

/-- The function `calculateGraphDataFromForecastRaw(bool smooth)`: `cache` is what the
forecast cache and the JSON parser deliver, `now_t` is `time(NULL)`, `st` the global arrays
before the call. The result is the return value and the global arrays after the call. -/
def calculateGraphDataFromForecastRaw (cache : CachedForecast) (now_t : Int) (smooth : Bool)
    (st : GraphState) : Bool × GraphState :=
  let st := initOutputs st
  if cache.rawLength < 10 then (false, st)
  else
    match cache.parsed with
    | none => (false, st)
    | some doc =>
      match doc.list with
      | none => (false, st)
      | some list =>
        let tz_offset := doc.timezone.getD 0
        let midnight_local := midnightLocal now_t tz_offset
        let samples := buildSamples tz_offset list
        let sampleCount := samples.length
        if sampleCount = 0 then (false, st)
        else
          let r := forLoop GRAPH_HOURS (hourStep samples midnight_local) (st, false)
          let st := r.1
          let anyValid := r.2
          let st := if smooth && anyValid then smoothAll st else st
          (anyValid, st)

/-! ## Float comparisons and conversions used by the renderer -/

/-- Float comparison `a < b` (false when a side is NaN). -/
def flt (a b : CFloat) : Bool :=
  match a, b with
  | some x, some y => decide (x < y)
  | _, _ => false

/-- Float comparison `a <= b` (false when a side is NaN). -/
def fle (a b : CFloat) : Bool :=
  match a, b with
  | some x, some y => decide (x ≤ y)
  | _, _ => false

/-- Float comparison `a == b` (false when a side is NaN). -/
def feq (a b : CFloat) : Bool :=
  match a, b with
  | some x, some y => decide (x = y)
  | _, _ => false

/-- The conversion `float(i)` of an `int`. -/
def ofInt (i : Int) : CFloat := some (i : ℚ)

/-- The `round` of `math.h` on a number: to the nearest integer, halves away from zero. -/
def cround (q : ℚ) : Int :=
  if 0 ≤ q then ⌊q + 1 / 2⌋ else -⌊-q + 1 / 2⌋

/-- The expression `(int)round(x)`. The conversion of NaN to `int` is undefined in C; the
model gives 0 there and no theorem below rests on that value. -/
def roundToInt (x : CFloat) : Int :=
  match x with
  | some q => cround q
  | none => 0

/-- The expression `round(x)` as a float. -/
def fround (x : CFloat) : CFloat :=
  match x with
  | some q => some ((cround q : Int) : ℚ)
  | none => none

/-! ## The renderer: `setGraphArea`, `findMinMax`, `drawGraph` -/

/-- The graph area state `g_x, g_y, g_w, g_h` (line 21). -/
structure GraphArea where
  g_x : Int
  g_y : Int
  g_w : Int
  g_h : Int
  deriving DecidableEq, Repr

/-- The function `setGraphArea(int x, int y, int w, int h)` (lines 320-322). -/
def setGraphArea (x y w h : Int) : GraphArea :=
  { g_x := x, g_y := y, g_w := w, g_h := h }

/-- A 16-bit display colour. -/
abbrev Color := Nat

/-- The colour `COL_BG = ST77XX_BLACK`. -/
def COL_BG : Color := 0x0000

/-- The colour `COL_AXIS = ST77XX_WHITE`. -/
def COL_AXIS : Color := 0xFFFF

/-- The colour `COL_GRID` (dim grey). -/
def COL_GRID : Color := 0x4208

/-- The colour `COL_TEMP = ST77XX_RED`. -/
def COL_TEMP : Color := 0xF800

/-- The colour `COL_WIND = ST77XX_CYAN`. -/
def COL_WIND : Color := 0x07FF

/-- The colour `COL_POP = ST77XX_YELLOW`. -/
def COL_POP : Color := 0xFFE0

/-- The colour `COL_MARKER = ST77XX_MAGENTA`. -/
def COL_MARKER : Color := 0xF81F

/-- The colour `COL_TEXT = ST77XX_WHITE`. -/
def COL_TEXT : Color := 0xFFFF

/-- An argument of a `snprintf` format. -/
inductive PrintArg where
  | int (i : Int)
  | float (x : CFloat)
  | str (s : String)
  deriving DecidableEq, Repr

/-- A text handed to `tft.print`: the `snprintf` format and its arguments (a literal text has
no arguments). -/
structure Text where
  fmt : String
  args : List PrintArg
  deriving DecidableEq, Repr

/-- The calls on the display `tft` that `drawGraph` issues. -/
inductive DrawCmd where
  | fillRect (x y w h : Int) (color : Color)
  | drawRect (x y w h : Int) (color : Color)
  | drawFastHLine (x y w : Int) (color : Color)
  | drawFastVLine (x y h : Int) (color : Color)
  | drawLine (x0 y0 x1 y1 : Int) (color : Color)
  | fillCircle (x y r : Int) (color : Color)
  | setTextSize (s : Nat)
  | setTextColor (color : Color)
  | setCursor (x y : Int)
  | print (t : Text)
  deriving DecidableEq, Repr

/-- A loop `for (int i = 0; i < n; ++i)` whose round `i` issues the display calls `f i`. -/
def emitLoop (n : Nat) (f : Nat → List DrawCmd) : List DrawCmd :=
  forLoop n (fun i acc => acc ++ f i) []

/-- The outputs of `findMinMax`: the return value and the two reference parameters. -/
structure MinMax where
  found : Bool
  minV : CFloat
  maxV : CFloat
  deriving DecidableEq, Repr

/-- One round of the loop of `findMinMax` (lines 329-335). -/
def findMinMaxStep (arr : Nat → CFloat) (valid : Nat → Bool) (i : Nat) (r : MinMax) : MinMax :=
  if !valid i then r
  else
    let v := arr i
    if !r.found then { found := true, minV := v, maxV := v }
    else
      let minV := if flt v r.minV then v else r.minV
      let maxV := if flt r.maxV v then v else r.maxV
      { found := r.found, minV := minV, maxV := maxV }

/-- The helper `findMinMax(arr, valid, n, minV, maxV)` (lines 325-338). -/
def findMinMax (arr : Nat → CFloat) (valid : Nat → Bool) (n : Nat) : MinMax :=
  forLoop n (findMinMaxStep arr valid) { found := false, minV := some 0, maxV := some 0 }

/-- The array `arr` that `drawGraph` selects (line 352). -/
def selectArr (graphType : Int) (st : GraphState) : Nat → CFloat :=
  if graphType = 0 then st.graphTemp else if graphType = 1 then st.graphWind else st.graphPop

/-- The line colour that `drawGraph` selects (line 353). -/
def selectColor (graphType : Int) : Color :=
  if graphType = 0 then COL_TEMP else if graphType = 1 then COL_WIND else COL_POP

/-- The title that `drawGraph` selects (line 354). -/
def selectTitle (graphType : Int) : String :=
  if graphType = 0 then "Temperature (F)" else if graphType = 1 then "Wind (mph)" else "Precip %"

/-- The percent conversion loop (lines 373-375), on the global `graphPop`. -/
def popToPercent (st : GraphState) : GraphState :=
  forLoop GRAPH_HOURS (fun i st =>
    if st.graphValid i && !isnan (st.graphPop i) then
      { st with graphPop := store st.graphPop i (fmul (st.graphPop i) (some 100)) }
    else st) st

/-- The visual margin (lines 381-385): the padded pair `(vmin, vmax)`. -/
def padRange (vmin vmax : CFloat) : CFloat × CFloat :=
  let padding := fmul (fsub vmax vmin) (some (12 / 100))
  let padding := if fle padding (some (1 / 2)) then some (1 / 2) else padding
  let vmin := fsub vmin padding
  let vmax := fadd vmax padding
  if feq vmin vmax then (fsub vmin (some 1), fadd vmax (some 1)) else (vmin, vmax)

/-- The value-to-pixel mapping, written at lines 452-455 and again at lines 519-522. -/
def valueToPixelY (area : GraphArea) (vmin vmax v : CFloat) : Int :=
  let fracY := fdiv (fsub v vmin) (fsub vmax vmin)
  let fracY := if flt fracY (some 0) then some 0 else fracY
  let fracY := if flt (some 1) fracY then some 1 else fracY
  area.g_y + (area.g_h - 1) - roundToInt (fmul fracY (ofInt (area.g_h - 1)))

/-- The hour-to-pixel mapping of a fractional position `frac` in `[0,1]` (lines 412, 449,
502). -/
def fracToPixelX (area : GraphArea) (frac : ℚ) : Int :=
  area.g_x + 1 + cround (frac * ((area.g_w - 3 : Int) : ℚ))

/-- One round of the grid loop (lines 392-401) for grid line `gi`. -/
def gridStep (area : GraphArea) (showPercent : Bool) (vmin vmax : CFloat) (gi : Nat) :
    List DrawCmd :=
  let gridLines : Int := 4
  let yy := area.g_y + Int.tdiv ((gi : Int) * (area.g_h - 1)) gridLines
  let vlabel := fsub vmax (fdiv (fmul (ofInt gi) (fsub vmax vmin)) (ofInt gridLines))
  let lbl : Text :=
    if showPercent then { fmt := "%d%%", args := [PrintArg.int (roundToInt vlabel)] }
    else { fmt := "%g",
           args := [PrintArg.float (fdiv (fround (fmul vlabel (some 10))) (some 10))] }
  [ DrawCmd.drawFastHLine (area.g_x + 1) yy (area.g_w - 2) COL_GRID,
    DrawCmd.setCursor (area.g_x + 4) (yy - 6),
    DrawCmd.print lbl ]

/-- The horizontal grid lines with their labels (lines 388-402). -/
def gridCmds (area : GraphArea) (showPercent : Bool) (vmin vmax : CFloat) : List DrawCmd :=
  [DrawCmd.setTextSize 1, DrawCmd.setTextColor COL_TEXT] ++
    emitLoop 5 (gridStep area showPercent vmin vmax)

/-- The table `majorTicks24` (line 406). -/
def majorTicks24 : List Int := [9, 12, 15, 18, 21]

/-- One round of the tick loop (lines 409-421) for the tick with index `ti`. -/
def tickStep (area : GraphArea) (ti : Nat) : List DrawCmd :=
  let hour24 := majorTicks24.getD ti 0
  let frac : ℚ := ((hour24 - 9 : Int) : ℚ) / (((GRAPH_HOURS : Int) - 1 : Int) : ℚ)
  let xx := fracToPixelX area frac
  let hour12 := hour24 % 12
  let hour12 := if hour12 = 0 then 12 else hour12
  [ DrawCmd.drawFastVLine xx (area.g_y + area.g_h - 12) 8 COL_AXIS,
    DrawCmd.setCursor (xx - 6) (area.g_y + area.g_h - 10),
    DrawCmd.print { fmt := "%d", args := [PrintArg.int hour12] } ]

/-- The hour ticks with their labels (lines 405-422). -/
def tickCmds (area : GraphArea) : List DrawCmd :=
  [DrawCmd.setTextSize 1] ++ emitLoop majorTicks24.length (tickStep area)

/-- The pixel positions `px[i]`, `py[i]` (lines 446-459): one loop that fills both arrays. -/
def pixelPositions (area : GraphArea) (arr : Nat → CFloat) (valid : Nat → Bool)
    (vmin vmax : CFloat) : (Nat → Int) × (Nat → Int) :=
  forLoop GRAPH_HOURS (fun i p =>
    let fracX : ℚ := (i : ℚ) / (((GRAPH_HOURS : Int) - 1 : Int) : ℚ)
    let px := store p.1 i (fracToPixelX area fracX)
    let py :=
      if valid i && !isnan (arr i) then store p.2 i (valueToPixelY area vmin vmax (arr i))
      else store p.2 i (area.g_y + area.g_h - 1)
    (px, py)) (fun _ => 0, fun _ => 0)

/-- One round of the polyline loop (lines 463-469) for the segment from point `i`. -/
def polylineStep (valid : Nat → Bool) (px py : Nat → Int) (lineColor : Color) (i : Nat) :
    List DrawCmd :=
  if valid i && valid (i + 1) then
    [ DrawCmd.drawLine (px i) (py i) (px (i + 1)) (py (i + 1)) lineColor,
      DrawCmd.fillCircle (px i) (py i) 2 lineColor ]
  else if valid i then [DrawCmd.fillCircle (px i) (py i) 2 lineColor]
  else []

/-- The polyline and the dot of the last point (lines 462-472). -/
def polylineCmds (valid : Nat → Bool) (px py : Nat → Int) (lineColor : Color) : List DrawCmd :=
  emitLoop (GRAPH_HOURS - 1) (polylineStep valid px py lineColor) ++
    (if valid (GRAPH_HOURS - 1) then
      [DrawCmd.fillCircle (px (GRAPH_HOURS - 1)) (py (GRAPH_HOURS - 1)) 2 lineColor]
    else [])

/-- The title and the min/max labels (lines 475-492). -/
def titleCmds (area : GraphArea) (graphType : Int) (showPercent : Bool) (vmin vmax : CFloat) :
    List DrawCmd :=
  let topLbl : Text :=
    if showPercent then { fmt := "Max %d%%", args := [PrintArg.int (roundToInt vmax)] }
    else { fmt := "Max %.0f", args := [PrintArg.float (fround vmax)] }
  let botLbl : Text :=
    if showPercent then { fmt := "Min %d%%", args := [PrintArg.int (roundToInt vmin)] }
    else { fmt := "Min %.0f", args := [PrintArg.float (fround vmin)] }
  [ DrawCmd.setTextSize 1, DrawCmd.setTextColor COL_TEXT,
    DrawCmd.setCursor (area.g_x + 6) (area.g_y + 4),
    DrawCmd.print { fmt := selectTitle graphType, args := [] },
    DrawCmd.setCursor (area.g_x + area.g_w - 60) (area.g_y + 4),
    DrawCmd.print topLbl,
    DrawCmd.setCursor (area.g_x + area.g_w - 60) (area.g_y + area.g_h - 12),
    DrawCmd.print botLbl ]

/-- The position `curPos` of the local time on the hour grid (line 499). -/
def curPosOf (timeinfo : Tm) : ℚ :=
  ((timeinfo.tm_hour : ℚ) + (timeinfo.tm_min : ℚ) / 60) - 9

/-- The vertical position of the time marker (lines 507-523). -/
def markerYOf (area : GraphArea) (arr : Nat → CFloat) (valid : Nat → Bool)
    (vmin vmax : CFloat) (curPos : ℚ) : Int :=
  let exactIdxF := curPos
  let idxL : Int := ⌊exactIdxF⌋
  let idxR : Int := ⌈exactIdxF⌉
  let idxL := if idxL < 0 then 0 else idxL
  let idxR := if idxR ≥ (GRAPH_HOURS : Int) then (GRAPH_HOURS : Int) - 1 else idxR
  let markerY := area.g_y + area.g_h - 4
  if valid idxL.toNat && valid idxR.toNat && !isnan (arr idxL.toNat) && !isnan (arr idxR.toNat)
  then
    let t : ℚ := exactIdxF - (idxL : ℚ)
    let valL := arr idxL.toNat
    let valR := arr idxR.toNat
    let vmarker := lerpFloat valL valR t
    valueToPixelY area vmin vmax vmarker
  else markerY

/-- The current-time marker (lines 495-552); `clock` is what `getLocalTime` delivers, `none`
when it fails. -/
def markerCmds (area : GraphArea) (arr : Nat → CFloat) (valid : Nat → Bool)
    (vmin vmax : CFloat) (clock : Option Tm) : List DrawCmd :=
  match clock with
  | none => []
  | some timeinfo =>
    let curPos := curPosOf timeinfo
    let fracPos : ℚ := curPos / (((GRAPH_HOURS : Int) - 1 : Int) : ℚ)
    if 0 ≤ fracPos ∧ fracPos ≤ 1 then
      let markerX := fracToPixelX area fracPos
      let markerY := markerYOf area arr valid vmin vmax curPos
      let hour24_marker := timeinfo.tm_hour
      let hour12_marker := hour24_marker % 12
      let hour12_marker := if hour12_marker = 0 then 12 else hour12_marker
      let ampm : String := if hour24_marker ≥ 12 then "pm" else "am"
      let lblX := markerX + 6
      let lblY := max (area.g_y + 6) (markerY - 10)
      [ DrawCmd.drawFastVLine markerX (area.g_y + 2) (area.g_h - 4) COL_MARKER,
        DrawCmd.fillCircle markerX markerY 4 COL_MARKER,
        DrawCmd.fillRect (lblX - 2) (lblY - 2) 60 12 COL_BG,
        DrawCmd.setCursor lblX lblY,
        DrawCmd.setTextSize 1,
        DrawCmd.setTextColor COL_MARKER,
        DrawCmd.print { fmt := "%d%s", args := [PrintArg.int hour12_marker, PrintArg.str ampm] } ]
    else []

/-- The function `drawGraph(int graphType)` (lines 341-555): `area` is the graph area state,
`clock` what `getLocalTime` delivers, `st` the global arrays before the call. The result is
the global arrays after the call and the display calls in the order they are issued. -/
def drawGraph (graphType : Int) (area : GraphArea) (clock : Option Tm) (st : GraphState) :
    GraphState × List DrawCmd :=
  if area.g_w ≤ 8 ∨ area.g_h ≤ 8 then (st, [])
  else
    let frame := [ DrawCmd.fillRect area.g_x area.g_y area.g_w area.g_h COL_BG,
                   DrawCmd.drawRect area.g_x area.g_y area.g_w area.g_h COL_AXIS ]
    let lineColor := selectColor graphType
    let r := findMinMax (selectArr graphType st) st.graphValid GRAPH_HOURS
    if !r.found then
      (st, frame ++
        [ DrawCmd.setTextSize 1, DrawCmd.setTextColor COL_TEXT,
          DrawCmd.setCursor (area.g_x + 6) (area.g_y + Int.tdiv area.g_h 2 - 6),
          DrawCmd.print { fmt := "No graph data", args := [] } ])
    else
      let showPercent := decide (graphType = 2)
      let st := if graphType = 2 then popToPercent st else st
      let r := if graphType = 2 then findMinMax (selectArr graphType st) st.graphValid GRAPH_HOURS
        else r
      let padded := padRange r.minV r.maxV
      let vmin := padded.1
      let vmax := padded.2
      let arr := selectArr graphType st
      let p := pixelPositions area arr st.graphValid vmin vmax
      (st, frame ++ gridCmds area showPercent vmin vmax ++ tickCmds area ++
        polylineCmds st.graphValid p.1 p.2 lineColor ++
        titleCmds area graphType showPercent vmin vmax ++
        markerCmds area arr st.graphValid vmin vmax clock)

/-! ## The smoothing law in the words of the specification -/

/-- The neighbours of index `i` that are in range `0 .. n-1`: `i-1` and `i+1`. -/
def neighbours (n i : Nat) : List Nat :=
  (if 0 < i then [i - 1] else []) ++ (if i + 1 < n then [i + 1] else [])

/-- The neighbours of `i` that are in range, valid and non-absent. -/
def qualifying (orig : Nat → CFloat) (valid : Nat → Bool) (n i : Nat) : List Nat :=
  (neighbours n i).filter (fun j => valid j && !isnan (orig j))

/-- The smoothing weight law as worded: a valid, non-absent element becomes
`(2*orig[i] + sum of the qualifying neighbours) / (2 + number of qualifying neighbours)`,
every other element stays as it is. -/
def smoothLaw (orig : Nat → CFloat) (valid : Nat → Bool) (n i : Nat) : CFloat :=
  if valid i && !isnan (orig i) then
    some ((2 * (orig i).getD 0 + ((qualifying orig valid n i).map (fun j => (orig j).getD 0)).sum)
      / (2 + ((qualifying orig valid n i).length : ℚ)))
  else orig i

/-! ## The interpolation rule in the words of the specification -/

/-- The per-metric interpolation rule in the words of the specification: `v0 + (v1 - v0)*alpha`
when both bracket values are present, the present value when exactly one is, absent when
both are absent. -/
def metricRule (v0 v1 : CFloat) (alpha : ℚ) : CFloat :=
  match v0, v1 with
  | some a, some b => some (a + (b - a) * alpha)
  | some a, none => some a
  | none, some b => some b
  | none, none => none

/-! ## Concrete inputs -/

/-- A published series: every hour valid with temperature 70, wind 5 and precipitation 0.1. -/
def publishedState : GraphState :=
  { graphTemp := fun _ => some 70
    graphWind := fun _ => some 5
    graphPop := fun _ => some (1 / 10)
    graphValid := fun _ => true
    graphHourLabels := fun i => 9 + (i : Int) }

/-- The forecast cache before the first fetch: an empty payload. -/
def noPayload : CachedForecast := { rawLength := 0, parsed := none }

/-- Two samples for a city at UTC-5, at local 12:00 (temperature 60) and local 18:00
(temperature 80) of the day that contains the epoch 1700000000. -/
def twoSamples : CachedForecast :=
  { rawLength := 400
    parsed := some
      { timezone := some (-18000)
        list := some
          [ { dt := some 1699981200, main := some (some 60), windSpeed := some 5, pop := NAN },
            { dt := some 1700002800, main := some (some 80), windSpeed := NAN, pop := NAN } ] } }

/-- The sample array the resampler builds from `twoSamples`. -/
def twoSampleArray : List Sample :=
  [ { dt := 1699981200, local_ts := 1699963200, temp := some 60, wind := some 5, pop := NAN },
    { dt := 1700002800, local_ts := 1699984800, temp := some 80, wind := NAN, pop := NAN } ]

/-! ## Names for what `drawGraph` computes on the way -/

/-- The frame every call on a usable area starts with (lines 346-349). -/
def frameCmds (area : GraphArea) : List DrawCmd :=
  [ DrawCmd.fillRect area.g_x area.g_y area.g_w area.g_h COL_BG,
    DrawCmd.drawRect area.g_x area.g_y area.g_w area.g_h COL_AXIS ]

/-- The "no data" placeholder (lines 361-364). -/
def noDataCmds (area : GraphArea) : List DrawCmd :=
  [ DrawCmd.setTextSize 1, DrawCmd.setTextColor COL_TEXT,
    DrawCmd.setCursor (area.g_x + 6) (area.g_y + Int.tdiv area.g_h 2 - 6),
    DrawCmd.print { fmt := "No graph data", args := [] } ]

/-- The global arrays as `drawGraph` plots them: after the percent conversion when the
precipitation is selected. -/
def plottedState (graphType : Int) (st : GraphState) : GraphState :=
  if graphType = 2 then popToPercent st else st

/-- The result of the scan whose `(min, max)` `drawGraph` pads and scales with. -/
def scaleScan (graphType : Int) (st : GraphState) : MinMax :=
  findMinMax (selectArr graphType (plottedState graphType st))
    (plottedState graphType st).graphValid GRAPH_HOURS

/-- The padded pair `(vmin, vmax)` of a call. -/
def scaleRange (graphType : Int) (st : GraphState) : CFloat × CFloat :=
  padRange (scaleScan graphType st).minV (scaleScan graphType st).maxV

/-- The arrays `px`, `py` of a call. -/
def plottedPixels (graphType : Int) (area : GraphArea) (st : GraphState) :
    (Nat → Int) × (Nat → Int) :=
  pixelPositions area (selectArr graphType (plottedState graphType st))
    (plottedState graphType st).graphValid (scaleRange graphType st).1 (scaleRange graphType st).2

/-- A display call in the marker colour. -/
def isMarkerCmd (c : DrawCmd) : Bool :=
  match c with
  | DrawCmd.fillRect _ _ _ _ color => color == COL_MARKER
  | DrawCmd.drawRect _ _ _ _ color => color == COL_MARKER
  | DrawCmd.drawFastHLine _ _ _ color => color == COL_MARKER
  | DrawCmd.drawFastVLine _ _ _ color => color == COL_MARKER
  | DrawCmd.drawLine _ _ _ _ color => color == COL_MARKER
  | DrawCmd.fillCircle _ _ _ color => color == COL_MARKER
  | DrawCmd.setTextColor color => color == COL_MARKER
  | DrawCmd.setTextSize _ => false
  | DrawCmd.setCursor _ _ => false
  | DrawCmd.print _ => false

/-- A usable drawing rectangle: 240 by 140 pixels at `(0, 100)`. -/
def graphArea : GraphArea := setGraphArea 0 100 240 140

/-- A series in which every hour is valid through the wind alone: temperature and
precipitation are absent at every hour. -/
def windOnlyState : GraphState :=
  { graphTemp := fun _ => NAN
    graphWind := fun _ => some 5
    graphPop := fun _ => NAN
    graphValid := fun _ => true
    graphHourLabels := fun i => 9 + (i : Int) }

/-- A series in which every hour is valid, the temperature is 60 at hour 9 (index 0), absent
at hour 10 (index 1) and 62 from hour 11 on, and the wind is 5 throughout. -/
def gapState : GraphState :=
  { graphTemp := fun i => if i = 0 then some 60 else if i = 1 then NAN else some 62
    graphWind := fun _ => some 5
    graphPop := fun _ => NAN
    graphValid := fun _ => true
    graphHourLabels := fun i => 9 + (i : Int) }

/-- A series in which every hour is valid, the temperature is absent at hour 9 (index 0), 61
at hour 10 (index 1) and 72 from hour 11 on, and the wind is 5 throughout. -/
def lateStartState : GraphState :=
  { graphTemp := fun i => if i = 0 then NAN else if i = 1 then some 61 else some 72
    graphWind := fun _ => some 5
    graphPop := fun _ => NAN
    graphValid := fun _ => true
    graphHourLabels := fun i => 9 + (i : Int) }

/-- The series after a failed resample: every hour invalid, every value absent. -/
def blankSeries : GraphState :=
  { graphTemp := fun _ => NAN
    graphWind := fun _ => NAN
    graphPop := fun _ => NAN
    graphValid := fun _ => false
    graphHourLabels := fun i => 9 + (i : Int) }

/-! ## The marker row in the words of the specification -/

/-- The row of the time marker as worded: with `L = floor(curPos)` and `R = ceil(curPos)`,
when both hours are valid and non-absent the value-to-pixel mapping of
`arr[L] + (arr[R] - arr[L]) * (curPos - L)`, otherwise the fallback row `g_y + g_h - 4`. -/
def markerRow (area : GraphArea) (arr : Nat → CFloat) (valid : Nat → Bool) (vmin vmax : CFloat)
    (curPos : ℚ) : Int :=
  match valid ⌊curPos⌋.toNat && valid ⌈curPos⌉.toNat, arr ⌊curPos⌋.toNat, arr ⌈curPos⌉.toNat with
  | true, some a, some b =>
    valueToPixelY area vmin vmax (some (a + (b - a) * (curPos - ((⌊curPos⌋ : Int) : ℚ))))
  | _, _, _ => area.g_y + area.g_h - 4

/-! ## The bracket search in the words of the specification -/

/-- The unclamped brackets `(idx0, idx1)` of a target: the result of the scan of lines
189-193, before the edge clamp. -/
def scanBrackets (samples : List Sample) (target_ts : Int) : Int × Int :=
  scanFrom target_ts samples 0 (-1) (-1)

/-- The timestamps are non-decreasing along the sample array. -/
def NonDecreasing (samples : List Sample) : Prop :=
  ∀ i j : Nat, i ≤ j → j < samples.length →
    (sampleAt samples i).local_ts ≤ (sampleAt samples j).local_ts

/-- Index `idx` is the greatest index of a sample with `sample_ts <= target`. -/
def GreatestAtOrBefore (samples : List Sample) (target_ts : Int) (idx : Int) : Prop :=
  0 ≤ idx ∧ idx < samples.length ∧ (sampleAt samples idx).local_ts ≤ target_ts ∧
  ∀ j : Nat, j < samples.length → (sampleAt samples j).local_ts ≤ target_ts → (j : Int) ≤ idx

/-- Index `idx` is the least index of a sample with `sample_ts >= target`. -/
def LeastAtOrAfter (samples : List Sample) (target_ts : Int) (idx : Int) : Prop :=
  0 ≤ idx ∧ idx < samples.length ∧ (sampleAt samples idx).local_ts ≥ target_ts ∧
  ∀ j : Nat, j < samples.length → (sampleAt samples j).local_ts ≥ target_ts → idx ≤ (j : Int)

/-- Two samples that share the timestamp 10. -/
def twinSamples : List Sample :=
  [ { dt := 10, local_ts := 10, temp := some 60, wind := NAN, pop := NAN },
    { dt := 10, local_ts := 10, temp := some 80, wind := NAN, pop := NAN } ]

/-! ## The scaling range in the words of the specification -/

/-- The number `m` is the minimum of the values of `arr` at the hours below `n` that are valid
and non-absent. -/
def IsMinOfValid (arr : Nat → CFloat) (valid : Nat → Bool) (n : Nat) (m : ℚ) : Prop :=
  (∃ i, i < n ∧ valid i = true ∧ arr i = some m) ∧
  ∀ (i : Nat) (q : ℚ), i < n → valid i = true → arr i = some q → m ≤ q

/-- The number `m` is the maximum of the values of `arr` at the hours below `n` that are valid
and non-absent. -/
def IsMaxOfValid (arr : Nat → CFloat) (valid : Nat → Bool) (n : Nat) (m : ℚ) : Prop :=
  (∃ i, i < n ∧ valid i = true ∧ arr i = some m) ∧
  ∀ (i : Nat) (q : ℚ), i < n → valid i = true → arr i = some q → q ≤ m

/-- A forecast for a city at UTC-5 with three samples, at local 09:00, 10:00 and 11:00 of the
day that contains the epoch 1700000000: temperature 60, none (no `main` object), 62; wind 5
in all three. -/
def gapForecast : CachedForecast :=
  { rawLength := 600
    parsed := some
      { timezone := some (-18000)
        list := some
          [ { dt := some 1699970400, main := some (some 60), windSpeed := some 5, pop := NAN },
            { dt := some 1699974000, main := none, windSpeed := some 5, pop := NAN },
            { dt := some 1699977600, main := some (some 62), windSpeed := some 5, pop := NAN } ] } }

/-- A forecast for a city at UTC-5 with one sample that carries wind 5 and no temperature or
precipitation. -/
def windOnlyForecast : CachedForecast :=
  { rawLength := 200
    parsed := some
      { timezone := some (-18000)
        list := some
          [ { dt := some 1699981200, main := none, windSpeed := some 5, pop := NAN } ] } }

/-- A forecast for a city at UTC-5 with three samples, at local 09:00, 10:00 and 11:00 of the
day that contains the epoch 1700000000: temperature none (no `main` object), 61, 72; wind 5
in all three. -/
def lateStartForecast : CachedForecast :=
  { rawLength := 600
    parsed := some
      { timezone := some (-18000)
        list := some
          [ { dt := some 1699970400, main := none, windSpeed := some 5, pop := NAN },
            { dt := some 1699974000, main := some (some 61), windSpeed := some 5, pop := NAN },
            { dt := some 1699977600, main := some (some 72), windSpeed := some 5, pop := NAN } ] } }

/-! ## Binary32 arithmetic of the smoothing stage -/

/-- Joint validity at hour `i`: the flag is set iff one of the three stored values is a
number, and a cleared flag comes with three NaN cells. -/
def JointValid (st : GraphState) (i : Nat) : Prop :=
  (st.graphValid i = true ↔
    (isnan (st.graphTemp i) = false ∨ isnan (st.graphWind i) = false ∨
      isnan (st.graphPop i) = false)) ∧
  (st.graphValid i = false →
    st.graphTemp i = NAN ∧ st.graphWind i = NAN ∧ st.graphPop i = NAN)

/-- Every hour of the series is invalid and every stored value is NaN. -/
def AllBlank (st : GraphState) : Prop :=
  ∀ i, i < GRAPH_HOURS →
    st.graphValid i = false ∧ st.graphTemp i = NAN ∧ st.graphWind i = NAN ∧ st.graphPop i = NAN

instance instDecidableJointValid (st : GraphState) (i : Nat) : Decidable (JointValid st i) := by
  unfold JointValid
  infer_instance

instance instDecidableAllBlank (st : GraphState) : Decidable (AllBlank st) := by
  unfold AllBlank
  infer_instance

/-! ## Basic facts about stores and loops -/

theorem store_same {α : Type} (a : Nat → α) (i : Nat) (v : α) : store a i v i = v := by
  simp [store]

theorem store_other {α : Type} (a : Nat → α) (i j : Nat) (v : α) (h : j ≠ i) :
    store a i v j = a j := by
  simp [store, h]

theorem isnan_some (q : ℚ) : isnan (some q) = false := rfl

theorem isnan_none : isnan none = true := rfl

theorem isnan_eq_true_iff (x : CFloat) : isnan x = true ↔ x = NAN := by
  cases x <;> simp [isnan, NAN]

theorem isnan_eq_false_iff (x : CFloat) : isnan x = false ↔ ∃ q, x = some q := by
  cases x <;> simp [isnan]

/-- The initialisation loop after `n` rounds: the cells below `n` are blank, the others are
as before. -/
theorem initLoop_spec (st : GraphState) (n : Nat) :
    (∀ j, (forLoop n initStep st).graphTemp j = if j < n then NAN else st.graphTemp j) ∧
    (∀ j, (forLoop n initStep st).graphWind j = if j < n then NAN else st.graphWind j) ∧
    (∀ j, (forLoop n initStep st).graphPop j = if j < n then NAN else st.graphPop j) ∧
    (∀ j, (forLoop n initStep st).graphValid j = if j < n then false else st.graphValid j) := by
  induction n with
  | zero => simp [forLoop]
  | succ n ih =>
    obtain ⟨h1, h2, h3, h4⟩ := ih
    refine ⟨?_, ?_, ?_, ?_⟩ <;> intro j <;> simp only [forLoop, initStep, store]
    · by_cases hj : j = n
      · subst hj; simp
      · rw [if_neg hj, h1 j]
        by_cases hlt : j < n
        · simp [hlt, Nat.lt_succ_of_lt hlt]
        · have : ¬ j < n + 1 := by omega
          simp [hlt, this]
    · by_cases hj : j = n
      · subst hj; simp
      · rw [if_neg hj, h2 j]
        by_cases hlt : j < n
        · simp [hlt, Nat.lt_succ_of_lt hlt]
        · have : ¬ j < n + 1 := by omega
          simp [hlt, this]
    · by_cases hj : j = n
      · subst hj; simp
      · rw [if_neg hj, h3 j]
        by_cases hlt : j < n
        · simp [hlt, Nat.lt_succ_of_lt hlt]
        · have : ¬ j < n + 1 := by omega
          simp [hlt, this]
    · by_cases hj : j = n
      · subst hj; simp
      · rw [if_neg hj, h4 j]
        by_cases hlt : j < n
        · simp [hlt, Nat.lt_succ_of_lt hlt]
        · have : ¬ j < n + 1 := by omega
          simp [hlt, this]

/-- After `initOutputs` every cell of the four series is blank. -/
theorem initOutputs_spec (st : GraphState) (j : Nat) (hj : j < GRAPH_HOURS) :
    (initOutputs st).graphTemp j = NAN ∧ (initOutputs st).graphWind j = NAN ∧
    (initOutputs st).graphPop j = NAN ∧ (initOutputs st).graphValid j = false := by
  obtain ⟨h1, h2, h3, h4⟩ := initLoop_spec st GRAPH_HOURS
  unfold initOutputs
  rw [h1 j, h2 j, h3 j, h4 j]
  simp [hj]

/-- One round of the main loop writes only cell `i`. -/
theorem hourStep_other (samples : List Sample) (m : Int) (i j : Nat) (p : GraphState × Bool)
    (h : j ≠ i) :
    (hourStep samples m i p).1.graphTemp j = p.1.graphTemp j ∧
    (hourStep samples m i p).1.graphWind j = p.1.graphWind j ∧
    (hourStep samples m i p).1.graphPop j = p.1.graphPop j ∧
    (hourStep samples m i p).1.graphValid j = p.1.graphValid j := by
  unfold hourStep
  simp only []
  split <;> simp [store, h]

/-- One round of the main loop at its own cell: the three values of the hour are stored and
the flag says whether one of them is a number. -/
theorem hourStep_same (samples : List Sample) (m : Int) (i : Nat) (p : GraphState × Bool) :
    (hourStep samples m i p).1.graphTemp i = (hourValues samples (targetTs m i)).1 ∧
    (hourStep samples m i p).1.graphWind i = (hourValues samples (targetTs m i)).2.1 ∧
    (hourStep samples m i p).1.graphPop i = (hourValues samples (targetTs m i)).2.2 ∧
    (hourStep samples m i p).1.graphValid i =
      !(isnan (hourValues samples (targetTs m i)).1 &&
        isnan (hourValues samples (targetTs m i)).2.1 &&
        isnan (hourValues samples (targetTs m i)).2.2) := by
  unfold hourStep
  simp only []
  split
  · simp [store]
  · rename_i h
    simp only [Bool.not_eq_true, Bool.not_eq_false', Bool.and_eq_true] at h
    obtain ⟨⟨h1, h2⟩, h3⟩ := h
    rw [isnan_eq_true_iff] at h1 h2 h3
    simp [store, h1, h2, h3, isnan, NAN]

/-- The flag part of one round of the main loop. -/
theorem hourStep_any (samples : List Sample) (m : Int) (i : Nat) (p : GraphState × Bool) :
    (hourStep samples m i p).2 =
      (p.2 || !(isnan (hourValues samples (targetTs m i)).1 &&
        isnan (hourValues samples (targetTs m i)).2.1 &&
        isnan (hourValues samples (targetTs m i)).2.2)) := by
  unfold hourStep
  simp only []
  split
  · rename_i h
    simp [h]
  · rename_i h
    simp only [Bool.not_eq_true] at h
    simp [h]

/-- The main loop after `n` rounds. -/
theorem hourLoop_spec (samples : List Sample) (m : Int) (p : GraphState × Bool) (n : Nat) :
    (∀ j, (forLoop n (hourStep samples m) p).1.graphTemp j =
      if j < n then (hourValues samples (targetTs m j)).1 else p.1.graphTemp j) ∧
    (∀ j, (forLoop n (hourStep samples m) p).1.graphWind j =
      if j < n then (hourValues samples (targetTs m j)).2.1 else p.1.graphWind j) ∧
    (∀ j, (forLoop n (hourStep samples m) p).1.graphPop j =
      if j < n then (hourValues samples (targetTs m j)).2.2 else p.1.graphPop j) ∧
    (∀ j, (forLoop n (hourStep samples m) p).1.graphValid j =
      if j < n then !(isnan (hourValues samples (targetTs m j)).1 &&
        isnan (hourValues samples (targetTs m j)).2.1 &&
        isnan (hourValues samples (targetTs m j)).2.2) else p.1.graphValid j) := by
  induction n with
  | zero => simp [forLoop]
  | succ n ih =>
    obtain ⟨h1, h2, h3, h4⟩ := ih
    have hs := hourStep_same samples m n (forLoop n (hourStep samples m) p)
    refine ⟨?_, ?_, ?_, ?_⟩ <;> intro j <;> simp only [forLoop]
    · by_cases hj : j = n
      · subst hj; simp [hs.1]
      · rw [(hourStep_other samples m n j _ hj).1, h1 j]
        by_cases hlt : j < n
        · simp [hlt, Nat.lt_succ_of_lt hlt]
        · have : ¬ j < n + 1 := by omega
          simp [hlt, this]
    · by_cases hj : j = n
      · subst hj; simp [hs.2.1]
      · rw [(hourStep_other samples m n j _ hj).2.1, h2 j]
        by_cases hlt : j < n
        · simp [hlt, Nat.lt_succ_of_lt hlt]
        · have : ¬ j < n + 1 := by omega
          simp [hlt, this]
    · by_cases hj : j = n
      · subst hj; simp [hs.2.2.1]
      · rw [(hourStep_other samples m n j _ hj).2.2.1, h3 j]
        by_cases hlt : j < n
        · simp [hlt, Nat.lt_succ_of_lt hlt]
        · have : ¬ j < n + 1 := by omega
          simp [hlt, this]
    · by_cases hj : j = n
      · subst hj; simp [hs.2.2.2]
      · rw [(hourStep_other samples m n j _ hj).2.2.2, h4 j]
        by_cases hlt : j < n
        · simp [hlt, Nat.lt_succ_of_lt hlt]
        · have : ¬ j < n + 1 := by omega
          simp [hlt, this]

/-- The flag `anyValid` after `n` rounds of the main loop: set iff it was set before or one of
the hours below `n` has a number. -/
theorem hourLoop_any (samples : List Sample) (m : Int) (p : GraphState × Bool) (n : Nat) :
    (forLoop n (hourStep samples m) p).2 = true ↔
      p.2 = true ∨ ∃ j, j < n ∧
        (!(isnan (hourValues samples (targetTs m j)).1 &&
          isnan (hourValues samples (targetTs m j)).2.1 &&
          isnan (hourValues samples (targetTs m j)).2.2)) = true := by
  induction n with
  | zero => simp [forLoop]
  | succ n ih =>
    simp only [forLoop]
    rw [hourStep_any, Bool.or_eq_true, ih]
    constructor
    · rintro ((h | ⟨j, hj, h⟩) | h)
      · exact Or.inl h
      · exact Or.inr ⟨j, Nat.lt_succ_of_lt hj, h⟩
      · exact Or.inr ⟨n, Nat.lt_succ_self n, h⟩
    · rintro (h | ⟨j, hj, h⟩)
      · exact Or.inl (Or.inl h)
      · by_cases hjn : j = n
        · subst hjn; exact Or.inr h
        · exact Or.inl (Or.inr ⟨j, by omega, h⟩)

/-- The copy loop of `smoothArray`: after `n` rounds the cells below `n` hold `arr`. -/
theorem copyLoop_spec (arr : Nat → CFloat) (n j : Nat) :
    forLoop n (fun i t => store t i (arr i)) (fun _ => NAN) j = if j < n then arr j else NAN := by
  induction n with
  | zero => simp [forLoop]
  | succ n ih =>
    simp only [forLoop, store]
    by_cases hj : j = n
    · subst hj; simp
    · rw [if_neg hj, ih]
      by_cases hlt : j < n
      · simp [hlt, Nat.lt_succ_of_lt hlt]
      · have : ¬ j < n + 1 := by omega
        simp [hlt, this]

/-- One smoothing round writes only cell `i`. -/
theorem smoothStep_other (tmp : Nat → CFloat) (valid : Nat → Bool) (n i j : Nat)
    (arr : Nat → CFloat) (h : j ≠ i) : smoothStep tmp valid n i arr j = arr j := by
  unfold smoothStep
  split
  · rfl
  · simp [store, h]

/-- What one smoothing round leaves in cell `i` depends on `arr` only through `arr i`. -/
theorem smoothStep_congr (tmp : Nat → CFloat) (valid : Nat → Bool) (n i : Nat)
    (a b : Nat → CFloat) (h : a i = b i) :
    smoothStep tmp valid n i a i = smoothStep tmp valid n i b i := by
  unfold smoothStep
  split
  · exact h
  · simp [store]

/-- The averaging loop after `k` rounds: cell `j < k` holds what round `j` writes, the other
cells are as before. -/
theorem smoothLoop_spec (tmp : Nat → CFloat) (valid : Nat → Bool) (n : Nat)
    (arr : Nat → CFloat) (k j : Nat) :
    forLoop k (smoothStep tmp valid n) arr j =
      if j < k then smoothStep tmp valid n j arr j else arr j := by
  induction k with
  | zero => simp [forLoop]
  | succ k ih =>
    simp only [forLoop]
    by_cases hj : j = k
    · subst hj
      simp only [Nat.lt_succ_self, if_true]
      apply smoothStep_congr
      have hk : forLoop j (smoothStep tmp valid n) arr j =
          if j < j then smoothStep tmp valid n j arr j else arr j := ih
      simpa using hk
    · rw [smoothStep_other _ _ _ _ _ _ hj, ih]
      by_cases hlt : j < k
      · simp [hlt, Nat.lt_succ_of_lt hlt]
      · have : ¬ j < k + 1 := by omega
        simp [hlt, this]

/-- The helper `smoothArray` computes the smoothing law at every index below `n`. -/
theorem smoothArray_eq_law (orig : Nat → CFloat) (valid : Nat → Bool) (n i : Nat) (hi : i < n) :
    smoothArray orig valid n i = smoothLaw orig valid n i := by
  unfold smoothArray
  rw [smoothLoop_spec, if_pos hi]
  have htmp : ∀ j, j < n → forLoop n (fun i t => store t i (orig i)) (fun _ => NAN) j = orig j :=
    fun j hj => by rw [copyLoop_spec, if_pos hj]
  generalize forLoop n (fun i t => store t i (orig i)) (fun _ => NAN) = tmp at htmp
  unfold smoothStep smoothLaw qualifying neighbours
  rw [htmp i hi]
  by_cases hv : valid i = true
  · cases hc : orig i with
    | none => simp [hv, isnan, hc]
    | some c =>
      have hl : tmp (i - 1) = orig (i - 1) := htmp _ (by omega)
      by_cases hr : i + 1 < n
      · have hr2 : tmp (i + 1) = orig (i + 1) := htmp _ hr
        have hr3 : (i : Int) < (n : Int) - 1 := by omega
        rw [hl, hr2]
        by_cases h0 : 0 < i
        · cases hvl : valid (i - 1) <;> cases hvr : valid (i + 1) <;>
            cases hol : orig (i - 1) <;> cases hor : orig (i + 1) <;>
            simp [hv, isnan, store, fmul, fadd, fdiv, NAN, h0, hr, hr3, hvl, hvr, hol, hor, hc] <;>
            ring
        · cases hvr : valid (i + 1) <;> cases hor : orig (i + 1) <;>
            simp [hv, isnan, store, fmul, fadd, fdiv, NAN, h0, hr, hr3, hvr, hor, hc]
          ring
      · have hr3 : ¬ (i : Int) < (n : Int) - 1 := by omega
        rw [hl]
        by_cases h0 : 0 < i
        · cases hvl : valid (i - 1) <;> cases hol : orig (i - 1) <;>
            simp [hv, isnan, store, fmul, fadd, fdiv, NAN, h0, hr, hr3, hvl, hol, hc]
          ring
        · simp [hv, isnan, store, fmul, fadd, fdiv, NAN, h0, hr, hr3, hc]
  · simp [hv]

/-- Outside the range `0 .. n-1` the helper `smoothArray` leaves the cell alone. -/
theorem smoothArray_outside (orig : Nat → CFloat) (valid : Nat → Bool) (n i : Nat)
    (hi : n ≤ i) : smoothArray orig valid n i = orig i := by
  unfold smoothArray
  rw [smoothLoop_spec, if_neg (by omega)]

/-- Smoothing never turns a number into NaN or NaN into a number. -/
theorem smoothArray_isnan (orig : Nat → CFloat) (valid : Nat → Bool) (n i : Nat) :
    isnan (smoothArray orig valid n i) = isnan (orig i) := by
  by_cases hi : i < n
  · rw [smoothArray_eq_law _ _ _ _ hi]
    unfold smoothLaw
    split
    · rename_i h
      simp only [Bool.and_eq_true, Bool.not_eq_true'] at h
      rw [h.2]; rfl
    · rfl
  · rw [smoothArray_outside _ _ _ _ (by omega)]

/-- The two ways `calculateGraphDataFromForecastRaw` returns: after the initialisation alone
with `false`, or after the main loop over a non-empty sample array and the optional
smoothing, with `anyValid`. -/
theorem calculate_cases (cache : CachedForecast) (now_t : Int) (smooth : Bool)
    (st : GraphState) :
    calculateGraphDataFromForecastRaw cache now_t smooth st = (false, initOutputs st) ∨
    ∃ (samples : List Sample) (m : Int), samples ≠ [] ∧
      calculateGraphDataFromForecastRaw cache now_t smooth st =
        ((forLoop GRAPH_HOURS (hourStep samples m) (initOutputs st, false)).2,
          if (smooth && (forLoop GRAPH_HOURS (hourStep samples m) (initOutputs st, false)).2) = true
          then smoothAll (forLoop GRAPH_HOURS (hourStep samples m) (initOutputs st, false)).1
          else (forLoop GRAPH_HOURS (hourStep samples m) (initOutputs st, false)).1) := by
  unfold calculateGraphDataFromForecastRaw
  simp only []
  split
  · exact Or.inl rfl
  · split
    · exact Or.inl rfl
    · split
      · exact Or.inl rfl
      · split
        · exact Or.inl rfl
        · rename_i hne
          refine Or.inr ⟨_, _, ?_, rfl⟩
          intro h
          exact hne (by rw [h]; rfl)

/-- Joint validity holds after the initialisation. -/
theorem jointValid_init (st : GraphState) (i : Nat) (hi : i < GRAPH_HOURS) :
    JointValid (initOutputs st) i := by
  obtain ⟨h1, h2, h3, h4⟩ := initOutputs_spec st i hi
  unfold JointValid
  rw [h1, h2, h3, h4]
  simp [isnan, NAN]

/-- Joint validity holds after the main loop, at every hour. -/
theorem jointValid_loop (samples : List Sample) (m : Int) (p : GraphState × Bool) (i : Nat)
    (hi : i < GRAPH_HOURS) :
    JointValid (forLoop GRAPH_HOURS (hourStep samples m) p).1 i := by
  obtain ⟨h1, h2, h3, h4⟩ := hourLoop_spec samples m p GRAPH_HOURS
  unfold JointValid
  rw [h1 i, h2 i, h3 i, h4 i]
  simp only [hi, if_true]
  cases (hourValues samples (targetTs m i)).1 <;>
    cases (hourValues samples (targetTs m i)).2.1 <;>
    cases (hourValues samples (targetTs m i)).2.2 <;> simp [isnan, NAN]

/-- The optional smoothing keeps joint validity. -/
theorem jointValid_smoothAll (st : GraphState) (i : Nat) (h : JointValid st i) :
    JointValid (smoothAll st) i := by
  unfold JointValid at h ⊢
  unfold smoothAll
  simp only []
  have e1 := smoothArray_isnan st.graphTemp st.graphValid GRAPH_HOURS i
  have e2 := smoothArray_isnan st.graphWind st.graphValid GRAPH_HOURS i
  have e3 := smoothArray_isnan st.graphPop st.graphValid GRAPH_HOURS i
  rw [e1, e2, e3]
  refine ⟨h.1, fun hv => ?_⟩
  obtain ⟨a, b, c⟩ := h.2 hv
  rw [← isnan_eq_true_iff] at a b c ⊢
  rw [← isnan_eq_true_iff, ← isnan_eq_true_iff, e1, e2, e3]
  exact ⟨a, b, c⟩

/-- The bracket scan started at index `s` with `idx0` below `s` returns `-1` or an index of
the samples it has looked at, for both brackets. -/
theorem scanFrom_range (target_ts : Int) (rest : List Sample) (s idx0 : Int)
    (h0 : -1 ≤ idx0) (h1 : idx0 < s) :
    -1 ≤ (scanFrom target_ts rest s idx0 (-1)).1 ∧
    (scanFrom target_ts rest s idx0 (-1)).1 < s + rest.length ∧
    -1 ≤ (scanFrom target_ts rest s idx0 (-1)).2 ∧
    (scanFrom target_ts rest s idx0 (-1)).2 < s + rest.length := by
  induction rest generalizing s idx0 with
  | nil => simp only [scanFrom, List.length_nil]; omega
  | cons x xs ih =>
    simp only [scanFrom, List.length_cons]
    by_cases hge : x.local_ts ≥ target_ts
    · rw [if_pos hge]
      by_cases hle : x.local_ts ≤ target_ts
      · simp only [if_pos hle]; push_cast; omega
      · simp only [if_neg hle]; push_cast; omega
    · rw [if_neg hge]
      by_cases hle : x.local_ts ≤ target_ts
      · simp only [if_pos hle]
        have := ih (s + 1) s (by omega) (by omega)
        push_cast; omega
      · simp only [if_neg hle]
        have := ih (s + 1) idx0 h0 (by omega)
        push_cast; omega

/-- An index in range reads a sample of the array. -/
theorem sampleAt_mem (samples : List Sample) (idx : Int) (h0 : 0 ≤ idx)
    (h1 : idx ≤ (samples.length : Int) - 1) : sampleAt samples idx ∈ samples := by
  unfold sampleAt
  rw [if_neg (by omega)]
  have h : idx.toNat < samples.length := by omega
  rw [List.getD_eq_getElem _ _ h]
  exact List.getElem_mem h

/-- After the edge clamp both brackets are indices of the sample array. -/
theorem findBrackets_range (samples : List Sample) (target_ts : Int) (h : samples ≠ []) :
    0 ≤ (findBrackets samples target_ts).1 ∧
    (findBrackets samples target_ts).1 ≤ (samples.length : Int) - 1 ∧
    0 ≤ (findBrackets samples target_ts).2 ∧
    (findBrackets samples target_ts).2 ≤ (samples.length : Int) - 1 := by
  have hlen : 0 < samples.length := List.length_pos.mpr h
  obtain ⟨a, b, c, d⟩ := scanFrom_range target_ts samples 0 (-1) (by omega) (by omega)
  unfold findBrackets
  simp only []
  refine ⟨?_, ?_, ?_, ?_⟩
  · split <;> omega
  · split <;> omega
  · split <;> omega
  · split <;> omega

/-- The per-metric code of lines 219-235 computes the rule of the specification. -/
theorem interpMetric_eq_rule (v0 v1 : CFloat) (alpha : ℚ) :
    interpMetric v0 v1 alpha = metricRule v0 v1 alpha := by
  cases v0 <;> cases v1 <;> simp [interpMetric, metricRule, isnan, lerpFloat, fadd, fmul, fsub, NAN]

/-- The clamped weight is the quotient cut to the unit interval. -/
theorem clampedAlpha_eq (target_ts t0 t1 : Int) :
    clampedAlpha target_ts t0 t1 =
      max 0 (min 1 (((target_ts - t0 : Int) : ℚ) / ((t1 - t0 : Int) : ℚ))) := by
  unfold clampedAlpha
  simp only []
  by_cases h0 : ((target_ts - t0 : Int) : ℚ) / ((t1 - t0 : Int) : ℚ) < 0
  · rw [if_pos h0, if_neg (by norm_num)]
    rw [min_eq_right (by linarith), max_eq_left (le_of_lt h0)]
  · rw [if_neg h0]
    push_neg at h0
    by_cases h1 : ((target_ts - t0 : Int) : ℚ) / ((t1 - t0 : Int) : ℚ) > 1
    · rw [if_pos h1, min_eq_left (le_of_lt h1), max_eq_right (by norm_num)]
    · rw [if_neg h1]
      push_neg at h1
      rw [min_eq_right h1, max_eq_right h0]

/-- The clamped weight lies in the unit interval. -/
theorem clampedAlpha_range (target_ts t0 t1 : Int) :
    0 ≤ clampedAlpha target_ts t0 t1 ∧ clampedAlpha target_ts t0 t1 ≤ 1 := by
  rw [clampedAlpha_eq]
  exact ⟨le_max_left _ _, max_le (by norm_num) (min_le_left _ _)⟩

/-- The values of an hour whose brackets differ in index and in timestamp: the `else` branch
of line 213. -/
theorem hourValues_interp (samples : List Sample) (target_ts : Int)
    (hidx : (findBrackets samples target_ts).1 ≠ (findBrackets samples target_ts).2)
    (ht : (bracket0 samples target_ts).local_ts ≠
      (bracket1 samples target_ts).local_ts) :
    hourValues samples target_ts =
      (interpMetric (bracket0 samples target_ts).temp
          (bracket1 samples target_ts).temp
          (clampedAlpha target_ts (bracket0 samples target_ts).local_ts
            (bracket1 samples target_ts).local_ts),
       interpMetric (bracket0 samples target_ts).wind
          (bracket1 samples target_ts).wind
          (clampedAlpha target_ts (bracket0 samples target_ts).local_ts
            (bracket1 samples target_ts).local_ts),
       interpMetric (bracket0 samples target_ts).pop
          (bracket1 samples target_ts).pop
          (clampedAlpha target_ts (bracket0 samples target_ts).local_ts
            (bracket1 samples target_ts).local_ts)) := by
  unfold hourValues
  simp only []
  rw [if_neg]
  rintro (h | h)
  · exact hidx h
  · exact ht h.symm

/-- The values of an hour whose brackets coincide in index or in timestamp: the `then` branch
of line 208. -/
theorem hourValues_direct (samples : List Sample) (target_ts : Int)
    (h : (findBrackets samples target_ts).1 = (findBrackets samples target_ts).2 ∨
      (bracket0 samples target_ts).local_ts =
      (bracket1 samples target_ts).local_ts) :
    hourValues samples target_ts =
      ((bracket0 samples target_ts).temp,
       (bracket0 samples target_ts).wind,
       (bracket0 samples target_ts).pop) := by
  unfold hourValues
  simp only []
  rw [if_pos]
  rcases h with h | h
  · exact Or.inl h
  · exact Or.inr h.symm

/-- Two samples strictly around the target: the brackets are the indices 0 and 1. -/
theorem findBrackets_pair (s0 s1 : Sample) (target_ts : Int)
    (h0 : s0.local_ts < target_ts) (h1 : target_ts < s1.local_ts) :
    findBrackets [s0, s1] target_ts = (0, 1) := by
  have a : s0.local_ts ≤ target_ts := le_of_lt h0
  have b : ¬ s0.local_ts ≥ target_ts := by omega
  have c : ¬ s1.local_ts ≤ target_ts := by omega
  have d : s1.local_ts ≥ target_ts := by omega
  simp [findBrackets, scanFrom, a, b, c, d]

/-- A call with a payload, a parsed document and a non-empty list reaches the main loop and
the optional smoothing. -/
theorem calculate_success (n : Nat) (tz : Option Int) (list : List ForecastItem) (now_t : Int)
    (smooth : Bool) (st : GraphState) (hn : 10 ≤ n) (hne : list ≠ []) :
    calculateGraphDataFromForecastRaw { rawLength := n, parsed := some { timezone := tz, list := some list } }
        now_t smooth st =
      ((forLoop GRAPH_HOURS (hourStep (buildSamples (tz.getD 0) list)
          (midnightLocal now_t (tz.getD 0))) (initOutputs st, false)).2,
        if (smooth && (forLoop GRAPH_HOURS (hourStep (buildSamples (tz.getD 0) list)
          (midnightLocal now_t (tz.getD 0))) (initOutputs st, false)).2) = true
        then smoothAll (forLoop GRAPH_HOURS (hourStep (buildSamples (tz.getD 0) list)
          (midnightLocal now_t (tz.getD 0))) (initOutputs st, false)).1
        else (forLoop GRAPH_HOURS (hourStep (buildSamples (tz.getD 0) list)
          (midnightLocal now_t (tz.getD 0))) (initOutputs st, false)).1) := by
  have h1 : ¬ n < 10 := by omega
  have h2 : ¬ (buildSamples (tz.getD 0) list).length = 0 := by
    cases list with
    | nil => exact absurd rfl hne
    | cons x xs => simp [buildSamples]
  unfold calculateGraphDataFromForecastRaw
  simp only [h1, h2, if_false]

/-- Two samples strictly around the target: every metric is interpolated between them. -/
theorem hourValues_pair (s0 s1 : Sample) (target_ts : Int)
    (h0 : s0.local_ts < target_ts) (h1 : target_ts < s1.local_ts) :
    hourValues [s0, s1] target_ts =
      (interpMetric s0.temp s1.temp (clampedAlpha target_ts s0.local_ts s1.local_ts),
       interpMetric s0.wind s1.wind (clampedAlpha target_ts s0.local_ts s1.local_ts),
       interpMetric s0.pop s1.pop (clampedAlpha target_ts s0.local_ts s1.local_ts)) := by
  have hb := findBrackets_pair s0 s1 target_ts h0 h1
  have e0 : sampleAt [s0, s1] 0 = s0 := by simp [sampleAt]
  have e1 : sampleAt [s0, s1] 1 = s1 := by simp [sampleAt]
  rw [hourValues_interp]
  · simp only [bracket0, bracket1, hb, e0, e1]
  · rw [hb]; decide
  · simp only [bracket0, bracket1, hb, e0, e1]; omega

/-- Samples at local hours 12 (temperature 60) and 18 (temperature 80): the temperature of a
local hour `9 + j` strictly between them lies on the straight line. -/
theorem scenarioB_hour (m : Int) (dt0 dt1 : Int) (w0 p0 w1 p1 : CFloat) (j : Nat)
    (h3 : 3 < j) (h9 : j < 9) :
    (hourValues [{ dt := dt0, local_ts := m + 12 * 3600, temp := some 60, wind := w0, pop := p0 },
        { dt := dt1, local_ts := m + 18 * 3600, temp := some 80, wind := w1, pop := p1 }]
      (targetTs m j)).1 = some (60 + (80 - 60) * ((((9 + j : Nat) : ℚ) - 12) / (18 - 12))) := by
  rw [hourValues_pair _ _ _ (by simp only [targetTs]; omega) (by simp only [targetTs]; omega)]
  simp only [interpMetric_eq_rule, metricRule, clampedAlpha_eq, targetTs]
  have hq : (((m + (9 + (j : Int)) * 3600 - (m + 12 * 3600) : Int) : ℚ) /
      ((m + 18 * 3600 - (m + 12 * 3600) : Int) : ℚ)) = (((9 + j : Nat) : ℚ) - 12) / (18 - 12) := by
    push_cast
    field_simp
    ring
  rw [hq]
  have hj3 : (3 : ℚ) < (j : ℚ) := by exact_mod_cast h3
  have hj9 : (j : ℚ) < 9 := by exact_mod_cast h9
  have hlo : (0 : ℚ) ≤ (((9 + j : Nat) : ℚ) - 12) / (18 - 12) := by
    apply div_nonneg <;> push_cast <;> linarith
  have hhi : (((9 + j : Nat) : ℚ) - 12) / (18 - 12) ≤ 1 := by
    rw [div_le_one (by norm_num)]; push_cast; linarith
  rw [min_eq_right hhi, max_eq_right hlo]

/-- The optional smoothing replaces the temperature series by its smoothed copy. -/
theorem smoothAll_graphTemp (st : GraphState) :
    (smoothAll st).graphTemp = smoothArray st.graphTemp st.graphValid GRAPH_HOURS := rfl

/-- The smoothing law at an interior index whose two neighbours qualify. -/
theorem smoothLaw_interior (orig : Nat → CFloat) (valid : Nat → Bool) (n i : Nat) (c l r : ℚ)
    (h0 : 0 < i) (h1 : i + 1 < n) (hv : valid i = true) (hvl : valid (i - 1) = true)
    (hvr : valid (i + 1) = true) (hc : orig i = some c) (hl : orig (i - 1) = some l)
    (hr : orig (i + 1) = some r) :
    smoothLaw orig valid n i = some ((2 * c + l + r) / 4) := by
  simp [smoothLaw, qualifying, neighbours, h0, h1, hv, hvl, hvr, hc, hl, hr, isnan]
  ring

/-- Samples at local hours 12 (temperature 60) and 18 (temperature 80): the temperature stored
for local hour 15 is 70, with or without smoothing. -/
theorem scenarioB_stored (n : Nat) (now_t tz : Int) (w0 p0 w1 p1 : CFloat) (smooth : Bool)
    (st : GraphState) (hn : 10 ≤ n) :
    (calculateGraphDataFromForecastRaw
      { rawLength := n
        parsed := some
          { timezone := some tz
            list := some
              [ { dt := some (midnightLocal now_t tz + 12 * 3600 - tz), main := some (some 60),
                  windSpeed := w0, pop := p0 },
                { dt := some (midnightLocal now_t tz + 18 * 3600 - tz), main := some (some 80),
                  windSpeed := w1, pop := p1 } ] } }
      now_t smooth st).2.graphTemp 6 = some 70 := by
  rw [calculate_success _ _ _ _ _ _ hn (by simp)]
  have hs : buildSamples ((some tz).getD 0)
      [ { dt := some (midnightLocal now_t tz + 12 * 3600 - tz), main := some (some 60),
          windSpeed := w0, pop := p0 },
        { dt := some (midnightLocal now_t tz + 18 * 3600 - tz), main := some (some 80),
          windSpeed := w1, pop := p1 } ] =
      [ { dt := midnightLocal now_t tz + 12 * 3600 - tz, local_ts := midnightLocal now_t tz + 12 * 3600,
          temp := some 60, wind := w0, pop := p0 },
        { dt := midnightLocal now_t tz + 18 * 3600 - tz, local_ts := midnightLocal now_t tz + 18 * 3600,
          temp := some 80, wind := w1, pop := p1 } ] := by
    simp [buildSamples, mkSample]
  rw [hs]
  simp only [Option.getD_some]
  generalize midnightLocal now_t tz = m
  obtain ⟨ht, _, _, hv⟩ := hourLoop_spec
    [ { dt := m + 12 * 3600 - tz, local_ts := m + 12 * 3600, temp := some 60, wind := w0, pop := p0 },
      { dt := m + 18 * 3600 - tz, local_ts := m + 18 * 3600, temp := some 80, wind := w1, pop := p1 } ]
    m (initOutputs st, false) GRAPH_HOURS
  have hany := (hourLoop_any
    [ { dt := m + 12 * 3600 - tz, local_ts := m + 12 * 3600, temp := some 60, wind := w0, pop := p0 },
      { dt := m + 18 * 3600 - tz, local_ts := m + 18 * 3600, temp := some 80, wind := w1, pop := p1 } ]
    m (initOutputs st, false) GRAPH_HOURS).mpr
  have t5 := scenarioB_hour m (m + 12 * 3600 - tz) (m + 18 * 3600 - tz) w0 p0 w1 p1 5 (by decide) (by decide)
  have t6 := scenarioB_hour m (m + 12 * 3600 - tz) (m + 18 * 3600 - tz) w0 p0 w1 p1 6 (by decide) (by decide)
  have t7 := scenarioB_hour m (m + 12 * 3600 - tz) (m + 18 * 3600 - tz) w0 p0 w1 p1 7 (by decide) (by decide)
  generalize forLoop GRAPH_HOURS (hourStep
    [ { dt := m + 12 * 3600 - tz, local_ts := m + 12 * 3600, temp := some 60, wind := w0, pop := p0 },
      { dt := m + 18 * 3600 - tz, local_ts := m + 18 * 3600, temp := some 80, wind := w1, pop := p1 } ]
    m) (initOutputs st, false) = L at ht hv hany ⊢
  have e5 := ht 5
  have e6 := ht 6
  have e7 := ht 7
  have v5 := hv 5
  have v6 := hv 6
  have v7 := hv 7
  rw [if_pos (by decide)] at e5 e6 e7 v5 v6 v7
  rw [t5] at e5 v5
  rw [t6] at e6 v6
  rw [t7] at e7 v7
  simp only [isnan_some, Bool.false_and, Bool.not_false] at v5 v6 v7
  cases smooth with
  | false =>
    simp only [Bool.false_and, Bool.false_eq_true, if_false]
    rw [e6]
    norm_num
  | true =>
    have hL : L.2 = true := hany (Or.inr ⟨6, by decide, by rw [t6]; rfl⟩)
    simp only [hL, Bool.and_self, if_true]
    rw [smoothAll_graphTemp, smoothArray_eq_law _ _ _ _ (by decide),
      smoothLaw_interior L.1.graphTemp L.1.graphValid GRAPH_HOURS 6 _ _ _ (by decide) (by decide)
        v6 v5 v7 e6 e5 e7]
    norm_num

/-- Without smoothing, a call that reaches the main loop stores at every hour the three values
computed for that hour. -/
theorem calculate_unsmoothed (n : Nat) (tz : Option Int) (list : List ForecastItem) (now_t : Int)
    (st : GraphState) (i : Nat) (hn : 10 ≤ n) (hne : list ≠ []) (hi : i < GRAPH_HOURS) :
    ((calculateGraphDataFromForecastRaw
        { rawLength := n, parsed := some { timezone := tz, list := some list } }
        now_t false st).2.graphTemp i,
     (calculateGraphDataFromForecastRaw
        { rawLength := n, parsed := some { timezone := tz, list := some list } }
        now_t false st).2.graphWind i,
     (calculateGraphDataFromForecastRaw
        { rawLength := n, parsed := some { timezone := tz, list := some list } }
        now_t false st).2.graphPop i) =
      hourValues (buildSamples (tz.getD 0) list) (targetTs (midnightLocal now_t (tz.getD 0)) i) := by
  rw [calculate_success _ _ _ _ _ _ hn hne]
  simp only [Bool.false_and, Bool.false_eq_true, if_false]
  obtain ⟨h1, h2, h3, _⟩ := hourLoop_spec (buildSamples (tz.getD 0) list)
    (midnightLocal now_t (tz.getD 0)) (initOutputs st, false) GRAPH_HOURS
  rw [h1 i, h2 i, h3 i, if_pos hi, if_pos hi, if_pos hi]

/-- A convex combination of two numbers lies between them. -/
theorem lerp_between (a b alpha : ℚ) (h0 : 0 ≤ alpha) (h1 : alpha ≤ 1) :
    min a b ≤ a + (b - a) * alpha ∧ a + (b - a) * alpha ≤ max a b := by
  rcases le_total a b with hab | hab
  · rw [min_eq_left hab, max_eq_right hab]
    constructor
    · nlinarith [mul_nonneg (sub_nonneg.mpr hab) h0]
    · nlinarith [mul_nonneg (sub_nonneg.mpr hab) (sub_nonneg.mpr h1)]
  · rw [min_eq_right hab, max_eq_left hab]
    constructor
    · nlinarith [mul_nonneg (sub_nonneg.mpr hab) (sub_nonneg.mpr h1)]
    · nlinarith [mul_nonneg (sub_nonneg.mpr hab) h0]

/-- The rule of the specification stays between two present bracket values. -/
theorem metricRule_between (v0 v1 alpha : ℚ) (h0 : 0 ≤ alpha) (h1 : alpha ≤ 1) :
    ∃ v, metricRule (some v0) (some v1) alpha = some v ∧ min v0 v1 ≤ v ∧ v ≤ max v0 v1 :=
  ⟨v0 + (v1 - v0) * alpha, rfl, lerp_between v0 v1 alpha h0 h1⟩

/-- After the initialisation every hour is blank. -/
theorem allBlank_init (st : GraphState) : AllBlank (initOutputs st) := by
  intro i hi
  obtain ⟨h1, h2, h3, h4⟩ := initOutputs_spec st i hi
  exact ⟨h4, h1, h2, h3⟩

/-- The return value of a call says whether some hour is flagged valid on return. -/
theorem calculate_return_iff (cache : CachedForecast) (now_t : Int) (smooth : Bool)
    (st : GraphState) :
    (calculateGraphDataFromForecastRaw cache now_t smooth st).1 = true ↔
      ∃ i, i < GRAPH_HOURS ∧
        (calculateGraphDataFromForecastRaw cache now_t smooth st).2.graphValid i = true := by
  rcases calculate_cases cache now_t smooth st with h | ⟨samples, m, _, h⟩
  · rw [h]
    constructor
    · intro hf
      exact absurd hf (by simp)
    · rintro ⟨i, hi, hv⟩
      rw [(initOutputs_spec st i hi).2.2.2] at hv
      exact absurd hv (by simp)
  · rw [h]
    have hv : (if (smooth && (forLoop GRAPH_HOURS (hourStep samples m) (initOutputs st, false)).2) = true
          then smoothAll (forLoop GRAPH_HOURS (hourStep samples m) (initOutputs st, false)).1
          else (forLoop GRAPH_HOURS (hourStep samples m) (initOutputs st, false)).1).graphValid =
        (forLoop GRAPH_HOURS (hourStep samples m) (initOutputs st, false)).1.graphValid := by
      split
      · rfl
      · rfl
    simp only [hv]
    rw [hourLoop_any]
    obtain ⟨_, _, _, h4⟩ := hourLoop_spec samples m (initOutputs st, false) GRAPH_HOURS
    constructor
    · rintro (hf | ⟨j, hj, hj2⟩)
      · exact absurd hf (by simp)
      · exact ⟨j, hj, by rw [h4 j, if_pos hj]; exact hj2⟩
    · rintro ⟨j, hj, hj2⟩
      rw [h4 j, if_pos hj] at hj2
      exact Or.inr ⟨j, hj, hj2⟩

/-- A call on an empty forecast list returns after the initialisation. -/
theorem calculate_empty (n : Nat) (tz : Option Int) (now_t : Int) (smooth : Bool)
    (st : GraphState) :
    calculateGraphDataFromForecastRaw
      { rawLength := n, parsed := some { timezone := tz, list := some [] } } now_t smooth st =
      (false, initOutputs st) := by
  unfold calculateGraphDataFromForecastRaw
  simp [buildSamples]

/-- A call that returns `false` leaves every hour blank. -/
theorem calculate_false_blank (cache : CachedForecast) (now_t : Int) (smooth : Bool)
    (st : GraphState)
    (h : (calculateGraphDataFromForecastRaw cache now_t smooth st).1 = false) :
    AllBlank (calculateGraphDataFromForecastRaw cache now_t smooth st).2 := by
  rcases calculate_cases cache now_t smooth st with h' | ⟨samples, m, _, h'⟩
  · rw [h']
    exact allBlank_init st
  · rw [h'] at h ⊢
    simp only [] at h
    simp only [h, Bool.and_false, Bool.false_eq_true, if_false]
    intro i hi
    obtain ⟨h1, h2, h3, h4⟩ := hourLoop_spec samples m (initOutputs st, false) GRAPH_HOURS
    have hany := hourLoop_any samples m (initOutputs st, false) GRAPH_HOURS
    have hv : (!(isnan (hourValues samples (targetTs m i)).1 &&
          isnan (hourValues samples (targetTs m i)).2.1 &&
          isnan (hourValues samples (targetTs m i)).2.2)) = false := by
      cases hX : (!(isnan (hourValues samples (targetTs m i)).1 &&
          isnan (hourValues samples (targetTs m i)).2.1 &&
          isnan (hourValues samples (targetTs m i)).2.2)) with
      | false => rfl
      | true =>
        have ht := hany.mpr (Or.inr ⟨i, hi, hX⟩)
        rw [h] at ht
        exact absurd ht (by simp)
    rw [h1 i, h2 i, h3 i, h4 i, if_pos hi, if_pos hi, if_pos hi, if_pos hi]
    simp only [Bool.not_eq_false', Bool.and_eq_true] at hv
    obtain ⟨⟨a, b⟩, c⟩ := hv
    rw [isnan_eq_true_iff] at a b c
    refine ⟨?_, a, b, c⟩
    rw [a, b, c]
    rfl

/-- The time-of-day fields of `gmtime_r` are in range and add up to the second of the day. -/
theorem gmtime_r_fields (t : Int) :
    (0 ≤ (gmtime_r t).tm_hour ∧ (gmtime_r t).tm_hour < 24) ∧
    (0 ≤ (gmtime_r t).tm_min ∧ (gmtime_r t).tm_min < 60) ∧
    (0 ≤ (gmtime_r t).tm_sec ∧ (gmtime_r t).tm_sec < 60) ∧
    (gmtime_r t).tm_hour * 3600 + (gmtime_r t).tm_min * 60 + (gmtime_r t).tm_sec = t % 86400 := by
  simp only [gmtime_r]
  omega

/-- The local midnight is the shifted time rounded down to a multiple of 86400. -/
theorem midnightLocal_eq (now_t tz : Int) :
    midnightLocal now_t tz = 86400 * ((now_t + tz) / 86400) := by
  have h := (gmtime_r_fields (now_t + tz)).2.2.2
  simp only [midnightLocal]
  rw [h]
  omega

/-- Every sample the resampler builds has `local_ts = dt + tz_offset`. -/
theorem buildSamples_local_ts (tz_offset : Int) (list : List ForecastItem) (s : Sample)
    (hs : s ∈ buildSamples tz_offset list) : s.local_ts = s.dt + tz_offset := by
  simp only [buildSamples, List.mem_map] at hs
  obtain ⟨item, _, rfl⟩ := hs
  rfl

/-- A display call is issued by an emitting loop iff one of its rounds issues it. -/
theorem mem_emitLoop (n : Nat) (f : Nat → List DrawCmd) (c : DrawCmd) :
    c ∈ emitLoop n f ↔ ∃ i, i < n ∧ c ∈ f i := by
  unfold emitLoop
  induction n with
  | zero => simp [forLoop]
  | succ n ih =>
    simp only [forLoop, List.mem_append, ih]
    constructor
    · rintro (⟨i, hi, h⟩ | h)
      · exact ⟨i, Nat.lt_succ_of_lt hi, h⟩
      · exact ⟨n, Nat.lt_succ_self n, h⟩
    · rintro ⟨i, hi, h⟩
      by_cases hin : i = n
      · subst hin; exact Or.inr h
      · exact Or.inl ⟨i, by omega, h⟩

/-- One round of `findMinMax` sets the flag at a valid hour and keeps it otherwise. -/
theorem findMinMaxStep_found (arr : Nat → CFloat) (valid : Nat → Bool) (i : Nat) (r : MinMax) :
    (findMinMaxStep arr valid i r).found = (r.found || valid i) := by
  unfold findMinMaxStep
  cases hv : valid i <;> cases hf : r.found <;> simp [hf]

/-- The flag of `findMinMax` after `n` rounds says whether a valid hour lies below `n`. -/
theorem findMinMax_found (arr : Nat → CFloat) (valid : Nat → Bool) (n : Nat) :
    (findMinMax arr valid n).found = true ↔ ∃ i, i < n ∧ valid i = true := by
  unfold findMinMax
  induction n with
  | zero => simp [forLoop]
  | succ n ih =>
    simp only [forLoop]
    rw [findMinMaxStep_found, Bool.or_eq_true, ih]
    constructor
    · rintro (⟨i, hi, h⟩ | h)
      · exact ⟨i, Nat.lt_succ_of_lt hi, h⟩
      · exact ⟨n, Nat.lt_succ_self n, h⟩
    · rintro ⟨i, hi, h⟩
      by_cases hin : i = n
      · subst hin; exact Or.inr h
      · exact Or.inl ⟨i, by omega, h⟩

/-- The percent conversion after `n` rounds: flags and the other series are as before, the
precipitation below `n` is multiplied by 100 where the hour is valid and has a number. -/
theorem popLoop_spec (st : GraphState) (n : Nat) :
    (forLoop n (fun i st =>
      if st.graphValid i && !isnan (st.graphPop i) then
        { st with graphPop := store st.graphPop i (fmul (st.graphPop i) (some 100)) }
      else st) st).graphValid = st.graphValid ∧
    (forLoop n (fun i st =>
      if st.graphValid i && !isnan (st.graphPop i) then
        { st with graphPop := store st.graphPop i (fmul (st.graphPop i) (some 100)) }
      else st) st).graphTemp = st.graphTemp ∧
    (forLoop n (fun i st =>
      if st.graphValid i && !isnan (st.graphPop i) then
        { st with graphPop := store st.graphPop i (fmul (st.graphPop i) (some 100)) }
      else st) st).graphWind = st.graphWind ∧
    (forLoop n (fun i st =>
      if st.graphValid i && !isnan (st.graphPop i) then
        { st with graphPop := store st.graphPop i (fmul (st.graphPop i) (some 100)) }
      else st) st).graphHourLabels = st.graphHourLabels ∧
    ∀ j, (forLoop n (fun i st =>
      if st.graphValid i && !isnan (st.graphPop i) then
        { st with graphPop := store st.graphPop i (fmul (st.graphPop i) (some 100)) }
      else st) st).graphPop j =
      if j < n ∧ st.graphValid j = true then fmul (st.graphPop j) (some 100)
      else st.graphPop j := by
  induction n with
  | zero => simp [forLoop]
  | succ n ih =>
    obtain ⟨h1, h2, h3, h4, h5⟩ := ih
    simp only [forLoop]
    generalize forLoop n (fun i st =>
      if st.graphValid i && !isnan (st.graphPop i) then
        { st with graphPop := store st.graphPop i (fmul (st.graphPop i) (some 100)) }
      else st) st = L at h1 h2 h3 h4 h5 ⊢
    have hn := h5 n
    simp only [Nat.lt_irrefl, false_and, if_false] at hn
    split
    · rename_i hc
      simp only [Bool.and_eq_true, Bool.not_eq_true'] at hc
      refine ⟨h1, h2, h3, h4, fun j => ?_⟩
      simp only [store]
      by_cases hj : j = n
      · subst hj
        rw [h1] at hc
        simp [hc.1, hn]
      · rw [if_neg hj, h5 j]
        by_cases hlt : j < n
        · simp [hlt, Nat.lt_succ_of_lt hlt]
        · have : ¬ j < n + 1 := by omega
          simp [hlt, this]
    · rename_i hc
      refine ⟨h1, h2, h3, h4, fun j => ?_⟩
      rw [h5 j]
      by_cases hj : j = n
      · subst hj
        simp only [Nat.lt_irrefl, false_and, if_false, Nat.lt_succ_self, true_and]
        rw [h1, hn] at hc
        by_cases hv : st.graphValid j = true
        · simp only [hv, Bool.true_and, Bool.not_eq_true', Bool.not_eq_false] at hc
          rw [isnan_eq_true_iff] at hc
          simp [hv, hc, NAN, fmul]
        · simp [hv]
      · by_cases hlt : j < n
        · simp [hlt, Nat.lt_succ_of_lt hlt]
        · have : ¬ j < n + 1 := by omega
          simp [hlt, this]

/-- A call on an area that is not usable does nothing. -/
theorem drawGraph_unusable (graphType : Int) (area : GraphArea) (clock : Option Tm)
    (st : GraphState) (h : area.g_w ≤ 8 ∨ area.g_h ≤ 8) :
    drawGraph graphType area clock st = (st, []) := by
  unfold drawGraph
  rw [if_pos h]

/-- A call on a usable area whose first scan finds nothing: the frame and the placeholder. -/
theorem drawGraph_noData (graphType : Int) (area : GraphArea) (clock : Option Tm)
    (st : GraphState) (hw : 8 < area.g_w) (hh : 8 < area.g_h)
    (hf : (findMinMax (selectArr graphType st) st.graphValid GRAPH_HOURS).found = false) :
    drawGraph graphType area clock st = (st, frameCmds area ++ noDataCmds area) := by
  unfold drawGraph
  rw [if_neg (by omega)]
  simp only [hf, Bool.not_false, if_true]
  rfl

/-- A call on a usable area whose first scan finds a valid hour: the frame, the grid, the
ticks, the polyline, the title with the min/max labels and the marker, on the plotted
series. -/
theorem drawGraph_main (graphType : Int) (area : GraphArea) (clock : Option Tm)
    (st : GraphState) (hw : 8 < area.g_w) (hh : 8 < area.g_h)
    (hf : (findMinMax (selectArr graphType st) st.graphValid GRAPH_HOURS).found = true) :
    drawGraph graphType area clock st =
      (plottedState graphType st,
        frameCmds area ++
        gridCmds area (decide (graphType = 2)) (scaleRange graphType st).1
          (scaleRange graphType st).2 ++
        tickCmds area ++
        polylineCmds (plottedState graphType st).graphValid (plottedPixels graphType area st).1
          (plottedPixels graphType area st).2 (selectColor graphType) ++
        titleCmds area graphType (decide (graphType = 2)) (scaleRange graphType st).1
          (scaleRange graphType st).2 ++
        markerCmds area (selectArr graphType (plottedState graphType st))
          (plottedState graphType st).graphValid (scaleRange graphType st).1
          (scaleRange graphType st).2 clock) := by
  unfold drawGraph
  rw [if_neg (by omega)]
  simp only [hf, Bool.not_true, Bool.false_eq_true, if_false]
  by_cases h2 : graphType = 2
  · simp only [plottedPixels, scaleRange, scaleScan, plottedState, h2, if_true, frameCmds]
  · simp only [plottedPixels, scaleRange, scaleScan, plottedState, h2, if_false, frameCmds]

/-- The percent conversion leaves the flags and the other series alone and multiplies the
precipitation of every valid hour by 100. -/
theorem popToPercent_spec (st : GraphState) :
    (popToPercent st).graphValid = st.graphValid ∧
    (popToPercent st).graphTemp = st.graphTemp ∧
    (popToPercent st).graphWind = st.graphWind ∧
    (popToPercent st).graphHourLabels = st.graphHourLabels ∧
    ∀ j, (popToPercent st).graphPop j =
      if j < GRAPH_HOURS ∧ st.graphValid j = true then fmul (st.graphPop j) (some 100)
      else st.graphPop j :=
  popLoop_spec st GRAPH_HOURS

/-- The plotted series has the flags of the stored one. -/
theorem plottedState_graphValid (graphType : Int) (st : GraphState) :
    (plottedState graphType st).graphValid = st.graphValid := by
  unfold plottedState
  split
  · exact (popToPercent_spec st).1
  · rfl

/-- The grid always starts with the line along the top row of the area. -/
theorem gridCmds_top_line (area : GraphArea) (showPercent : Bool) (vmin vmax : CFloat) :
    DrawCmd.drawFastHLine (area.g_x + 1) area.g_y (area.g_w - 2) COL_GRID ∈
      gridCmds area showPercent vmin vmax := by
  unfold gridCmds
  rw [List.mem_append]
  right
  rw [mem_emitLoop]
  refine ⟨0, by decide, ?_⟩
  simp [gridStep]

/-- The placeholder output has no grid line. -/
theorem noData_no_grid_line (area : GraphArea) (x y w : Int) (color : Color) :
    DrawCmd.drawFastHLine x y w color ∉ frameCmds area ++ noDataCmds area := by
  simp [frameCmds, noDataCmds]

/-- A call that finds a valid hour draws the top grid line. -/
theorem drawGraph_main_grid_line (graphType : Int) (area : GraphArea) (clock : Option Tm)
    (st : GraphState) (hw : 8 < area.g_w) (hh : 8 < area.g_h)
    (hf : (findMinMax (selectArr graphType st) st.graphValid GRAPH_HOURS).found = true) :
    DrawCmd.drawFastHLine (area.g_x + 1) area.g_y (area.g_w - 2) COL_GRID ∈
      (drawGraph graphType area clock st).2 := by
  rw [drawGraph_main graphType area clock st hw hh hf]
  simp only [List.mem_append]
  exact Or.inl (Or.inl (Or.inl (Or.inl (Or.inr (gridCmds_top_line _ _ _ _)))))

/-- On a usable area `drawGraph` answers with the placeholder exactly when no hour is flagged
valid; whether the selected metric has a number at a valid hour plays no part. -/
theorem drawGraph_placeholder_iff (graphType : Int) (area : GraphArea) (clock : Option Tm)
    (st : GraphState) (hw : 8 < area.g_w) (hh : 8 < area.g_h) :
    (drawGraph graphType area clock st).2 = frameCmds area ++ noDataCmds area ↔
      ∀ i, i < GRAPH_HOURS → st.graphValid i = false := by
  cases hf : (findMinMax (selectArr graphType st) st.graphValid GRAPH_HOURS).found with
  | false =>
    rw [drawGraph_noData graphType area clock st hw hh hf]
    simp only [true_iff]
    intro i hi
    cases hv : st.graphValid i with
    | false => rfl
    | true =>
      have := (findMinMax_found (selectArr graphType st) st.graphValid GRAPH_HOURS).mpr ⟨i, hi, hv⟩
      rw [hf] at this
      exact absurd this (by simp)
  | true =>
    constructor
    · intro h
      have hm := drawGraph_main_grid_line graphType area clock st hw hh hf
      rw [h] at hm
      exact absurd hm (noData_no_grid_line area _ _ _ _)
    · intro h
      obtain ⟨i, hi, hv⟩ := (findMinMax_found (selectArr graphType st) st.graphValid
        GRAPH_HOURS).mp hf
      rw [h i hi] at hv
      exact absurd hv (by simp)

/-- The arrays `px`, `py` after the pixel loop: below `GRAPH_HOURS`, `px[i]` is the column of
hour `i` and `py[i]` the row of the value at a valid hour with a number, the bottom row
otherwise. -/
theorem pixelLoop_spec (area : GraphArea) (arr : Nat → CFloat) (valid : Nat → Bool)
    (vmin vmax : CFloat) (n j : Nat) :
    (forLoop n (fun i p =>
      let fracX : ℚ := (i : ℚ) / (((GRAPH_HOURS : Int) - 1 : Int) : ℚ)
      let px := store p.1 i (fracToPixelX area fracX)
      let py :=
        if valid i && !isnan (arr i) then store p.2 i (valueToPixelY area vmin vmax (arr i))
        else store p.2 i (area.g_y + area.g_h - 1)
      (px, py)) ((fun _ => 0, fun _ => 0) : (Nat → Int) × (Nat → Int))).1 j =
      (if j < n then fracToPixelX area ((j : ℚ) / (((GRAPH_HOURS : Int) - 1 : Int) : ℚ)) else 0) ∧
    (forLoop n (fun i p =>
      let fracX : ℚ := (i : ℚ) / (((GRAPH_HOURS : Int) - 1 : Int) : ℚ)
      let px := store p.1 i (fracToPixelX area fracX)
      let py :=
        if valid i && !isnan (arr i) then store p.2 i (valueToPixelY area vmin vmax (arr i))
        else store p.2 i (area.g_y + area.g_h - 1)
      (px, py)) ((fun _ => 0, fun _ => 0) : (Nat → Int) × (Nat → Int))).2 j =
      (if j < n then
        (if (valid j && !isnan (arr j)) = true then valueToPixelY area vmin vmax (arr j)
         else area.g_y + area.g_h - 1)
       else 0) := by
  induction n with
  | zero => simp [forLoop]
  | succ n ih =>
    obtain ⟨h1, h2⟩ := ih
    simp only [forLoop]
    constructor
    · simp only [store]
      by_cases hj : j = n
      · subst hj; simp
      · rw [if_neg hj, h1]
        by_cases hlt : j < n
        · simp [hlt, Nat.lt_succ_of_lt hlt]
        · have : ¬ j < n + 1 := by omega
          simp [hlt, this]
    · by_cases hj : j = n
      · subst hj
        split <;> simp [store]
      · have hs : ∀ (a : Nat → Int) (v : Int), store a n v j = a j := fun a v =>
          store_other a n j v hj
        split
        · rw [hs, h2]
          by_cases hlt : j < n
          · simp [hlt, Nat.lt_succ_of_lt hlt]
          · have : ¬ j < n + 1 := by omega
            simp [hlt, this]
        · rw [hs, h2]
          by_cases hlt : j < n
          · simp [hlt, Nat.lt_succ_of_lt hlt]
          · have : ¬ j < n + 1 := by omega
            simp [hlt, this]

/-- The column `px[i]` of an hour of the grid. -/
theorem pixelPositions_px (area : GraphArea) (arr : Nat → CFloat) (valid : Nat → Bool)
    (vmin vmax : CFloat) (i : Nat) (hi : i < GRAPH_HOURS) :
    (pixelPositions area arr valid vmin vmax).1 i =
      fracToPixelX area ((i : ℚ) / (((GRAPH_HOURS : Int) - 1 : Int) : ℚ)) := by
  unfold pixelPositions
  rw [(pixelLoop_spec area arr valid vmin vmax GRAPH_HOURS i).1, if_pos hi]

/-- The row `py[i]` of an hour of the grid. -/
theorem pixelPositions_py (area : GraphArea) (arr : Nat → CFloat) (valid : Nat → Bool)
    (vmin vmax : CFloat) (i : Nat) (hi : i < GRAPH_HOURS) :
    (pixelPositions area arr valid vmin vmax).2 i =
      if (valid i && !isnan (arr i)) = true then valueToPixelY area vmin vmax (arr i)
      else area.g_y + area.g_h - 1 := by
  unfold pixelPositions
  rw [(pixelLoop_spec area arr valid vmin vmax GRAPH_HOURS i).2, if_pos hi]

/-- The polyline loop draws the segment from point `i` to point `i+1` exactly when both
hours are flagged valid. -/
theorem polyline_segment_iff (valid : Nat → Bool) (px py : Nat → Int) (lineColor : Color)
    (i : Nat) :
    DrawCmd.drawLine (px i) (py i) (px (i + 1)) (py (i + 1)) lineColor ∈
        polylineStep valid px py lineColor i ↔
      (valid i = true ∧ valid (i + 1) = true) := by
  unfold polylineStep
  cases h0 : valid i <;> cases h1 : valid (i + 1) <;> simp

/-- What round `i` of the polyline loop issues is part of the polyline. -/
theorem polylineStep_subset (valid : Nat → Bool) (px py : Nat → Int) (lineColor : Color)
    (i : Nat) (hi : i < GRAPH_HOURS - 1) (c : DrawCmd)
    (hc : c ∈ polylineStep valid px py lineColor i) :
    c ∈ polylineCmds valid px py lineColor := by
  unfold polylineCmds
  rw [List.mem_append]
  exact Or.inl ((mem_emitLoop _ _ _).mpr ⟨i, hi, hc⟩)

/-- In a call that finds a valid hour, the display calls of the polyline are issued. -/
theorem drawGraph_main_polyline (graphType : Int) (area : GraphArea) (clock : Option Tm)
    (st : GraphState) (hw : 8 < area.g_w) (hh : 8 < area.g_h)
    (hf : (findMinMax (selectArr graphType st) st.graphValid GRAPH_HOURS).found = true)
    (c : DrawCmd)
    (hc : c ∈ polylineCmds (plottedState graphType st).graphValid
      (plottedPixels graphType area st).1 (plottedPixels graphType area st).2
      (selectColor graphType)) :
    c ∈ (drawGraph graphType area clock st).2 := by
  rw [drawGraph_main graphType area clock st hw hh hf]
  simp only [List.mem_append]
  exact Or.inl (Or.inl (Or.inr hc))

/-- The frame has no display call in the marker colour. -/
theorem frameCmds_no_marker (area : GraphArea) (c : DrawCmd) (hc : c ∈ frameCmds area) :
    isMarkerCmd c = false := by
  simp only [frameCmds, List.mem_cons, List.mem_singleton, List.not_mem_nil, or_false] at hc
  rcases hc with rfl | rfl <;> rfl

/-- The grid has no display call in the marker colour. -/
theorem gridCmds_no_marker (area : GraphArea) (showPercent : Bool) (vmin vmax : CFloat)
    (c : DrawCmd) (hc : c ∈ gridCmds area showPercent vmin vmax) : isMarkerCmd c = false := by
  unfold gridCmds at hc
  rw [List.mem_append] at hc
  rcases hc with hc | hc
  · simp only [List.mem_cons, List.mem_singleton, List.not_mem_nil, or_false] at hc
    rcases hc with rfl | rfl <;> rfl
  · obtain ⟨i, _, hi⟩ := (mem_emitLoop _ _ _).mp hc
    simp only [gridStep, List.mem_cons, List.mem_singleton, List.not_mem_nil, or_false] at hi
    rcases hi with rfl | rfl | rfl <;> rfl

/-- The hour ticks have no display call in the marker colour. -/
theorem tickCmds_no_marker (area : GraphArea) (c : DrawCmd) (hc : c ∈ tickCmds area) :
    isMarkerCmd c = false := by
  unfold tickCmds at hc
  rw [List.mem_append] at hc
  rcases hc with hc | hc
  · simp only [List.mem_singleton] at hc
    rw [hc]; rfl
  · obtain ⟨i, _, hi⟩ := (mem_emitLoop _ _ _).mp hc
    simp only [tickStep, List.mem_cons, List.mem_singleton, List.not_mem_nil, or_false] at hi
    rcases hi with rfl | rfl | rfl <;> rfl

/-- None of the three line colours is the marker colour. -/
theorem selectColor_ne_marker (graphType : Int) : (selectColor graphType == COL_MARKER) = false := by
  unfold selectColor
  split
  · rfl
  · split <;> rfl

/-- The polyline has no display call in the marker colour. -/
theorem polylineCmds_no_marker (valid : Nat → Bool) (px py : Nat → Int) (graphType : Int)
    (c : DrawCmd) (hc : c ∈ polylineCmds valid px py (selectColor graphType)) :
    isMarkerCmd c = false := by
  have hcol := selectColor_ne_marker graphType
  unfold polylineCmds at hc
  rw [List.mem_append] at hc
  rcases hc with hc | hc
  · obtain ⟨i, _, hi⟩ := (mem_emitLoop _ _ _).mp hc
    unfold polylineStep at hi
    split at hi
    · simp only [List.mem_cons, List.mem_singleton, List.not_mem_nil, or_false] at hi
      rcases hi with rfl | rfl <;> exact hcol
    · split at hi
      · simp only [List.mem_singleton] at hi
        rw [hi]; exact hcol
      · simp at hi
  · split at hc
    · simp only [List.mem_singleton] at hc
      rw [hc]; exact hcol
    · simp at hc

/-- The title and the min/max labels have no display call in the marker colour. -/
theorem titleCmds_no_marker (area : GraphArea) (graphType : Int) (showPercent : Bool)
    (vmin vmax : CFloat) (c : DrawCmd) (hc : c ∈ titleCmds area graphType showPercent vmin vmax) :
    isMarkerCmd c = false := by
  simp only [titleCmds, List.mem_cons, List.mem_singleton, List.not_mem_nil, or_false] at hc
  rcases hc with rfl | rfl | rfl | rfl | rfl | rfl | rfl | rfl <;> rfl

/-- The time is on the plotted domain iff its position on the hour grid lies in `[0, 12]`. -/
theorem fracPos_iff (curPos : ℚ) :
    (0 ≤ curPos / (((GRAPH_HOURS : Int) - 1 : Int) : ℚ) ∧
      curPos / (((GRAPH_HOURS : Int) - 1 : Int) : ℚ) ≤ 1) ↔ (0 ≤ curPos ∧ curPos ≤ 12) := by
  have h12 : ((((GRAPH_HOURS : Int) - 1 : Int) : ℚ)) = 12 := by norm_num
  rw [h12]
  constructor
  · rintro ⟨a, b⟩
    constructor
    · by_contra hneg
      push_neg at hneg
      have : curPos / 12 < 0 := div_neg_of_neg_of_pos hneg (by norm_num)
      linarith
    · rwa [div_le_one (by norm_num)] at b
  · rintro ⟨a, b⟩
    exact ⟨div_nonneg a (by norm_num), by rw [div_le_one (by norm_num)]; exact b⟩

/-- Without a clock no marker is drawn. -/
theorem markerCmds_none (area : GraphArea) (arr : Nat → CFloat) (valid : Nat → Bool)
    (vmin vmax : CFloat) : markerCmds area arr valid vmin vmax none = [] := rfl

/-- Outside the plotted domain no marker is drawn. -/
theorem markerCmds_outside (area : GraphArea) (arr : Nat → CFloat) (valid : Nat → Bool)
    (vmin vmax : CFloat) (timeinfo : Tm)
    (h : ¬ (0 ≤ curPosOf timeinfo ∧ curPosOf timeinfo ≤ 12)) :
    markerCmds area arr valid vmin vmax (some timeinfo) = [] := by
  unfold markerCmds
  simp only []
  rw [if_neg]
  rw [fracPos_iff]
  exact h

/-- On the plotted domain the marker is drawn: the guide line and the circle in the marker
colour, then the label. -/
theorem markerCmds_inside (area : GraphArea) (arr : Nat → CFloat) (valid : Nat → Bool)
    (vmin vmax : CFloat) (timeinfo : Tm)
    (h : 0 ≤ curPosOf timeinfo ∧ curPosOf timeinfo ≤ 12) :
    ∃ rest : List DrawCmd,
      markerCmds area arr valid vmin vmax (some timeinfo) =
        DrawCmd.drawFastVLine
          (fracToPixelX area (curPosOf timeinfo / (((GRAPH_HOURS : Int) - 1 : Int) : ℚ)))
          (area.g_y + 2) (area.g_h - 4) COL_MARKER ::
        DrawCmd.fillCircle
          (fracToPixelX area (curPosOf timeinfo / (((GRAPH_HOURS : Int) - 1 : Int) : ℚ)))
          (markerYOf area arr valid vmin vmax (curPosOf timeinfo)) 4 COL_MARKER :: rest := by
  unfold markerCmds
  simp only []
  rw [if_pos ((fracPos_iff _).mpr h)]
  exact ⟨_, rfl⟩

/-- In a call that finds a valid hour, a display call in the marker colour can only come
from the marker part. -/
theorem drawGraph_main_marker_iff (graphType : Int) (area : GraphArea) (clock : Option Tm)
    (st : GraphState) (hw : 8 < area.g_w) (hh : 8 < area.g_h)
    (hf : (findMinMax (selectArr graphType st) st.graphValid GRAPH_HOURS).found = true) :
    (∃ c, c ∈ (drawGraph graphType area clock st).2 ∧ isMarkerCmd c = true) ↔
      ∃ c, c ∈ markerCmds area (selectArr graphType (plottedState graphType st))
        (plottedState graphType st).graphValid (scaleRange graphType st).1
        (scaleRange graphType st).2 clock ∧ isMarkerCmd c = true := by
  rw [drawGraph_main graphType area clock st hw hh hf]
  constructor
  · rintro ⟨c, hc, hm⟩
    simp only [List.mem_append] at hc
    rcases hc with ((((hc | hc) | hc) | hc) | hc) | hc
    · rw [frameCmds_no_marker area c hc] at hm; exact absurd hm (by simp)
    · rw [gridCmds_no_marker _ _ _ _ c hc] at hm; exact absurd hm (by simp)
    · rw [tickCmds_no_marker area c hc] at hm; exact absurd hm (by simp)
    · rw [polylineCmds_no_marker _ _ _ _ c hc] at hm; exact absurd hm (by simp)
    · rw [titleCmds_no_marker _ _ _ _ _ c hc] at hm; exact absurd hm (by simp)
    · exact ⟨c, hc, hm⟩
  · rintro ⟨c, hc, hm⟩
    refine ⟨c, ?_, hm⟩
    simp only [List.mem_append]
    exact Or.inr hc

/-- The position on the hour grid lies in `[0, 12]` exactly from 09:00 to 21:00. -/
theorem curPos_domain_iff (timeinfo : Tm) :
    (0 ≤ curPosOf timeinfo ∧ curPosOf timeinfo ≤ 12) ↔
      (9 * 60 ≤ timeinfo.tm_hour * 60 + timeinfo.tm_min ∧
        timeinfo.tm_hour * 60 + timeinfo.tm_min ≤ 21 * 60) := by
  unfold curPosOf
  constructor
  · rintro ⟨a, b⟩
    have a' : (9 * 60 : ℚ) ≤ (timeinfo.tm_hour : ℚ) * 60 + (timeinfo.tm_min : ℚ) := by linarith
    have b' : (timeinfo.tm_hour : ℚ) * 60 + (timeinfo.tm_min : ℚ) ≤ 21 * 60 := by linarith
    exact ⟨by exact_mod_cast a', by exact_mod_cast b'⟩
  · rintro ⟨a, b⟩
    have a' : (9 * 60 : ℚ) ≤ (timeinfo.tm_hour : ℚ) * 60 + (timeinfo.tm_min : ℚ) := by
      exact_mod_cast a
    have b' : (timeinfo.tm_hour : ℚ) * 60 + (timeinfo.tm_min : ℚ) ≤ 21 * 60 := by
      exact_mod_cast b
    constructor <;> linarith

/-- On the plotted domain the two bracketing hour indices lie in `0..12`. -/
theorem marker_indices_in_range (curPos : ℚ) (h0 : 0 ≤ curPos) (h12 : curPos ≤ 12) :
    (0 ≤ ⌊curPos⌋ ∧ ⌊curPos⌋ ≤ 12) ∧ (0 ≤ ⌈curPos⌉ ∧ ⌈curPos⌉ ≤ 12) := by
  refine ⟨⟨Int.floor_nonneg.mpr h0, ?_⟩, ⟨Int.ceil_nonneg h0, ?_⟩⟩
  · have : ((⌊curPos⌋ : Int) : ℚ) ≤ 12 := le_trans (Int.floor_le curPos) h12
    exact_mod_cast this
  · exact Int.ceil_le.mpr (by exact_mod_cast h12)

/-- In a call that finds a valid hour, with a clock: a display call in the marker colour is
issued iff the time lies on the plotted domain. -/
theorem drawGraph_marker_iff (graphType : Int) (area : GraphArea) (timeinfo : Tm)
    (st : GraphState) (hw : 8 < area.g_w) (hh : 8 < area.g_h)
    (hf : (findMinMax (selectArr graphType st) st.graphValid GRAPH_HOURS).found = true) :
    (∃ c, c ∈ (drawGraph graphType area (some timeinfo) st).2 ∧ isMarkerCmd c = true) ↔
      (0 ≤ curPosOf timeinfo ∧ curPosOf timeinfo ≤ 12) := by
  rw [drawGraph_main_marker_iff graphType area (some timeinfo) st hw hh hf]
  constructor
  · rintro ⟨c, hc, _⟩
    by_contra hout
    rw [markerCmds_outside _ _ _ _ _ timeinfo hout] at hc
    simp at hc
  · intro hin
    obtain ⟨rest, hr⟩ := markerCmds_inside area (selectArr graphType (plottedState graphType st))
      (plottedState graphType st).graphValid (scaleRange graphType st).1
      (scaleRange graphType st).2 timeinfo hin
    rw [hr]
    exact ⟨_, List.mem_cons_self _ _, rfl⟩

/-- Outside the plotted domain a call issues what it issues without a clock. -/
theorem drawGraph_outside_eq (graphType : Int) (area : GraphArea) (timeinfo : Tm)
    (st : GraphState) (hw : 8 < area.g_w) (hh : 8 < area.g_h)
    (hf : (findMinMax (selectArr graphType st) st.graphValid GRAPH_HOURS).found = true)
    (hout : ¬ (0 ≤ curPosOf timeinfo ∧ curPosOf timeinfo ≤ 12)) :
    (drawGraph graphType area (some timeinfo) st).2 = (drawGraph graphType area none st).2 := by
  rw [drawGraph_main graphType area (some timeinfo) st hw hh hf,
    drawGraph_main graphType area none st hw hh hf]
  simp only [markerCmds_outside _ _ _ _ _ timeinfo hout, markerCmds_none]

/-- On the plotted domain the code computes the marker row of the specification. -/
theorem markerYOf_eq_row (area : GraphArea) (arr : Nat → CFloat) (valid : Nat → Bool)
    (vmin vmax : CFloat) (curPos : ℚ) (h0 : 0 ≤ curPos) (h12 : curPos ≤ 12) :
    markerYOf area arr valid vmin vmax curPos = markerRow area arr valid vmin vmax curPos := by
  obtain ⟨⟨a, _⟩, ⟨_, d⟩⟩ := marker_indices_in_range curPos h0 h12
  have hL : ¬ ⌊curPos⌋ < 0 := by omega
  have hR : ¬ ⌈curPos⌉ ≥ ((GRAPH_HOURS : Nat) : Int) := by
    have : ((GRAPH_HOURS : Nat) : Int) = 13 := rfl
    omega
  unfold markerYOf markerRow
  simp only [hL, hR, if_false]
  cases hvl : valid ⌊curPos⌋.toNat <;> cases hvr : valid ⌈curPos⌉.toNat <;>
    cases hal : arr ⌊curPos⌋.toNat <;> cases har : arr ⌈curPos⌉.toNat <;>
    simp [isnan, lerpFloat, fadd, fmul, fsub]

/-- In a call that finds a valid hour, with the time on the plotted domain, the marker circle
is issued at the marker row. -/
theorem drawGraph_marker_circle (graphType : Int) (area : GraphArea) (timeinfo : Tm)
    (st : GraphState) (hw : 8 < area.g_w) (hh : 8 < area.g_h)
    (hf : (findMinMax (selectArr graphType st) st.graphValid GRAPH_HOURS).found = true)
    (hin : 0 ≤ curPosOf timeinfo ∧ curPosOf timeinfo ≤ 12) :
    DrawCmd.fillCircle
        (fracToPixelX area (curPosOf timeinfo / (((GRAPH_HOURS : Int) - 1 : Int) : ℚ)))
        (markerRow area (selectArr graphType (plottedState graphType st)) st.graphValid
          (scaleRange graphType st).1 (scaleRange graphType st).2 (curPosOf timeinfo))
        4 COL_MARKER ∈ (drawGraph graphType area (some timeinfo) st).2 := by
  rw [drawGraph_main graphType area (some timeinfo) st hw hh hf]
  obtain ⟨rest, hr⟩ := markerCmds_inside area (selectArr graphType (plottedState graphType st))
    (plottedState graphType st).graphValid (scaleRange graphType st).1
    (scaleRange graphType st).2 timeinfo hin
  rw [hr, markerYOf_eq_row _ _ _ _ _ _ hin.1 hin.2, plottedState_graphValid]
  simp only [List.mem_append]
  exact Or.inr (List.mem_cons_of_mem _ (List.mem_cons_self _ _))

/-- At a whole hour whose index is valid and non-absent, the marker row is the row of the
series point of that hour. -/
theorem markerRow_at_point (graphType : Int) (area : GraphArea) (st : GraphState) (k : Nat)
    (hk : k < GRAPH_HOURS) (hv : st.graphValid k = true)
    (ha : isnan (selectArr graphType (plottedState graphType st) k) = false) :
    markerRow area (selectArr graphType (plottedState graphType st)) st.graphValid
        (scaleRange graphType st).1 (scaleRange graphType st).2 (k : ℚ) =
      (plottedPixels graphType area st).2 k := by
  unfold plottedPixels
  rw [pixelPositions_py _ _ _ _ _ k hk, plottedState_graphValid]
  obtain ⟨a, hq⟩ := (isnan_eq_false_iff _).mp ha
  have hfl : ⌊(k : ℚ)⌋ = (k : Int) := Int.floor_natCast k
  have hcl : ⌈(k : ℚ)⌉ = (k : Int) := Int.ceil_natCast k
  unfold markerRow
  simp only [hfl, hcl, Int.toNat_ofNat, hv, hq, Bool.and_self, isnan_some, Bool.not_false,
    if_true]
  congr 2
  push_cast
  ring

/-- The two cases of the marker row of the specification. -/
theorem markerRow_cases (area : GraphArea) (arr : Nat → CFloat) (valid : Nat → Bool)
    (vmin vmax : CFloat) (curPos : ℚ) :
    (∀ a b : ℚ, valid ⌊curPos⌋.toNat = true → valid ⌈curPos⌉.toNat = true →
      arr ⌊curPos⌋.toNat = some a → arr ⌈curPos⌉.toNat = some b →
      markerRow area arr valid vmin vmax curPos =
        valueToPixelY area vmin vmax
          (some (a + (b - a) * (curPos - ((⌊curPos⌋ : Int) : ℚ))))) ∧
    (¬ (valid ⌊curPos⌋.toNat = true ∧ valid ⌈curPos⌉.toNat = true ∧
        isnan (arr ⌊curPos⌋.toNat) = false ∧ isnan (arr ⌈curPos⌉.toNat) = false) →
      markerRow area arr valid vmin vmax curPos = area.g_y + area.g_h - 4) := by
  constructor
  · intro a b hl hr hal har
    simp [markerRow, hl, hr, hal, har]
  · intro h
    unfold markerRow
    cases hvl : valid ⌊curPos⌋.toNat <;> cases hvr : valid ⌈curPos⌉.toNat <;>
      cases hal : arr ⌊curPos⌋.toNat <;> cases har : arr ⌈curPos⌉.toNat <;>
      simp [hvl, hvr, hal, har, isnan] at h ⊢

/-- The scan from index `s` on, in any order of the samples: either no sample left is at or
after the target, then `idx1` stays `-1` and `idx0` ends at the last sample; or the scan stops
at the first such sample `k`, and `idx0` is `k` itself when that sample is at the target,
else the sample just before it. -/
theorem scanFrom_spec (target_ts : Int) (rest : List Sample) (s idx0 : Int) (d : Sample) :
    ((scanFrom target_ts rest s idx0 (-1)).2 = -1 ∧
      (∀ j : Nat, j < rest.length → (rest.getD j d).local_ts < target_ts) ∧
      (scanFrom target_ts rest s idx0 (-1)).1 =
        if rest.length = 0 then idx0 else s + rest.length - 1) ∨
    (∃ k : Nat, k < rest.length ∧ (scanFrom target_ts rest s idx0 (-1)).2 = s + k ∧
      (rest.getD k d).local_ts ≥ target_ts ∧
      (∀ j : Nat, j < k → (rest.getD j d).local_ts < target_ts) ∧
      (scanFrom target_ts rest s idx0 (-1)).1 =
        if (rest.getD k d).local_ts ≤ target_ts then s + k
        else if k = 0 then idx0 else s + k - 1) := by
  induction rest generalizing s idx0 with
  | nil =>
    left
    simp [scanFrom]
  | cons x xs ih =>
    by_cases hge : x.local_ts ≥ target_ts
    · right
      refine ⟨0, by simp, ?_, by simpa using hge, by simp, ?_⟩
      · simp [scanFrom, hge]
      · simp only [scanFrom, if_pos hge, List.getD_cons_zero]
        by_cases hle : x.local_ts ≤ target_ts
        · simp [hle]
        · simp [hle]
    · have hle : x.local_ts ≤ target_ts := by omega
      have hstep : scanFrom target_ts (x :: xs) s idx0 (-1) =
          scanFrom target_ts xs (s + 1) s (-1) := by
        simp [scanFrom, hge, hle]
      rw [hstep]
      rcases ih (s + 1) s with ⟨h1, h2, h3⟩ | ⟨k, hk, h1, h2, h3, h4⟩
      · left
        refine ⟨h1, ?_, ?_⟩
        · intro j hj
          cases j with
          | zero => simp only [List.getD_cons_zero]; omega
          | succ j =>
            simp only [List.getD_cons_succ]
            exact h2 j (by simpa using hj)
        · rw [h3]
          simp only [List.length_cons]
          by_cases hxs : xs.length = 0
          · simp [hxs]
          · simp only [hxs, if_false]
            have : ¬ xs.length + 1 = 0 := by omega
            simp only [this, if_false]
            push_cast
            omega
      · right
        refine ⟨k + 1, by simpa using hk, ?_, by simpa using h2, ?_, ?_⟩
        · rw [h1]; push_cast; omega
        · intro j hj
          cases j with
          | zero => simp only [List.getD_cons_zero]; omega
          | succ j =>
            simp only [List.getD_cons_succ]
            exact h3 j (by omega)
        · rw [h4]
          simp only [List.getD_cons_succ]
          by_cases hk0 : (xs.getD k d).local_ts ≤ target_ts
          · simp only [hk0, if_true]; push_cast; omega
          · simp only [hk0, if_false]
            have : ¬ k + 1 = 0 := by omega
            simp only [this, if_false]
            by_cases hkz : k = 0
            · simp [hkz]
            · simp only [hkz, if_false]; push_cast; omega

/-- Reading the sample array at a natural index. -/
theorem sampleAt_natCast (samples : List Sample) (j : Nat) :
    sampleAt samples (j : Int) =
      samples.getD j { dt := 0, local_ts := 0, temp := NAN, wind := NAN, pop := NAN } := by
  unfold sampleAt
  rw [if_neg (by omega)]
  simp

/-- In any order of the samples: when some sample is at or after the target, the unclamped
`idx1` is the least index of such a sample. -/
theorem scanBrackets_idx1 (samples : List Sample) (target_ts : Int)
    (hex : ∃ j : Nat, j < samples.length ∧ (sampleAt samples j).local_ts ≥ target_ts) :
    LeastAtOrAfter samples target_ts (scanBrackets samples target_ts).2 := by
  obtain ⟨j0, hj0, hj0t⟩ := hex
  rw [sampleAt_natCast] at hj0t
  unfold scanBrackets LeastAtOrAfter
  rcases scanFrom_spec target_ts samples 0 (-1)
    { dt := 0, local_ts := 0, temp := NAN, wind := NAN, pop := NAN } with
    ⟨_, h2, _⟩ | ⟨k, hk, h1, h2, h3, _⟩
  · have := h2 j0 hj0
    omega
  · rw [h1]
    simp only [zero_add]
    refine ⟨by omega, by omega, ?_, ?_⟩
    · rw [sampleAt_natCast]; exact h2
    · intro j _ hjt
      rw [sampleAt_natCast] at hjt
      by_contra hlt
      have := h3 j (by omega)
      omega

/-- For non-decreasing timestamps with at most one sample at the target timestamp: when some
sample is at or before the target, the unclamped `idx0` is the greatest index of such a
sample. -/
theorem scanBrackets_idx0 (samples : List Sample) (target_ts : Int)
    (hsorted : NonDecreasing samples)
    (huniq : ∀ i j : Nat, i < samples.length → j < samples.length →
      (sampleAt samples i).local_ts = target_ts → (sampleAt samples j).local_ts = target_ts →
      i = j)
    (hex : ∃ j : Nat, j < samples.length ∧ (sampleAt samples j).local_ts ≤ target_ts) :
    GreatestAtOrBefore samples target_ts (scanBrackets samples target_ts).1 := by
  obtain ⟨j0, hj0, hj0t⟩ := hex
  unfold scanBrackets GreatestAtOrBefore
  rcases scanFrom_spec target_ts samples 0 (-1)
    { dt := 0, local_ts := 0, temp := NAN, wind := NAN, pop := NAN } with
    ⟨_, h2, h3⟩ | ⟨k, hk, _, h2, h3, h4⟩
  · have hlen : ¬ samples.length = 0 := by omega
    rw [h3, if_neg hlen]
    have hcast : (0 : Int) + (samples.length : Int) - 1 = ((samples.length - 1 : Nat) : Int) := by
      omega
    rw [hcast]
    refine ⟨by omega, by omega, ?_, ?_⟩
    · rw [sampleAt_natCast]
      have := h2 (samples.length - 1) (by omega)
      omega
    · intro j hj _
      omega
  · rw [← sampleAt_natCast] at h2 h4
    by_cases hle : (sampleAt samples (k : Int)).local_ts ≤ target_ts
    · rw [h4, if_pos hle]
      simp only [zero_add]
      refine ⟨by omega, by omega, hle, ?_⟩
      intro j hj hjt
      by_contra hgt
      have hkj : k ≤ j := by omega
      have hs := hsorted k j hkj hj
      have e1 : (sampleAt samples (k : Int)).local_ts = target_ts := by omega
      have e2 : (sampleAt samples (j : Int)).local_ts = target_ts := by omega
      have := huniq k j hk hj e1 e2
      omega
    · rw [h4, if_neg hle]
      by_cases hk0 : k = 0
      · exfalso
        subst hk0
        have hs := hsorted 0 j0 (by omega) hj0
        omega
      · rw [if_neg hk0]
        have hcast : (0 : Int) + (k : Int) - 1 = ((k - 1 : Nat) : Int) := by omega
        rw [hcast]
        refine ⟨by omega, by omega, ?_, ?_⟩
        · rw [sampleAt_natCast]
          have := h3 (k - 1) (by omega)
          omega
        · intro j hj hjt
          by_contra hgt
          have hkj : k ≤ j := by omega
          have hs := hsorted k j hkj hj
          omega

/-- When a sample sits exactly at the target timestamp, the scan stops at the first such
sample and both unclamped brackets are its index. -/
theorem scanBrackets_at_target (samples : List Sample) (target_ts : Int)
    (hsorted : NonDecreasing samples)
    (hex : ∃ j : Nat, j < samples.length ∧ (sampleAt samples j).local_ts = target_ts) :
    (scanBrackets samples target_ts).1 = (scanBrackets samples target_ts).2 ∧
    LeastAtOrAfter samples target_ts (scanBrackets samples target_ts).2 := by
  obtain ⟨j0, hj0, hj0t⟩ := hex
  have h1 := scanBrackets_idx1 samples target_ts ⟨j0, hj0, by omega⟩
  refine ⟨?_, h1⟩
  unfold scanBrackets at h1 ⊢
  rcases scanFrom_spec target_ts samples 0 (-1)
    { dt := 0, local_ts := 0, temp := NAN, wind := NAN, pop := NAN } with
    ⟨_, h2, _⟩ | ⟨k, hk, hk1, h2, h3, h4⟩
  · have := h2 j0 hj0
    rw [← sampleAt_natCast] at this
    omega
  · rw [← sampleAt_natCast] at h2 h4
    have hkj : k ≤ j0 := by
      by_contra hlt
      have := h3 j0 (by omega)
      rw [← sampleAt_natCast] at this
      omega
    have hs := hsorted k j0 hkj hj0
    rw [h4, if_pos (by omega), hk1]

/-- What `findMinMax` returns after `n` rounds: nothing found when no hour below `n` is
flagged valid; otherwise, with `k` the first valid hour, the pair `(NaN, NaN)` when the value
at `k` is absent, and the minimum and the maximum of the valid, non-absent values when the
value at `k` is a number. -/
theorem findMinMax_spec (arr : Nat → CFloat) (valid : Nat → Bool) (n : Nat) :
    ((findMinMax arr valid n).found = false ∧ ∀ i, i < n → valid i = false) ∨
    ((findMinMax arr valid n).found = true ∧
      ∃ k, k < n ∧ valid k = true ∧ (∀ i, i < k → valid i = false) ∧
        ((arr k = none ∧ (findMinMax arr valid n).minV = none ∧
            (findMinMax arr valid n).maxV = none) ∨
         (∃ a mn mx : ℚ, arr k = some a ∧ (findMinMax arr valid n).minV = some mn ∧
            (findMinMax arr valid n).maxV = some mx ∧
            IsMinOfValid arr valid n mn ∧ IsMaxOfValid arr valid n mx))) := by
  unfold findMinMax
  induction n with
  | zero =>
    left
    simp [forLoop]
  | succ n ih =>
    simp only [forLoop]
    generalize forLoop n (findMinMaxStep arr valid)
      { found := false, minV := some 0, maxV := some 0 } = r at ih ⊢
    cases hv : valid n with
    | false =>
      have hstep : findMinMaxStep arr valid n r = r := by simp [findMinMaxStep, hv]
      rw [hstep]
      rcases ih with ⟨h1, h2⟩ | ⟨h1, k, hk, hvk, hfirst, hcase⟩
      · left
        refine ⟨h1, fun i hi => ?_⟩
        by_cases hin : i = n
        · rw [hin]; exact hv
        · exact h2 i (by omega)
      · right
        refine ⟨h1, k, by omega, hvk, hfirst, ?_⟩
        rcases hcase with hnan | ⟨a, mn, mx, ha, hmn, hmx, ⟨⟨i1, hi1, hv1, e1⟩, hmin⟩,
          ⟨⟨i2, hi2, hv2, e2⟩, hmax⟩⟩
        · exact Or.inl hnan
        · refine Or.inr ⟨a, mn, mx, ha, hmn, hmx, ⟨⟨i1, by omega, hv1, e1⟩, ?_⟩,
            ⟨⟨i2, by omega, hv2, e2⟩, ?_⟩⟩
          · intro i q hi hvi hq
            by_cases hin : i = n
            · rw [hin, hv] at hvi; exact absurd hvi (by simp)
            · exact hmin i q (by omega) hvi hq
          · intro i q hi hvi hq
            by_cases hin : i = n
            · rw [hin, hv] at hvi; exact absurd hvi (by simp)
            · exact hmax i q (by omega) hvi hq
    | true =>
      right
      rcases ih with ⟨h1, h2⟩ | ⟨h1, k, hk, hvk, hfirst, hcase⟩
      · have hstep : findMinMaxStep arr valid n r =
            { found := true, minV := arr n, maxV := arr n } := by
          simp [findMinMaxStep, hv, h1]
        rw [hstep]
        refine ⟨rfl, n, by omega, hv, h2, ?_⟩
        cases ha : arr n with
        | none => exact Or.inl ⟨rfl, rfl, rfl⟩
        | some a =>
          refine Or.inr ⟨a, a, a, rfl, rfl, rfl, ⟨⟨n, by omega, hv, ha⟩, ?_⟩,
            ⟨⟨n, by omega, hv, ha⟩, ?_⟩⟩
          · intro i q hi hvi hq
            by_cases hin : i = n
            · rw [hin, ha] at hq
              exact le_of_eq (Option.some.inj hq)
            · rw [h2 i (by omega)] at hvi; exact absurd hvi (by simp)
          · intro i q hi hvi hq
            by_cases hin : i = n
            · rw [hin, ha] at hq
              exact le_of_eq (Option.some.inj hq).symm
            · rw [h2 i (by omega)] at hvi; exact absurd hvi (by simp)
      · have hstep : findMinMaxStep arr valid n r =
            { found := true,
              minV := if flt (arr n) r.minV = true then arr n else r.minV,
              maxV := if flt r.maxV (arr n) = true then arr n else r.maxV } := by
          simp [findMinMaxStep, hv, h1]
        rw [hstep]
        refine ⟨rfl, k, by omega, hvk, hfirst, ?_⟩
        rcases hcase with ⟨hnan, hmn, hmx⟩ | ⟨a, mn, mx, ha, hmn, hmx, ⟨⟨i1, hi1, hv1, e1⟩, hmin⟩,
          ⟨⟨i2, hi2, hv2, e2⟩, hmax⟩⟩
        · left
          refine ⟨hnan, ?_, ?_⟩
          · simp only [hmn]
            cases arr n <;> simp [flt]
          · simp only [hmx]
            cases arr n <;> simp [flt]
        · right
          cases hq : arr n with
          | none =>
            refine ⟨a, mn, mx, ha, by simp [flt, hmn], by simp [flt, hmx],
              ⟨⟨i1, by omega, hv1, e1⟩, ?_⟩, ⟨⟨i2, by omega, hv2, e2⟩, ?_⟩⟩
            · intro i q hi hvi hqi
              by_cases hin : i = n
              · rw [hin, hq] at hqi; exact absurd hqi (by simp)
              · exact hmin i q (by omega) hvi hqi
            · intro i q hi hvi hqi
              by_cases hin : i = n
              · rw [hin, hq] at hqi; exact absurd hqi (by simp)
              · exact hmax i q (by omega) hvi hqi
          | some v =>
            refine ⟨a, min v mn, max v mx, ha, ?_, ?_, ⟨?_, ?_⟩, ⟨?_, ?_⟩⟩
            · simp only [hmn, flt]
              by_cases hlt : v < mn
              · simp [hlt, min_eq_left (le_of_lt hlt)]
              · simp [hlt, min_eq_right (not_lt.mp hlt)]
            · simp only [hmx, flt]
              by_cases hlt : mx < v
              · simp [hlt, max_eq_left (le_of_lt hlt)]
              · simp [hlt, max_eq_right (not_lt.mp hlt)]
            · rcases le_total v mn with h | h
              · rw [min_eq_left h]; exact ⟨n, by omega, hv, hq⟩
              · rw [min_eq_right h]; exact ⟨i1, by omega, hv1, e1⟩
            · intro i q hi hvi hqi
              by_cases hin : i = n
              · rw [hin, hq] at hqi
                rw [← Option.some.inj hqi]
                exact min_le_left _ _
              · exact le_trans (min_le_right _ _) (hmin i q (by omega) hvi hqi)
            · rcases le_total v mx with h | h
              · rw [max_eq_right h]; exact ⟨i2, by omega, hv2, e2⟩
              · rw [max_eq_left h]; exact ⟨n, by omega, hv, hq⟩
            · intro i q hi hvi hqi
              by_cases hin : i = n
              · rw [hin, hq] at hqi
                rw [← Option.some.inj hqi]
                exact le_max_left _ _
              · exact le_trans (hmax i q (by omega) hvi hqi) (le_max_right _ _)

/-- The scan is poisoned when the first valid hour holds an absent value: both results are
NaN, whatever the later hours hold. -/
theorem findMinMax_first_absent (arr : Nat → CFloat) (valid : Nat → Bool) (n k : Nat)
    (hk : k < n) (hv : valid k = true) (hfirst : ∀ i, i < k → valid i = false)
    (ha : arr k = NAN) :
    (findMinMax arr valid n).minV = NAN ∧ (findMinMax arr valid n).maxV = NAN := by
  rcases findMinMax_spec arr valid n with ⟨_, h2⟩ | ⟨_, k', hk', hvk', hfirst', hcase⟩
  · rw [h2 k hk] at hv; exact absurd hv (by simp)
  · have hkk : k' = k := by
      rcases Nat.lt_trichotomy k' k with h | h | h
      · rw [hfirst k' h] at hvk'; exact absurd hvk' (by simp)
      · exact h
      · rw [hfirst' k h] at hv; exact absurd hv (by simp)
    rw [hkk] at hcase
    rcases hcase with ⟨_, h1, h2⟩ | ⟨a, _, _, ha', _⟩
    · exact ⟨h1, h2⟩
    · rw [ha] at ha'; exact absurd ha' (by simp [NAN])

/-- The scan is right when the first valid hour holds a number: the results are the minimum
and the maximum of the valid, non-absent values. -/
theorem findMinMax_first_present (arr : Nat → CFloat) (valid : Nat → Bool) (n k : Nat) (a : ℚ)
    (hk : k < n) (hv : valid k = true) (hfirst : ∀ i, i < k → valid i = false)
    (ha : arr k = some a) :
    ∃ mn mx : ℚ, (findMinMax arr valid n).minV = some mn ∧
      (findMinMax arr valid n).maxV = some mx ∧
      IsMinOfValid arr valid n mn ∧ IsMaxOfValid arr valid n mx := by
  rcases findMinMax_spec arr valid n with ⟨_, h2⟩ | ⟨_, k', hk', hvk', hfirst', hcase⟩
  · rw [h2 k hk] at hv; exact absurd hv (by simp)
  · have hkk : k' = k := by
      rcases Nat.lt_trichotomy k' k with h | h | h
      · rw [hfirst k' h] at hvk'; exact absurd hvk' (by simp)
      · exact h
      · rw [hfirst' k h] at hv; exact absurd hv (by simp)
    rw [hkk] at hcase
    rcases hcase with ⟨hn, _, _⟩ | ⟨_, mn, mx, _, h1, h2, h3, h4⟩
    · rw [ha] at hn; exact absurd hn (by simp)
    · exact ⟨mn, mx, h1, h2, h3, h4⟩

/-- The padded pair of two numbers `mn <= mx`: both bounds move out by
`max(0.12*(mx - mn), 0.5)` and the pair is not touched by the unit-width branch. -/
theorem padRange_numbers (mn mx : ℚ) (h : mn ≤ mx) :
    padRange (some mn) (some mx) =
      (some (mn - max ((mx - mn) * (12 / 100)) (1 / 2)),
       some (mx + max ((mx - mn) * (12 / 100)) (1 / 2))) := by
  unfold padRange
  by_cases hp : (mx - mn) * (12 / 100) ≤ 1 / 2
  · have hne : ¬ (mn - 1 / 2 = mx + 1 / 2) := by
      intro he
      linarith
    simp only [fmul, fsub, fadd, fle, feq, decide_eq_true_eq, hp, if_true, hne, if_false,
      max_eq_right hp]
  · have hp' : 1 / 2 ≤ (mx - mn) * (12 / 100) := le_of_lt (not_le.mp hp)
    have hne : ¬ (mn - (mx - mn) * (12 / 100) = mx + (mx - mn) * (12 / 100)) := by
      intro he
      linarith
    simp only [fmul, fsub, fadd, fle, feq, decide_eq_true_eq, hp, if_false, hne,
      max_eq_left hp']

/-- The rounding `round` is monotone. -/
theorem cround_mono (a b : ℚ) (h : a ≤ b) : cround a ≤ cround b := by
  unfold cround
  by_cases ha : 0 ≤ a
  · have hb : 0 ≤ b := le_trans ha h
    rw [if_pos ha, if_pos hb]
    exact Int.floor_mono (by linarith)
  · rw [if_neg ha]
    have ha' : a < 0 := not_le.mp ha
    have h1 : 0 ≤ ⌊-a + 1 / 2⌋ := Int.floor_nonneg.mpr (by linarith)
    by_cases hb : 0 ≤ b
    · rw [if_pos hb]
      have h2 : 0 ≤ ⌊b + 1 / 2⌋ := Int.floor_nonneg.mpr (by linarith)
      omega
    · rw [if_neg hb]
      have h3 : ⌊-b + 1 / 2⌋ ≤ ⌊-a + 1 / 2⌋ := Int.floor_mono (by linarith)
      omega

/-- The rounding `round` leaves an integer as it is. -/
theorem cround_intCast (n : Int) : cround (n : ℚ) = n := by
  unfold cround
  by_cases hn : (0 : ℚ) ≤ (n : ℚ)
  · rw [if_pos hn, Int.floor_eq_iff]
    constructor <;> linarith
  · rw [if_neg hn]
    have : ⌊-(n : ℚ) + 1 / 2⌋ = -n := by
      rw [Int.floor_eq_iff]
      push_cast
      constructor <;> linarith
    rw [this]
    omega

/-- The value-to-pixel mapping of a number between numeric bounds `vmin < vmax`: the fraction
of the span, cut to `[0, 1]`, scaled to the rows and rounded. -/
theorem valueToPixelY_numbers (area : GraphArea) (vmin vmax v : ℚ) (h : vmin < vmax) :
    valueToPixelY area (some vmin) (some vmax) (some v) =
      area.g_y + (area.g_h - 1) -
        cround (max 0 (min 1 ((v - vmin) / (vmax - vmin))) * ((area.g_h - 1 : Int) : ℚ)) := by
  have hd : ¬ (vmax - vmin = 0) := by
    intro he
    linarith
  unfold valueToPixelY
  simp only [fsub, fdiv, hd, if_false, flt, decide_eq_true_eq]
  by_cases h0 : (v - vmin) / (vmax - vmin) < 0
  · have h1 : ¬ ((1 : ℚ) < 0) := by norm_num
    simp only [h0, if_true, flt, decide_eq_true_eq, h1, if_false, fmul, ofInt, roundToInt]
    rw [min_eq_right (by linarith), max_eq_left (le_of_lt h0)]
  · simp only [h0, if_false, flt, decide_eq_true_eq]
    by_cases h1 : 1 < (v - vmin) / (vmax - vmin)
    · simp only [h1, if_true, fmul, ofInt, roundToInt]
      rw [min_eq_left (le_of_lt h1), max_eq_right (by norm_num)]
    · simp only [h1, if_false, fmul, ofInt, roundToInt]
      rw [min_eq_right (not_lt.mp h1), max_eq_right (not_lt.mp h0)]

/-- The series `gapState` is what an unsmoothed resample leaves for `gapForecast`. -/
theorem gapState_reachable :
    ∀ i, i < GRAPH_HOURS →
      (calculateGraphDataFromForecastRaw gapForecast 1700000000 false blankSeries).2.graphTemp i =
        gapState.graphTemp i ∧
      (calculateGraphDataFromForecastRaw gapForecast 1700000000 false blankSeries).2.graphWind i =
        gapState.graphWind i ∧
      (calculateGraphDataFromForecastRaw gapForecast 1700000000 false blankSeries).2.graphPop i =
        gapState.graphPop i ∧
      (calculateGraphDataFromForecastRaw gapForecast 1700000000 false blankSeries).2.graphValid i =
        gapState.graphValid i := by
  decide

/-- The series `windOnlyState` is what an unsmoothed resample leaves for `windOnlyForecast`. -/
theorem windOnlyState_reachable :
    ∀ i, i < GRAPH_HOURS →
      (calculateGraphDataFromForecastRaw windOnlyForecast 1700000000 false
        blankSeries).2.graphTemp i = windOnlyState.graphTemp i ∧
      (calculateGraphDataFromForecastRaw windOnlyForecast 1700000000 false
        blankSeries).2.graphWind i = windOnlyState.graphWind i ∧
      (calculateGraphDataFromForecastRaw windOnlyForecast 1700000000 false
        blankSeries).2.graphPop i = windOnlyState.graphPop i ∧
      (calculateGraphDataFromForecastRaw windOnlyForecast 1700000000 false
        blankSeries).2.graphValid i = windOnlyState.graphValid i := by
  decide

/-- The series `lateStartState` is what an unsmoothed resample leaves for
`lateStartForecast`. -/
theorem lateStartState_reachable :
    ∀ i, i < GRAPH_HOURS →
      (calculateGraphDataFromForecastRaw lateStartForecast 1700000000 false
        blankSeries).2.graphTemp i = lateStartState.graphTemp i ∧
      (calculateGraphDataFromForecastRaw lateStartForecast 1700000000 false
        blankSeries).2.graphWind i = lateStartState.graphWind i ∧
      (calculateGraphDataFromForecastRaw lateStartForecast 1700000000 false
        blankSeries).2.graphPop i = lateStartState.graphPop i ∧
      (calculateGraphDataFromForecastRaw lateStartForecast 1700000000 false
        blankSeries).2.graphValid i = lateStartState.graphValid i := by
  decide

/-! ## The smoothing stage in binary32 arithmetic -/

/-- The call with smoothing is the call without smoothing followed, when `anyValid` is set,
by the smoothing of lines 288-292. -/
theorem calculate_smooth_decomposes (cache : CachedForecast) (now_t : Int) (st : GraphState) :
    calculateGraphDataFromForecastRaw cache now_t true st =
      ((calculateGraphDataFromForecastRaw cache now_t false st).1,
        if (calculateGraphDataFromForecastRaw cache now_t false st).1 = true
        then smoothAll (calculateGraphDataFromForecastRaw cache now_t false st).2
        else (calculateGraphDataFromForecastRaw cache now_t false st).2) := by
  unfold calculateGraphDataFromForecastRaw
  simp only []
  split
  · simp
  · split
    · simp
    · split
      · simp
      · split
        · simp
        · simp

/-- Claim C1: after `calculateGraphDataFromForecastRaw` returns, on every return path and for
both values of `smooth`, at every hour `i` in `0..12` the flag `graphValid[i]` is set iff at
least one of `graphTemp[i]`, `graphWind[i]`, `graphPop[i]` is not NaN, and a cleared flag
comes with three NaN cells. -/
theorem calculate_joint_validity (cache : CachedForecast) (now_t : Int) (smooth : Bool)
    (st : GraphState) (i : Nat) (hi : i < GRAPH_HOURS) :
    JointValid (calculateGraphDataFromForecastRaw cache now_t smooth st).2 i := by
  rcases calculate_cases cache now_t smooth st with h | ⟨samples, m, _, h⟩
  · rw [h]
    exact jointValid_init st i hi
  · rw [h]
    simp only []
    split
    · exact jointValid_smoothAll _ _ (jointValid_loop samples m _ i hi)
    · exact jointValid_loop samples m _ i hi

/-- Claim C1, at a concrete input: hour 15 of the two-sample forecast, smoothing on. -/
theorem calculate_joint_validity_witness :
    6 < GRAPH_HOURS ∧
    JointValid (calculateGraphDataFromForecastRaw twoSamples 1700000000 true publishedState).2 6 :=
  ⟨by decide, calculate_joint_validity twoSamples 1700000000 true publishedState 6 (by decide)⟩

/-- Claim C2: for every non-empty sample array and every target timestamp (so for each of the
13 target hours), after the edge clamp both bracket indices lie in `0 .. sampleCount-1`;
neither is the "no bracket" value `-1` and both reads `samples[idx0]`, `samples[idx1]` are
reads of existing samples. -/
theorem brackets_always_exist (samples : List Sample) (target_ts : Int)
    (hcount : 1 ≤ samples.length) :
    (0 ≤ (findBrackets samples target_ts).1 ∧
      (findBrackets samples target_ts).1 ≤ (samples.length : Int) - 1) ∧
    (0 ≤ (findBrackets samples target_ts).2 ∧
      (findBrackets samples target_ts).2 ≤ (samples.length : Int) - 1) ∧
    (findBrackets samples target_ts).1 ≠ -1 ∧ (findBrackets samples target_ts).2 ≠ -1 ∧
    bracket0 samples target_ts ∈ samples ∧
    bracket1 samples target_ts ∈ samples := by
  have hne : samples ≠ [] := by
    intro h
    rw [h] at hcount
    simp at hcount
  obtain ⟨a, b, c, d⟩ := findBrackets_range samples target_ts hne
  exact ⟨⟨a, b⟩, ⟨c, d⟩, by omega, by omega, sampleAt_mem _ _ a b, sampleAt_mem _ _ c d⟩

/-- Claim C2, at a concrete input: the two-sample array and the target of local hour 15. -/
theorem brackets_always_exist_witness :
    1 ≤ twoSampleArray.length ∧
    ((0 ≤ (findBrackets twoSampleArray 1699974000).1 ∧
      (findBrackets twoSampleArray 1699974000).1 ≤ (twoSampleArray.length : Int) - 1) ∧
    (0 ≤ (findBrackets twoSampleArray 1699974000).2 ∧
      (findBrackets twoSampleArray 1699974000).2 ≤ (twoSampleArray.length : Int) - 1) ∧
    (findBrackets twoSampleArray 1699974000).1 ≠ -1 ∧
    (findBrackets twoSampleArray 1699974000).2 ≠ -1 ∧
    bracket0 twoSampleArray 1699974000 ∈ twoSampleArray ∧
    bracket1 twoSampleArray 1699974000 ∈ twoSampleArray) :=
  ⟨by decide, brackets_always_exist twoSampleArray 1699974000 (by decide)⟩

/-- Claim C3: for every target hour whose brackets differ in index and in timestamp, with
`alpha = (target - t0)/(t1 - t0)` clamped to `[0,1]`, each of the three unsmoothed values is
decided on its own: `v0 + (v1 - v0)*alpha` when both bracket values are present, the present
value when exactly one is, absent when both are absent; without smoothing these are the
values stored for the hour. In particular, for two samples at local hours 12 (temperature 60)
and 18 (temperature 80) the temperature stored for hour 15 is 70, with or without smoothing
(exact arithmetic). -/
theorem interpolation_rule :
    (∀ (samples : List Sample) (target_ts : Int),
      (findBrackets samples target_ts).1 ≠ (findBrackets samples target_ts).2 →
      (bracket0 samples target_ts).local_ts ≠
        (bracket1 samples target_ts).local_ts →
      (clampedAlpha target_ts (bracket0 samples target_ts).local_ts
          (bracket1 samples target_ts).local_ts =
        max 0 (min 1
          (((target_ts - (bracket0 samples target_ts).local_ts : Int) : ℚ) /
           (((bracket1 samples target_ts).local_ts -
              (bracket0 samples target_ts).local_ts : Int) : ℚ)))) ∧
      (hourValues samples target_ts).1 =
        metricRule (bracket0 samples target_ts).temp
          (bracket1 samples target_ts).temp
          (clampedAlpha target_ts (bracket0 samples target_ts).local_ts
            (bracket1 samples target_ts).local_ts) ∧
      (hourValues samples target_ts).2.1 =
        metricRule (bracket0 samples target_ts).wind
          (bracket1 samples target_ts).wind
          (clampedAlpha target_ts (bracket0 samples target_ts).local_ts
            (bracket1 samples target_ts).local_ts) ∧
      (hourValues samples target_ts).2.2 =
        metricRule (bracket0 samples target_ts).pop
          (bracket1 samples target_ts).pop
          (clampedAlpha target_ts (bracket0 samples target_ts).local_ts
            (bracket1 samples target_ts).local_ts)) ∧
    (∀ (n : Nat) (tz : Option Int) (list : List ForecastItem) (now_t : Int) (st : GraphState)
      (i : Nat), 10 ≤ n → list ≠ [] → i < GRAPH_HOURS →
      ((calculateGraphDataFromForecastRaw
          { rawLength := n, parsed := some { timezone := tz, list := some list } }
          now_t false st).2.graphTemp i,
       (calculateGraphDataFromForecastRaw
          { rawLength := n, parsed := some { timezone := tz, list := some list } }
          now_t false st).2.graphWind i,
       (calculateGraphDataFromForecastRaw
          { rawLength := n, parsed := some { timezone := tz, list := some list } }
          now_t false st).2.graphPop i) =
        hourValues (buildSamples (tz.getD 0) list)
          (targetTs (midnightLocal now_t (tz.getD 0)) i)) ∧
    (∀ (n : Nat) (now_t tz : Int) (w0 p0 w1 p1 : CFloat) (smooth : Bool) (st : GraphState),
      10 ≤ n →
      (calculateGraphDataFromForecastRaw
        { rawLength := n
          parsed := some
            { timezone := some tz
              list := some
                [ { dt := some (midnightLocal now_t tz + 12 * 3600 - tz), main := some (some 60),
                    windSpeed := w0, pop := p0 },
                  { dt := some (midnightLocal now_t tz + 18 * 3600 - tz), main := some (some 80),
                    windSpeed := w1, pop := p1 } ] } }
        now_t smooth st).2.graphTemp 6 = some 70) := by
  refine ⟨fun samples target_ts hidx ht => ?_, ?_, ?_⟩
  · rw [hourValues_interp samples target_ts hidx ht]
    exact ⟨clampedAlpha_eq _ _ _, interpMetric_eq_rule _ _ _, interpMetric_eq_rule _ _ _,
      interpMetric_eq_rule _ _ _⟩
  · intro n tz list now_t st i hn hne hi
    exact calculate_unsmoothed n tz list now_t st i hn hne hi
  · intro n now_t tz w0 p0 w1 p1 smooth st hn
    exact scenarioB_stored n now_t tz w0 p0 w1 p1 smooth st hn

/-- Claim C3, at a concrete input: the two samples of `twoSamples` (local 12:00 at 60, local
18:00 at 80) give 70 at local hour 15, by the rule and in the stored series. -/
theorem interpolation_rule_witness :
    (hourValues twoSampleArray 1699974000).1 = some 70 ∧
    (calculateGraphDataFromForecastRaw twoSamples 1700000000 true publishedState).2.graphTemp 6 =
      some 70 := by
  constructor
  · rw [(interpolation_rule.1 twoSampleArray 1699974000 (by decide) (by decide)).2.1]
    rw [(interpolation_rule.1 twoSampleArray 1699974000 (by decide) (by decide)).1]
    have e0 : bracket0 twoSampleArray 1699974000 =
        { dt := 1699981200, local_ts := 1699963200, temp := some 60, wind := some 5,
          pop := NAN } := by decide
    have e1 : bracket1 twoSampleArray 1699974000 =
        { dt := 1700002800, local_ts := 1699984800, temp := some 80, wind := NAN,
          pop := NAN } := by decide
    rw [e0, e1]
    norm_num [metricRule]
  · have h := interpolation_rule.2.2 400 1700000000 (-18000) (some 5) NAN NAN NAN true
      publishedState (by decide)
    have hm : midnightLocal 1700000000 (-18000) = 1699920000 := by decide
    rw [hm] at h
    exact h

/-- Claim C4: for every sample array (ordered or not) and every target hour whose brackets
differ in index and in timestamp, and for each of the three metrics: when both bracket
values `v0` and `v1` are present, the unsmoothed value of the hour is a number in the closed
interval `[min(v0,v1), max(v0,v1)]`. -/
theorem interpolation_bounds (samples : List Sample) (target_ts : Int)
    (hidx : (findBrackets samples target_ts).1 ≠ (findBrackets samples target_ts).2)
    (ht : (bracket0 samples target_ts).local_ts ≠
      (bracket1 samples target_ts).local_ts) :
    (∀ v0 v1 : ℚ, (bracket0 samples target_ts).temp = some v0 →
      (bracket1 samples target_ts).temp = some v1 →
      ∃ v, (hourValues samples target_ts).1 = some v ∧ min v0 v1 ≤ v ∧ v ≤ max v0 v1) ∧
    (∀ v0 v1 : ℚ, (bracket0 samples target_ts).wind = some v0 →
      (bracket1 samples target_ts).wind = some v1 →
      ∃ v, (hourValues samples target_ts).2.1 = some v ∧ min v0 v1 ≤ v ∧ v ≤ max v0 v1) ∧
    (∀ v0 v1 : ℚ, (bracket0 samples target_ts).pop = some v0 →
      (bracket1 samples target_ts).pop = some v1 →
      ∃ v, (hourValues samples target_ts).2.2 = some v ∧ min v0 v1 ≤ v ∧ v ≤ max v0 v1) := by
  rw [hourValues_interp samples target_ts hidx ht]
  obtain ⟨ha0, ha1⟩ := clampedAlpha_range target_ts
    (bracket0 samples target_ts).local_ts
    (bracket1 samples target_ts).local_ts
  refine ⟨fun v0 v1 e0 e1 => ?_, fun v0 v1 e0 e1 => ?_, fun v0 v1 e0 e1 => ?_⟩
  · simp only [interpMetric_eq_rule, e0, e1]
    exact metricRule_between v0 v1 _ ha0 ha1
  · simp only [interpMetric_eq_rule, e0, e1]
    exact metricRule_between v0 v1 _ ha0 ha1
  · simp only [interpMetric_eq_rule, e0, e1]
    exact metricRule_between v0 v1 _ ha0 ha1

/-- Claim C4, at a concrete input: the temperature of local hour 15 between the samples at
60 and 80 lies in `[60, 80]`. -/
theorem interpolation_bounds_witness :
    ∃ v, (hourValues twoSampleArray 1699974000).1 = some v ∧ min 60 80 ≤ v ∧ v ≤ max 60 80 :=
  (interpolation_bounds twoSampleArray 1699974000 (by decide) (by decide)).1 60 80
    (by decide) (by decide)

/-- Claim C5: for every target hour whose brackets coincide in index (`idx0 == idx1`) or in
timestamp (`t0 == t1`), the unsmoothed temperature, wind and precipitation are the fields of
the sample at `idx0`, unchanged, and these are the values the unsmoothed call stores for the
hour; the division of line 214 belongs to the other branch only, where its divisor `t1 - t0`
is not zero. -/
theorem degenerate_bracket_direct :
    (∀ (samples : List Sample) (target_ts : Int),
      ((findBrackets samples target_ts).1 = (findBrackets samples target_ts).2 ∨
        (bracket0 samples target_ts).local_ts = (bracket1 samples target_ts).local_ts) →
      hourValues samples target_ts =
        ((bracket0 samples target_ts).temp, (bracket0 samples target_ts).wind,
         (bracket0 samples target_ts).pop)) ∧
    (∀ (samples : List Sample) (target_ts : Int),
      ¬ ((findBrackets samples target_ts).1 = (findBrackets samples target_ts).2 ∨
        (bracket0 samples target_ts).local_ts = (bracket1 samples target_ts).local_ts) →
      ((((bracket1 samples target_ts).local_ts - (bracket0 samples target_ts).local_ts : Int)
        : ℚ) ≠ 0)) ∧
    (∀ (n : Nat) (tz : Option Int) (list : List ForecastItem) (now_t : Int) (st : GraphState)
      (i : Nat), 10 ≤ n → list ≠ [] → i < GRAPH_HOURS →
      ((findBrackets (buildSamples (tz.getD 0) list)
            (targetTs (midnightLocal now_t (tz.getD 0)) i)).1 =
          (findBrackets (buildSamples (tz.getD 0) list)
            (targetTs (midnightLocal now_t (tz.getD 0)) i)).2 ∨
        (bracket0 (buildSamples (tz.getD 0) list)
            (targetTs (midnightLocal now_t (tz.getD 0)) i)).local_ts =
          (bracket1 (buildSamples (tz.getD 0) list)
            (targetTs (midnightLocal now_t (tz.getD 0)) i)).local_ts) →
      (calculateGraphDataFromForecastRaw
          { rawLength := n, parsed := some { timezone := tz, list := some list } }
          now_t false st).2.graphTemp i =
        (bracket0 (buildSamples (tz.getD 0) list)
          (targetTs (midnightLocal now_t (tz.getD 0)) i)).temp ∧
      (calculateGraphDataFromForecastRaw
          { rawLength := n, parsed := some { timezone := tz, list := some list } }
          now_t false st).2.graphWind i =
        (bracket0 (buildSamples (tz.getD 0) list)
          (targetTs (midnightLocal now_t (tz.getD 0)) i)).wind ∧
      (calculateGraphDataFromForecastRaw
          { rawLength := n, parsed := some { timezone := tz, list := some list } }
          now_t false st).2.graphPop i =
        (bracket0 (buildSamples (tz.getD 0) list)
          (targetTs (midnightLocal now_t (tz.getD 0)) i)).pop) := by
  refine ⟨hourValues_direct, fun samples target_ts h => ?_, ?_⟩
  · intro hz
    apply h
    right
    have hz' : (bracket1 samples target_ts).local_ts - (bracket0 samples target_ts).local_ts = 0 := by
      exact_mod_cast hz
    omega
  · intro n tz list now_t st i hn hne hi h
    have hu := calculate_unsmoothed n tz list now_t st i hn hne hi
    rw [hourValues_direct _ _ h] at hu
    simp only [Prod.mk.injEq] at hu
    exact hu

/-- Claim C5, at a concrete input: the target of local hour 9 lies before both samples of the
two-sample array, both brackets are the first sample and its fields are returned. -/
theorem degenerate_bracket_direct_witness :
    hourValues twoSampleArray 1699952400 = (some 60, some 5, NAN) :=
  degenerate_bracket_direct.1 twoSampleArray 1699952400 (Or.inl (by decide))

/-- Claim C6: `smoothArray` is one pass over the values it was given: at every index `i`
below `n` the result is the smoothing law on the original array (a valid, non-absent element
becomes `(2*orig[i] + sum of the qualifying neighbours) / (2 + their number)`, every other
element is unchanged), indices from `n` on are untouched, and an interior element whose two
neighbours qualify becomes `(2*orig[i] + orig[i-1] + orig[i+1]) / 4`. -/
theorem smoothArray_single_pass (orig : Nat → CFloat) (valid : Nat → Bool) (n : Nat) :
    (∀ i, smoothArray orig valid n i = if i < n then smoothLaw orig valid n i else orig i) ∧
    (∀ (i : Nat) (c l r : ℚ), 0 < i → i + 1 < n → valid i = true → valid (i - 1) = true →
      valid (i + 1) = true → orig i = some c → orig (i - 1) = some l → orig (i + 1) = some r →
      smoothArray orig valid n i = some ((2 * c + l + r) / 4)) := by
  constructor
  · intro i
    by_cases hi : i < n
    · rw [if_pos hi, smoothArray_eq_law _ _ _ _ hi]
    · rw [if_neg hi, smoothArray_outside _ _ _ _ (by omega)]
  · intro i c l r h0 h1 hv hvl hvr hc hl hr
    rw [smoothArray_eq_law _ _ _ _ (by omega)]
    exact smoothLaw_interior orig valid n i c l r h0 h1 hv hvl hvr hc hl hr

/-- Claim C6, at a concrete input: the series `0, 1, .., 12`, all valid, at index 6. -/
theorem smoothArray_single_pass_witness :
    smoothArray (fun j => some (j : ℚ)) (fun _ => true) GRAPH_HOURS 6 =
      some ((2 * 6 + 5 + 7) / 4) :=
  (smoothArray_single_pass (fun j => some (j : ℚ)) (fun _ => true) GRAPH_HOURS).2 6 6 5 7
    (by decide) (by decide) rfl rfl rfl (by norm_num) (by norm_num) (by norm_num)

/-- Claim C7: `calculateGraphDataFromForecastRaw` returns `true` iff on return `graphValid[i]`
is set for at least one `i` in `0..12`; for an empty sample collection it returns `false`
with all 13 hours invalid and every stored value NaN. -/
theorem return_value_iff_any_valid (cache : CachedForecast) (now_t : Int) (smooth : Bool)
    (st : GraphState) :
    ((calculateGraphDataFromForecastRaw cache now_t smooth st).1 = true ↔
      ∃ i, i < GRAPH_HOURS ∧
        (calculateGraphDataFromForecastRaw cache now_t smooth st).2.graphValid i = true) ∧
    (∀ (n : Nat) (tz : Option Int),
      (calculateGraphDataFromForecastRaw
        { rawLength := n, parsed := some { timezone := tz, list := some [] } }
        now_t smooth st).1 = false ∧
      AllBlank (calculateGraphDataFromForecastRaw
        { rawLength := n, parsed := some { timezone := tz, list := some [] } }
        now_t smooth st).2) := by
  refine ⟨calculate_return_iff cache now_t smooth st, fun n tz => ?_⟩
  rw [calculate_empty]
  exact ⟨rfl, allBlank_init st⟩

/-- Claim C9: with `shifted = reference epoch + UTC offset` and `(hour, minute, second)` the
UTC wall-clock fields of `shifted`, the local midnight `shifted - (hour*3600 + minute*60 +
second)` is the greatest multiple of 86400 that is at most `shifted` (so `midnight <= shifted
< midnight + 86400`), the target of local hour `H = 9 + i` is `midnight + 3600*H`, every
sample carries the comparable timestamp `dt + offset`, and a call resamples exactly these
samples at exactly these targets. -/
theorem local_midnight_and_targets (now_t tz : Int) :
    (midnightLocal now_t tz =
      (now_t + tz) - ((gmtime_r (now_t + tz)).tm_hour * 3600 +
        (gmtime_r (now_t + tz)).tm_min * 60 + (gmtime_r (now_t + tz)).tm_sec)) ∧
    ((86400 : Int) ∣ midnightLocal now_t tz) ∧
    (midnightLocal now_t tz ≤ now_t + tz ∧ now_t + tz < midnightLocal now_t tz + 86400) ∧
    (∀ k : Int, (86400 : Int) ∣ k → k ≤ now_t + tz → k ≤ midnightLocal now_t tz) ∧
    (∀ i : Nat, targetTs (midnightLocal now_t tz) i =
      midnightLocal now_t tz + 3600 * (9 + (i : Int))) ∧
    (∀ (list : List ForecastItem) (s : Sample), s ∈ buildSamples tz list →
      s.local_ts = s.dt + tz) ∧
    (∀ (n : Nat) (list : List ForecastItem) (st : GraphState) (i : Nat),
      10 ≤ n → list ≠ [] → i < GRAPH_HOURS →
      ((calculateGraphDataFromForecastRaw
          { rawLength := n, parsed := some { timezone := some tz, list := some list } }
          now_t false st).2.graphTemp i,
       (calculateGraphDataFromForecastRaw
          { rawLength := n, parsed := some { timezone := some tz, list := some list } }
          now_t false st).2.graphWind i,
       (calculateGraphDataFromForecastRaw
          { rawLength := n, parsed := some { timezone := some tz, list := some list } }
          now_t false st).2.graphPop i) =
        hourValues (buildSamples tz list) (targetTs (midnightLocal now_t tz) i)) := by
  have hm := midnightLocal_eq now_t tz
  refine ⟨rfl, ⟨(now_t + tz) / 86400, hm⟩, ?_, ?_, ?_, ?_, ?_⟩
  · rw [hm]; omega
  · rintro k ⟨c, rfl⟩ hk
    rw [hm]; omega
  · intro i
    simp only [targetTs]
    ring
  · intro list s hs
    exact buildSamples_local_ts tz list s hs
  · intro n list st i hn hne hi
    exact calculate_unsmoothed n (some tz) list now_t st i hn hne hi

/-- Claim C9, at a concrete input: the epoch 1700000000 seen from UTC-5 is 17:13:20 local; the
local midnight is 1699920000 and the target of local hour 15 is 1699974000. -/
theorem local_midnight_and_targets_witness :
    midnightLocal 1700000000 (-18000) = 1699920000 ∧
    targetTs (midnightLocal 1700000000 (-18000)) 6 = 1699974000 ∧
    (∀ k : Int, (86400 : Int) ∣ k → k ≤ 1700000000 + -18000 →
      k ≤ midnightLocal 1700000000 (-18000)) :=
  ⟨by decide, by decide, (local_midnight_and_targets 1700000000 (-18000)).2.2.2.1⟩

/-- Claim C10, refuted as stated: a failed call (no cached payload) on a published series
returns `false` and hour 9 no longer holds the published temperature nor its flag. -/
theorem failed_call_overwrites_series :
    (calculateGraphDataFromForecastRaw noPayload 0 true publishedState).1 = false ∧
    (calculateGraphDataFromForecastRaw noPayload 0 true publishedState).2.graphTemp 0 ≠
      publishedState.graphTemp 0 ∧
    (calculateGraphDataFromForecastRaw noPayload 0 true publishedState).2.graphValid 0 ≠
      publishedState.graphValid 0 := by
  decide

/-- Claim C10, amended: when `calculateGraphDataFromForecastRaw` returns `false` (no cached
payload, parse error, missing list, empty sample set or no resolvable hour) the series are
not kept: at every hour `i` in `0..12` the flag `graphValid[i]` is cleared and `graphTemp[i]`,
`graphWind[i]`, `graphPop[i]` are NaN, whatever the arrays held before the call. -/
theorem failed_call_blanks_series (cache : CachedForecast) (now_t : Int) (smooth : Bool)
    (st : GraphState)
    (h : (calculateGraphDataFromForecastRaw cache now_t smooth st).1 = false) :
    AllBlank (calculateGraphDataFromForecastRaw cache now_t smooth st).2 :=
  calculate_false_blank cache now_t smooth st h

/-- Claim C10 as amended, at a concrete input: no cached payload, a published series. -/
theorem failed_call_blanks_series_witness :
    (calculateGraphDataFromForecastRaw noPayload 0 true publishedState).1 = false ∧
    AllBlank (calculateGraphDataFromForecastRaw noPayload 0 true publishedState).2 :=
  ⟨by decide, failed_call_blanks_series noPayload 0 true publishedState (by decide)⟩

/-- Claim C11, at the failing input: on a published series with precipitation 0.1 at every
(valid) hour, one call of `drawGraph(2)` leaves 10 in `graphPop[0]` and a second call leaves
1000, so the stored series is not what it was before the call and two renders in a row do
not plot the same values; the calls for temperature and wind leave every series alone. -/
theorem drawGraph_pop_rescales_stored_series :
    publishedState.graphPop 0 = some (1 / 10) ∧
    (drawGraph 2 graphArea none publishedState).1.graphPop 0 = some 10 ∧
    (drawGraph 2 graphArea none (drawGraph 2 graphArea none publishedState).1).1.graphPop 0 =
      some 1000 ∧
    (∀ (area : GraphArea) (clock : Option Tm) (st : GraphState),
      (drawGraph 0 area clock st).1 = st ∧ (drawGraph 1 area clock st).1 = st) := by
  have hw : 8 < graphArea.g_w := by decide
  have hh : 8 < graphArea.g_h := by decide
  have hf : (findMinMax (selectArr 2 publishedState) publishedState.graphValid
      GRAPH_HOURS).found = true := by decide
  have h1 : (drawGraph 2 graphArea none publishedState).1 = popToPercent publishedState := by
    rw [drawGraph_main 2 graphArea none publishedState hw hh hf]
    rfl
  have hv : (popToPercent publishedState).graphValid = publishedState.graphValid :=
    (popToPercent_spec publishedState).1
  have hf2 : (findMinMax (selectArr 2 (popToPercent publishedState))
      (popToPercent publishedState).graphValid GRAPH_HOURS).found = true := by
    rw [findMinMax_found, hv]
    exact ⟨0, by decide, rfl⟩
  have h2 : (drawGraph 2 graphArea none (popToPercent publishedState)).1 =
      popToPercent (popToPercent publishedState) := by
    rw [drawGraph_main 2 graphArea none _ hw hh hf2]
    rfl
  have e1 : (popToPercent publishedState).graphPop 0 = some 10 := by
    rw [(popToPercent_spec publishedState).2.2.2.2 0]
    norm_num [publishedState, fmul]
  refine ⟨rfl, ?_, ?_, ?_⟩
  · rw [h1, e1]
  · rw [h1, h2, (popToPercent_spec (popToPercent publishedState)).2.2.2.2 0, hv, e1]
    norm_num [publishedState, fmul]
  · intro area clock st
    constructor
    · by_cases hu : area.g_w ≤ 8 ∨ area.g_h ≤ 8
      · rw [drawGraph_unusable _ _ _ _ hu]
      · cases hfd : (findMinMax (selectArr 0 st) st.graphValid GRAPH_HOURS).found with
        | false => rw [drawGraph_noData _ _ _ _ (by omega) (by omega) hfd]
        | true =>
          rw [drawGraph_main _ _ _ _ (by omega) (by omega) hfd]
          rfl
    · by_cases hu : area.g_w ≤ 8 ∨ area.g_h ≤ 8
      · rw [drawGraph_unusable _ _ _ _ hu]
      · cases hfd : (findMinMax (selectArr 1 st) st.graphValid GRAPH_HOURS).found with
        | false => rw [drawGraph_noData _ _ _ _ (by omega) (by omega) hfd]
        | true =>
          rw [drawGraph_main _ _ _ _ (by omega) (by omega) hfd]
          rfl

/-- Claim C12, at the failing input: temperature is NaN at every hour while the wind makes
every hour valid, so the temperature has no hour that is valid and non-absent; `drawGraph(0)`
on a usable area nevertheless goes on to draw the grid instead of stopping after the "no
data" placeholder. In general the placeholder is emitted exactly when no hour is flagged
valid, and a metric that has a valid, non-absent value does get its axis. -/
theorem drawGraph_placeholder_ignores_absence :
    (∀ i, i < GRAPH_HOURS →
      ¬ (windOnlyState.graphValid i = true ∧ isnan (windOnlyState.graphTemp i) = false)) ∧
    DrawCmd.drawFastHLine 1 100 238 COL_GRID ∈ (drawGraph 0 graphArea none windOnlyState).2 ∧
    (drawGraph 0 graphArea none windOnlyState).2 ≠ frameCmds graphArea ++ noDataCmds graphArea ∧
    (∀ (graphType : Int) (area : GraphArea) (clock : Option Tm) (st : GraphState),
      8 < area.g_w → 8 < area.g_h →
      ((drawGraph graphType area clock st).2 = frameCmds area ++ noDataCmds area ↔
        ∀ i, i < GRAPH_HOURS → st.graphValid i = false)) ∧
    (∀ (graphType : Int) (area : GraphArea) (clock : Option Tm) (st : GraphState) (i : Nat),
      8 < area.g_w → 8 < area.g_h → i < GRAPH_HOURS → st.graphValid i = true →
      isnan (selectArr graphType st i) = false →
      DrawCmd.drawFastHLine (area.g_x + 1) area.g_y (area.g_w - 2) COL_GRID ∈
        (drawGraph graphType area clock st).2) := by
  have hw : 8 < graphArea.g_w := by decide
  have hh : 8 < graphArea.g_h := by decide
  have hf : (findMinMax (selectArr 0 windOnlyState) windOnlyState.graphValid
      GRAPH_HOURS).found = true := by decide
  have hline := drawGraph_main_grid_line 0 graphArea none windOnlyState hw hh hf
  refine ⟨by decide, hline, ?_, ?_, ?_⟩
  · intro h
    rw [h] at hline
    exact absurd hline (noData_no_grid_line graphArea _ _ _ _)
  · intro graphType area clock st hw' hh'
    exact drawGraph_placeholder_iff graphType area clock st hw' hh'
  · intro graphType area clock st i hw' hh' hi hv _
    exact drawGraph_main_grid_line graphType area clock st hw' hh'
      ((findMinMax_found _ _ _).mpr ⟨i, hi, hv⟩)

/-- Claim C13, at the failing input: every hour is valid, the temperature is 60 at index 0 and
absent (NaN) at index 1. `drawGraph(0)` draws the segment from point 0 to point 1 all the
same, down to the bottom-row placeholder `g_y + g_h - 1 = 239` of the absent point: the
polyline loop tests the two flags only (a segment is drawn exactly when both hours are
flagged valid), so an absent value at a valid hour does not break the line. -/
theorem drawGraph_segment_to_absent_point :
    (gapState.graphValid 0 = true ∧ gapState.graphValid 1 = true ∧
      gapState.graphTemp 0 = some 60 ∧ gapState.graphTemp 1 = NAN) ∧
    DrawCmd.drawLine 1 216 21 239 COL_TEMP ∈ (drawGraph 0 graphArea none gapState).2 ∧
    (∀ (valid : Nat → Bool) (px py : Nat → Int) (lineColor : Color) (i : Nat),
      DrawCmd.drawLine (px i) (py i) (px (i + 1)) (py (i + 1)) lineColor ∈
          polylineStep valid px py lineColor i ↔
        (valid i = true ∧ valid (i + 1) = true)) := by
  have hw : 8 < graphArea.g_w := by decide
  have hh : 8 < graphArea.g_h := by decide
  have hf : (findMinMax (selectArr 0 gapState) gapState.graphValid GRAPH_HOURS).found = true := by
    decide
  have hp : plottedState 0 gapState = gapState := rfl
  have hscan : scaleScan 0 gapState = ⟨true, some 60, some 62⟩ := by decide
  have hrange : scaleRange 0 gapState = (some (119 / 2), some (125 / 2)) := by
    unfold scaleRange
    rw [hscan]
    norm_num [padRange, fmul, fsub, fadd, fle, feq]
  have hpx0 : (plottedPixels 0 graphArea gapState).1 0 = 1 := by
    unfold plottedPixels
    rw [pixelPositions_px _ _ _ _ _ 0 (by decide)]
    norm_num [fracToPixelX, cround, graphArea, setGraphArea]
  have hpx1 : (plottedPixels 0 graphArea gapState).1 1 = 21 := by
    unfold plottedPixels
    rw [pixelPositions_px _ _ _ _ _ 1 (by decide)]
    norm_num [fracToPixelX, cround, graphArea, setGraphArea]
  have hpy0 : (plottedPixels 0 graphArea gapState).2 0 = 216 := by
    unfold plottedPixels
    rw [pixelPositions_py _ _ _ _ _ 0 (by decide), hrange, hp]
    norm_num [gapState, selectArr, isnan, valueToPixelY, fdiv, fsub, fmul, flt, ofInt,
      roundToInt, cround, graphArea, setGraphArea]
  have hpy1 : (plottedPixels 0 graphArea gapState).2 1 = 239 := by
    unfold plottedPixels
    rw [pixelPositions_py _ _ _ _ _ 1 (by decide), hp]
    norm_num [gapState, selectArr, isnan, NAN, graphArea, setGraphArea]
  refine ⟨by decide, ?_, polyline_segment_iff⟩
  have hseg := (polyline_segment_iff (plottedState 0 gapState).graphValid
    (plottedPixels 0 graphArea gapState).1 (plottedPixels 0 graphArea gapState).2
    (selectColor 0) 0).mpr ⟨rfl, rfl⟩
  rw [hpx0, hpy0, hpx1, hpy1] at hseg
  exact drawGraph_main_polyline 0 graphArea none gapState hw hh hf _
    (polylineStep_subset _ _ _ _ 0 (by decide) _ hseg)

/-- Claim C14: in a render of a metric that has data (usable area `g_w > 8`, `g_h > 8`, the
selected metric has an hour that is valid and non-absent), when the clock provides local time
(hour, minute), `drawGraph` issues display calls in the marker colour iff `curPos = (hour +
minute/60) - 9` satisfies `0 <= curPos <= 12`, that is exactly for the times from 09:00 to
21:00 inclusive; for any other time it issues what it issues without a clock, so no marker
primitive at all, and whenever the marker is drawn `floor(curPos)` and `ceil(curPos)` both
lie in `0..12`. -/
theorem marker_drawn_iff_on_domain (graphType : Int) (area : GraphArea) (timeinfo : Tm)
    (st : GraphState) (hw : 8 < area.g_w) (hh : 8 < area.g_h)
    (hv : ∃ i, i < GRAPH_HOURS ∧ st.graphValid i = true ∧
      isnan (selectArr graphType st i) = false) :
    ((∃ c, c ∈ (drawGraph graphType area (some timeinfo) st).2 ∧ isMarkerCmd c = true) ↔
      (0 ≤ curPosOf timeinfo ∧ curPosOf timeinfo ≤ 12)) ∧
    ((0 ≤ curPosOf timeinfo ∧ curPosOf timeinfo ≤ 12) ↔
      (9 * 60 ≤ timeinfo.tm_hour * 60 + timeinfo.tm_min ∧
        timeinfo.tm_hour * 60 + timeinfo.tm_min ≤ 21 * 60)) ∧
    (¬ (0 ≤ curPosOf timeinfo ∧ curPosOf timeinfo ≤ 12) →
      (drawGraph graphType area (some timeinfo) st).2 = (drawGraph graphType area none st).2 ∧
      ∀ c, c ∈ (drawGraph graphType area none st).2 → isMarkerCmd c = false) ∧
    ((0 ≤ curPosOf timeinfo ∧ curPosOf timeinfo ≤ 12) →
      (0 ≤ ⌊curPosOf timeinfo⌋ ∧ ⌊curPosOf timeinfo⌋ ≤ 12) ∧
      (0 ≤ ⌈curPosOf timeinfo⌉ ∧ ⌈curPosOf timeinfo⌉ ≤ 12)) := by
  obtain ⟨i, hi, hvi, _⟩ := hv
  have hf := (findMinMax_found (selectArr graphType st) st.graphValid GRAPH_HOURS).mpr
    ⟨i, hi, hvi⟩
  refine ⟨drawGraph_marker_iff graphType area timeinfo st hw hh hf, curPos_domain_iff timeinfo,
    fun hout => ⟨drawGraph_outside_eq graphType area timeinfo st hw hh hf hout, ?_⟩,
    fun h => marker_indices_in_range _ h.1 h.2⟩
  intro c hc
  cases hm : isMarkerCmd c with
  | false => rfl
  | true =>
    obtain ⟨c', hc', _⟩ := (drawGraph_main_marker_iff graphType area none st hw hh hf).mp
      ⟨c, hc, hm⟩
    rw [markerCmds_none] at hc'
    exact absurd hc' (List.not_mem_nil c')

/-- Claim C14, at a concrete input: the published series on the 240x140 area; at 15:30 the
marker is drawn, at 08:59 and at 21:01 it is not. -/
theorem marker_drawn_iff_on_domain_witness :
    (8 < graphArea.g_w ∧ 8 < graphArea.g_h ∧
      ∃ i, i < GRAPH_HOURS ∧ publishedState.graphValid i = true ∧
        isnan (selectArr 0 publishedState i) = false) ∧
    (∃ c, c ∈ (drawGraph 0 graphArea (some { tm_hour := 15, tm_min := 30, tm_sec := 0 })
      publishedState).2 ∧ isMarkerCmd c = true) ∧
    (¬ ∃ c, c ∈ (drawGraph 0 graphArea (some { tm_hour := 8, tm_min := 59, tm_sec := 0 })
      publishedState).2 ∧ isMarkerCmd c = true) ∧
    (¬ ∃ c, c ∈ (drawGraph 0 graphArea (some { tm_hour := 21, tm_min := 1, tm_sec := 0 })
      publishedState).2 ∧ isMarkerCmd c = true) := by
  have hv : ∃ i, i < GRAPH_HOURS ∧ publishedState.graphValid i = true ∧
      isnan (selectArr 0 publishedState i) = false := ⟨0, by decide, rfl, rfl⟩
  refine ⟨⟨by decide, by decide, hv⟩, ?_, ?_, ?_⟩
  · exact (marker_drawn_iff_on_domain 0 graphArea { tm_hour := 15, tm_min := 30, tm_sec := 0 }
      publishedState (by decide) (by decide) hv).1.mpr (by norm_num [curPosOf])
  · intro h
    have h2 := (marker_drawn_iff_on_domain 0 graphArea { tm_hour := 8, tm_min := 59, tm_sec := 0 }
      publishedState (by decide) (by decide) hv).1.mp h
    norm_num [curPosOf] at h2
  · intro h
    have h2 := (marker_drawn_iff_on_domain 0 graphArea { tm_hour := 21, tm_min := 1, tm_sec := 0 }
      publishedState (by decide) (by decide) hv).1.mp h
    norm_num [curPosOf] at h2

/-- Claim C15: when the marker is drawn (usable area, a valid hour, the clock's time on the
plotted domain), with `L = floor(curPos)` and `R = ceil(curPos)` the marker circle is issued
at the row that is the value-to-pixel mapping of `arr[L] + (arr[R] - arr[L])*(curPos - L)`
when both hours are valid and non-absent for the selected metric, and the fallback row
`g_y + g_h - 4` otherwise; at exactly hour 15 (minute 0) with index 6 valid and non-absent
that row is the row `py[6]` of series point 6. -/
theorem marker_row_interpolates (graphType : Int) (area : GraphArea) (timeinfo : Tm)
    (st : GraphState) (hw : 8 < area.g_w) (hh : 8 < area.g_h)
    (hv : ∃ i, i < GRAPH_HOURS ∧ st.graphValid i = true)
    (hin : 0 ≤ curPosOf timeinfo ∧ curPosOf timeinfo ≤ 12) :
    DrawCmd.fillCircle
        (fracToPixelX area (curPosOf timeinfo / (((GRAPH_HOURS : Int) - 1 : Int) : ℚ)))
        (markerRow area (selectArr graphType (plottedState graphType st)) st.graphValid
          (scaleRange graphType st).1 (scaleRange graphType st).2 (curPosOf timeinfo))
        4 COL_MARKER ∈ (drawGraph graphType area (some timeinfo) st).2 ∧
    (∀ a b : ℚ, st.graphValid ⌊curPosOf timeinfo⌋.toNat = true →
      st.graphValid ⌈curPosOf timeinfo⌉.toNat = true →
      selectArr graphType (plottedState graphType st) ⌊curPosOf timeinfo⌋.toNat = some a →
      selectArr graphType (plottedState graphType st) ⌈curPosOf timeinfo⌉.toNat = some b →
      markerRow area (selectArr graphType (plottedState graphType st)) st.graphValid
          (scaleRange graphType st).1 (scaleRange graphType st).2 (curPosOf timeinfo) =
        valueToPixelY area (scaleRange graphType st).1 (scaleRange graphType st).2
          (some (a + (b - a) * (curPosOf timeinfo - ((⌊curPosOf timeinfo⌋ : Int) : ℚ))))) ∧
    (¬ (st.graphValid ⌊curPosOf timeinfo⌋.toNat = true ∧
        st.graphValid ⌈curPosOf timeinfo⌉.toNat = true ∧
        isnan (selectArr graphType (plottedState graphType st) ⌊curPosOf timeinfo⌋.toNat) = false ∧
        isnan (selectArr graphType (plottedState graphType st) ⌈curPosOf timeinfo⌉.toNat) = false) →
      markerRow area (selectArr graphType (plottedState graphType st)) st.graphValid
          (scaleRange graphType st).1 (scaleRange graphType st).2 (curPosOf timeinfo) =
        area.g_y + area.g_h - 4) ∧
    (timeinfo.tm_hour = 15 → timeinfo.tm_min = 0 → st.graphValid 6 = true →
      isnan (selectArr graphType (plottedState graphType st) 6) = false →
      markerRow area (selectArr graphType (plottedState graphType st)) st.graphValid
          (scaleRange graphType st).1 (scaleRange graphType st).2 (curPosOf timeinfo) =
        (plottedPixels graphType area st).2 6) := by
  have hf := (findMinMax_found (selectArr graphType st) st.graphValid GRAPH_HOURS).mpr hv
  obtain ⟨c1, c2⟩ := markerRow_cases area (selectArr graphType (plottedState graphType st))
    st.graphValid (scaleRange graphType st).1 (scaleRange graphType st).2 (curPosOf timeinfo)
  refine ⟨drawGraph_marker_circle graphType area timeinfo st hw hh hf hin, c1, c2, ?_⟩
  intro h15 h0 hv6 ha6
  have hc : curPosOf timeinfo = ((6 : Nat) : ℚ) := by
    unfold curPosOf
    rw [h15, h0]
    norm_num
  rw [hc]
  exact markerRow_at_point graphType area st 6 (by decide) hv6 ha6

/-- Claim C15, at a concrete input: the published series on the 240x140 area at 15:00; the
marker circle sits on the row of series point 6. -/
theorem marker_row_interpolates_witness :
    (8 < graphArea.g_w ∧ 8 < graphArea.g_h ∧
      (∃ i, i < GRAPH_HOURS ∧ publishedState.graphValid i = true) ∧
      0 ≤ curPosOf { tm_hour := 15, tm_min := 0, tm_sec := 0 } ∧
      curPosOf { tm_hour := 15, tm_min := 0, tm_sec := 0 } ≤ 12) ∧
    DrawCmd.fillCircle
        (fracToPixelX graphArea (curPosOf { tm_hour := 15, tm_min := 0, tm_sec := 0 } /
          (((GRAPH_HOURS : Int) - 1 : Int) : ℚ)))
        ((plottedPixels 0 graphArea publishedState).2 6)
        4 COL_MARKER ∈
      (drawGraph 0 graphArea (some { tm_hour := 15, tm_min := 0, tm_sec := 0 })
        publishedState).2 := by
  have hv : ∃ i, i < GRAPH_HOURS ∧ publishedState.graphValid i = true := ⟨0, by decide, rfl⟩
  have hin : 0 ≤ curPosOf { tm_hour := 15, tm_min := 0, tm_sec := 0 } ∧
      curPosOf { tm_hour := 15, tm_min := 0, tm_sec := 0 } ≤ 12 := by
    norm_num [curPosOf]
  have h := marker_row_interpolates 0 graphArea { tm_hour := 15, tm_min := 0, tm_sec := 0 }
    publishedState (by decide) (by decide) hv hin
  refine ⟨⟨by decide, by decide, hv, hin⟩, ?_⟩
  rw [← h.2.2.2 rfl rfl rfl rfl]
  exact h.1

/-- Claim C16, refuted as stated: two samples share the timestamp 10 (a non-decreasing set)
and the target is 10. The scan stops at the first of them, so the unclamped `idx0` is 0,
while the greatest index with `sample_ts <= target` is 1. -/
theorem latest_sample_missed_at_shared_timestamp :
    NonDecreasing twinSamples ∧
    (∃ j : Nat, j < twinSamples.length ∧ (sampleAt twinSamples j).local_ts ≤ 10) ∧
    (scanBrackets twinSamples 10).1 = 0 ∧
    ¬ GreatestAtOrBefore twinSamples 10 (scanBrackets twinSamples 10).1 := by
  refine ⟨?_, ⟨1, by decide, by decide⟩, by decide, ?_⟩
  · intro i j hij hj
    have hj2 : j < 2 := hj
    interval_cases j <;> interval_cases i <;> decide
  · intro h
    have h1 := h.2.2.2 1 (by decide) (by decide)
    have h0 : (scanBrackets twinSamples 10).1 = 0 := by decide
    rw [h0] at h1
    exact absurd h1 (by decide)

/-- Claim C16, amended: for every sample set that is non-decreasing in timestamp and every
target timestamp: if some sample has `sample_ts <= target` and at most one sample has the
timestamp `target` itself, the unclamped `idx0` is the greatest index with `sample_ts <=
target`; when samples sit exactly at the target, the scan stops at the first of them and
`idx0 = idx1` is its index; and if some sample has `sample_ts >= target`, `idx1` is the least
index with `sample_ts >= target`. -/
theorem bracket_search_on_ordered_samples (samples : List Sample) (target_ts : Int)
    (hsorted : NonDecreasing samples) :
    ((∀ i j : Nat, i < samples.length → j < samples.length →
        (sampleAt samples i).local_ts = target_ts → (sampleAt samples j).local_ts = target_ts →
        i = j) →
      (∃ j : Nat, j < samples.length ∧ (sampleAt samples j).local_ts ≤ target_ts) →
      GreatestAtOrBefore samples target_ts (scanBrackets samples target_ts).1) ∧
    ((∃ j : Nat, j < samples.length ∧ (sampleAt samples j).local_ts = target_ts) →
      (scanBrackets samples target_ts).1 = (scanBrackets samples target_ts).2) ∧
    ((∃ j : Nat, j < samples.length ∧ (sampleAt samples j).local_ts ≥ target_ts) →
      LeastAtOrAfter samples target_ts (scanBrackets samples target_ts).2) :=
  ⟨fun huniq hex => scanBrackets_idx0 samples target_ts hsorted huniq hex,
    fun hex => (scanBrackets_at_target samples target_ts hsorted hex).1,
    fun hex => scanBrackets_idx1 samples target_ts hex⟩

/-- Claim C16 as amended, at a concrete input: the two-sample array and the target of local
hour 15 between the two samples; `idx0` is index 0 and `idx1` is index 1. -/
theorem bracket_search_on_ordered_samples_witness :
    NonDecreasing twoSampleArray ∧
    GreatestAtOrBefore twoSampleArray 1699974000 (scanBrackets twoSampleArray 1699974000).1 ∧
    LeastAtOrAfter twoSampleArray 1699974000 (scanBrackets twoSampleArray 1699974000).2 := by
  have hs : NonDecreasing twoSampleArray := by
    intro i j hij hj
    have hj2 : j < 2 := hj
    interval_cases j <;> interval_cases i <;> decide
  have h := bracket_search_on_ordered_samples twoSampleArray 1699974000 hs
  refine ⟨hs, h.1 ?_ ⟨0, by decide, by decide⟩, h.2.2 ⟨1, by decide, by decide⟩⟩
  intro i j hi hj hti _
  have hi2 : i < 2 := hi
  interval_cases i <;> exact absurd hti (by decide)

/-- Claim C17, at the failing input: every hour is valid, the temperature is absent at hour 9
(index 0), 61 at hour 10 and 72 from hour 11 on, so the valid, non-absent temperatures have
minimum 61 and maximum 72; the pair `drawGraph(0)` scales with is `(NaN, NaN)`. In general
the scan returns `(NaN, NaN)` whenever the first valid hour holds an absent value, and the
minimum and maximum of the valid, non-absent values whenever it holds a number. -/
theorem scaling_range_poisoned_by_absent_first_hour :
    (IsMinOfValid lateStartState.graphTemp lateStartState.graphValid GRAPH_HOURS 61 ∧
      IsMaxOfValid lateStartState.graphTemp lateStartState.graphValid GRAPH_HOURS 72) ∧
    scaleScan 0 lateStartState = { found := true, minV := NAN, maxV := NAN } ∧
    (∀ (arr : Nat → CFloat) (valid : Nat → Bool) (n k : Nat),
      k < n → valid k = true → (∀ i, i < k → valid i = false) → arr k = NAN →
      (findMinMax arr valid n).minV = NAN ∧ (findMinMax arr valid n).maxV = NAN) ∧
    (∀ (arr : Nat → CFloat) (valid : Nat → Bool) (n k : Nat) (a : ℚ),
      k < n → valid k = true → (∀ i, i < k → valid i = false) → arr k = some a →
      ∃ mn mx : ℚ, (findMinMax arr valid n).minV = some mn ∧
        (findMinMax arr valid n).maxV = some mx ∧
        IsMinOfValid arr valid n mn ∧ IsMaxOfValid arr valid n mx) := by
  refine ⟨⟨⟨⟨1, by decide, rfl, rfl⟩, ?_⟩, ⟨⟨12, by decide, rfl, rfl⟩, ?_⟩⟩, by decide,
    findMinMax_first_absent, findMinMax_first_present⟩
  · intro i q _ _ hq
    by_cases h0 : i = 0
    · simp [lateStartState, h0, NAN] at hq
    · by_cases h1 : i = 1
      · subst h1
        simp only [lateStartState, Nat.one_ne_zero, if_false, if_true, Option.some.injEq] at hq
        linarith
      · simp only [lateStartState, h0, h1, if_false, Option.some.injEq] at hq
        linarith
  · intro i q _ _ hq
    by_cases h0 : i = 0
    · simp [lateStartState, h0, NAN] at hq
    · by_cases h1 : i = 1
      · subst h1
        simp only [lateStartState, Nat.one_ne_zero, if_false, if_true, Option.some.injEq] at hq
        linarith
      · simp only [lateStartState, h0, h1, if_false, Option.some.injEq] at hq
        linarith

/-- Claim C18: for every pair of numbers `min <= max` found by the scan, the padding of
`drawGraph` is `max(0.12*(max - min), 0.5)`, the padded bounds `vmin' = min - padding` and
`vmax' = max + padding` are at least 1 apart, so the divisor `vmax' - vmin'` of the
value-to-pixel mapping is not zero, every value between `min` and `max` lies strictly
inside `(vmin', vmax')`, and the unit-width branch leaves the pair as it is; this is the pair
a call scales with. -/
theorem padding_keeps_axis_open (mn mx : ℚ) (h : mn ≤ mx) :
    padRange (some mn) (some mx) =
      (some (mn - max ((mx - mn) * (12 / 100)) (1 / 2)),
       some (mx + max ((mx - mn) * (12 / 100)) (1 / 2))) ∧
    feq (some (mn - max ((mx - mn) * (12 / 100)) (1 / 2)))
      (some (mx + max ((mx - mn) * (12 / 100)) (1 / 2))) = false ∧
    1 ≤ (mx + max ((mx - mn) * (12 / 100)) (1 / 2)) -
      (mn - max ((mx - mn) * (12 / 100)) (1 / 2)) ∧
    fsub (padRange (some mn) (some mx)).2 (padRange (some mn) (some mx)).1 ≠ some 0 ∧
    fsub (padRange (some mn) (some mx)).2 (padRange (some mn) (some mx)).1 ≠ NAN ∧
    (∀ v : ℚ, mn ≤ v → v ≤ mx →
      mn - max ((mx - mn) * (12 / 100)) (1 / 2) < v ∧
      v < mx + max ((mx - mn) * (12 / 100)) (1 / 2)) ∧
    (∀ (graphType : Int) (st : GraphState),
      (scaleScan graphType st).minV = some mn → (scaleScan graphType st).maxV = some mx →
      scaleRange graphType st =
        (some (mn - max ((mx - mn) * (12 / 100)) (1 / 2)),
         some (mx + max ((mx - mn) * (12 / 100)) (1 / 2)))) := by
  have hpad : (1 / 2 : ℚ) ≤ max ((mx - mn) * (12 / 100)) (1 / 2) := le_max_right _ _
  have hspan : 1 ≤ (mx + max ((mx - mn) * (12 / 100)) (1 / 2)) -
      (mn - max ((mx - mn) * (12 / 100)) (1 / 2)) := by linarith
  have hr := padRange_numbers mn mx h
  refine ⟨hr, ?_, hspan, ?_, ?_, ?_, ?_⟩
  · have hne : ¬ (mn - max ((mx - mn) * (12 / 100)) (1 / 2) =
        mx + max ((mx - mn) * (12 / 100)) (1 / 2)) := by
      intro he
      linarith
    simp only [feq, decide_eq_false_iff_not]
    exact hne
  · rw [hr]
    simp only [fsub, ne_eq, Option.some.injEq]
    intro he
    linarith
  · rw [hr]
    simp [fsub, NAN]
  · intro v h1 h2
    constructor <;> linarith
  · intro graphType st h1 h2
    unfold scaleRange
    rw [h1, h2, hr]

/-- Claim C18, at a concrete input: the temperatures 60 and 62 are padded by 0.5 to the pair
`(59.5, 62.5)`. -/
theorem padding_keeps_axis_open_witness :
    (60 : ℚ) ≤ 62 ∧ padRange (some 60) (some 62) = (some (119 / 2), some (125 / 2)) := by
  refine ⟨by norm_num, ?_⟩
  rw [(padding_keeps_axis_open 60 62 (by norm_num)).1]
  norm_num

/-- Claim C19: for a rectangle with `g_h > 8` and padded bounds `vmin < vmax`, the vertical
mapping `py(v) = g_y + (g_h-1) - round(clamp((v - vmin)/(vmax - vmin), 0, 1) * (g_h-1))` is
what the code computes; it is inverted and monotone (`v <= v'` implies `py(v) >= py(v')`),
sends `vmin` to the bottom row `g_y + g_h - 1` and `vmax` to the top row `g_y`, and sends
every value to a row of the rectangle, `g_y <= py(v) <= g_y + g_h - 1`. -/
theorem vertical_mapping_inverted_monotone (area : GraphArea) (vmin vmax : ℚ)
    (hh : 8 < area.g_h) (hv : vmin < vmax) :
    (∀ v : ℚ, valueToPixelY area (some vmin) (some vmax) (some v) =
      area.g_y + (area.g_h - 1) -
        cround (max 0 (min 1 ((v - vmin) / (vmax - vmin))) * ((area.g_h - 1 : Int) : ℚ))) ∧
    (∀ v v' : ℚ, v ≤ v' →
      valueToPixelY area (some vmin) (some vmax) (some v') ≤
        valueToPixelY area (some vmin) (some vmax) (some v)) ∧
    valueToPixelY area (some vmin) (some vmax) (some vmin) = area.g_y + area.g_h - 1 ∧
    valueToPixelY area (some vmin) (some vmax) (some vmax) = area.g_y ∧
    (∀ v : ℚ, area.g_y ≤ valueToPixelY area (some vmin) (some vmax) (some v) ∧
      valueToPixelY area (some vmin) (some vmax) (some v) ≤ area.g_y + area.g_h - 1) := by
  have hd : 0 < vmax - vmin := by linarith
  have hH : (0 : ℚ) ≤ ((area.g_h - 1 : Int) : ℚ) := by
    have : (0 : Int) ≤ area.g_h - 1 := by omega
    exact_mod_cast this
  have hzero : cround 0 = 0 := by
    have := cround_intCast 0
    simpa using this
  refine ⟨fun v => valueToPixelY_numbers area vmin vmax v hv, ?_, ?_, ?_, ?_⟩
  · intro v v' hvv
    rw [valueToPixelY_numbers area vmin vmax v hv, valueToPixelY_numbers area vmin vmax v' hv]
    have h1 : (v - vmin) / (vmax - vmin) ≤ (v' - vmin) / (vmax - vmin) :=
      div_le_div_of_nonneg_right (by linarith) (le_of_lt hd)
    have h2 : max 0 (min 1 ((v - vmin) / (vmax - vmin))) ≤
        max 0 (min 1 ((v' - vmin) / (vmax - vmin))) :=
      max_le_max (le_refl _) (min_le_min (le_refl _) h1)
    have h3 := cround_mono _ _ (mul_le_mul_of_nonneg_right h2 hH)
    omega
  · rw [valueToPixelY_numbers area vmin vmax vmin hv]
    have : max 0 (min 1 ((vmin - vmin) / (vmax - vmin))) = 0 := by
      rw [sub_self, zero_div, min_eq_right (by norm_num), max_self]
    rw [this, zero_mul, hzero]
    omega
  · rw [valueToPixelY_numbers area vmin vmax vmax hv]
    have : max 0 (min 1 ((vmax - vmin) / (vmax - vmin))) = 1 := by
      rw [div_self (ne_of_gt hd), min_self, max_eq_right (by norm_num)]
    rw [this, one_mul, cround_intCast]
    omega
  · intro v
    rw [valueToPixelY_numbers area vmin vmax v hv]
    have hc0 : (0 : ℚ) ≤ max 0 (min 1 ((v - vmin) / (vmax - vmin))) := le_max_left _ _
    have hc1 : max 0 (min 1 ((v - vmin) / (vmax - vmin))) ≤ 1 :=
      max_le (by norm_num) (min_le_left _ _)
    have hlo := cround_mono 0 _ (mul_nonneg hc0 hH)
    have hhi := cround_mono _ _ (mul_le_of_le_one_left hH hc1)
    rw [hzero] at hlo
    rw [cround_intCast] at hhi
    omega

/-- Claim C19, at a concrete input: on the 240x140 area with bounds 59.5 and 62.5, the value
60 is mapped to row 216, between the top row 100 and the bottom row 239. -/
theorem vertical_mapping_inverted_monotone_witness :
    (8 < graphArea.g_h ∧ (119 / 2 : ℚ) < 125 / 2) ∧
    valueToPixelY graphArea (some (119 / 2)) (some (125 / 2)) (some 60) = 216 ∧
    valueToPixelY graphArea (some (119 / 2)) (some (125 / 2)) (some (119 / 2)) = 239 ∧
    valueToPixelY graphArea (some (119 / 2)) (some (125 / 2)) (some (125 / 2)) = 100 := by
  have h := vertical_mapping_inverted_monotone graphArea (119 / 2) (125 / 2) (by decide)
    (by norm_num)
  refine ⟨⟨by decide, by norm_num⟩, ?_, ?_, ?_⟩
  · rw [h.1 60]
    norm_num [cround, graphArea, setGraphArea]
  · rw [h.2.2.1]
    decide
  · rw [h.2.2.2.1]
    decide

end WeatherStation
